import Mathlib

/-!
# elmos: client-side streaming session layer and terminal decoder

Shallow embedding of

* `QEMUConsoleWidget::processANSI` (src/core/ui/graphical/src/qemuconsolewidget.cpp), the
  ANSI/SGR decoder of the QEMU console, and
* the operations of `GrpcClient` (src/core/ui/graphical/src/grpcclient.cpp), the client facade
  over the gRPC transport,

followed by theorems about them.
-/

namespace Elmos

/-! ## Terminal decoder: data model -/

/-- The eight Qt global colours the console widget uses. -/
inductive QColor where
  | black | red | green | yellow | blue | magenta | cyan | white
  deriving DecidableEq, Repr

/-- The part of a `QTextCharFormat` the widget ever sets: the foreground brush, the background
brush, and whether the font weight has been set to `QFont::Bold`. -/
structure QTextCharFormat where
  foreground : QColor
  background : QColor
  bold : Bool
  deriving DecidableEq, Repr

/-- A `QString`, as the list of its characters. -/
abbrev QString := List Char

/-- One call of `appendText(text, format)`: a run of text inserted with one character format. -/
structure StyledRun where
  text : QString
  format : QTextCharFormat
  deriving DecidableEq, Repr

/-- The escape introducer, `'\x1b'`. -/
def ESC : Char := Char.ofNat 27

/-- The member `defaultFormat_` as the constructor leaves it: `setForeground(Qt::white)`,
`setBackground(Qt::black)`, font weight untouched. The constructor also copies it into
`currentFormat_`. -/
def defaultFormat : QTextCharFormat :=
  { foreground := QColor.white, background := QColor.black, bold := false }

/-- The local array `QColor colors[]` of `processANSI`. -/
def colors : List QColor :=
  [QColor.black, QColor.red, QColor.green, QColor.yellow,
   QColor.blue, QColor.magenta, QColor.cyan, QColor.white]

/-- The array access `colors[i]`; `none` stands for an access outside the eight entries. -/
def colorAt (i : Int) : Option QColor :=
  if 0 ≤ i then colors[i.toNat]? else none

/-! ## Terminal decoder: the Qt string operations `processANSI` calls -/

/-- The decimal value of a string of ASCII digits. -/
def decimalValue (code : QString) : Nat :=
  code.foldl (fun acc d => 10 * acc + (d.toNat - 48)) 0

/-- `QString::toInt()` on the strings `processANSI` passes to it, which are non-empty strings of
ASCII digits: the decimal value when it fits a 32-bit `int`, and `0` (the value Qt returns when
the conversion fails) otherwise. -/
def toInt (code : QString) : Int :=
  if code ≠ [] ∧ code.all Char.isDigit = true then
    if decimalValue code ≤ 2147483647 then (decimalValue code : Int) else 0
  else 0

/-- `QString::split(sep)` with the default `Qt::KeepEmptyParts`. -/
def splitKeepEmpty (sep : Char) : QString → List QString
  | [] => [[]]
  | c :: cs =>
    if c = sep then [] :: splitKeepEmpty sep cs
    else
      match splitKeepEmpty sep cs with
      | [] => [[c]]
      | p :: ps => (c :: p) :: ps

/-- `QString::split(sep, Qt::SkipEmptyParts)`. -/
def split (sep : Char) (s : QString) : List QString :=
  (splitKeepEmpty sep s).filter (fun p => !p.isEmpty)

/-- The character class `[0-9;]` of `ansiRegex`. -/
def isParamChar (c : Char) : Bool := c.isDigit || c == ';'

/-- The character class `[a-zA-Z]` of `ansiRegex`. -/
def isCommandChar (c : Char) : Bool := c.isAlpha

/-- Does `\x1b\[([0-9;]*)([a-zA-Z])` match at the very start of `s`? Returns the two captures.
The classes `[0-9;]` and `[a-zA-Z]` are disjoint, so the greedy star takes the whole run of
parameter characters and the character after the run has to be a letter. -/
def matchHere (s : QString) : Option (QString × Char) :=
  match s with
  | e :: b :: rest =>
    if e = ESC ∧ b = '[' then
      match rest.dropWhile isParamChar with
      | cmd :: _ => if isCommandChar cmd then some (rest.takeWhile isParamChar, cmd) else none
      | [] => none
    else none
  | _ => none

/-- A successful `QRegularExpressionMatch` of `ansiRegex`. -/
structure RegexMatch where
  capturedStart : Nat
  captured1 : QString
  captured2 : Char
  capturedEnd : Nat
  deriving DecidableEq, Repr

/-- The leftmost match of `ansiRegex` in `s`, where `s` starts at offset `start` of the text. -/
def matchFrom : QString → Nat → Option RegexMatch
  | [], _ => none
  | c :: cs, start =>
    match matchHere (c :: cs) with
    | some (params, cmd) =>
      some { capturedStart := start, captured1 := params, captured2 := cmd,
             capturedEnd := start + 2 + params.length + 1 }
    | none => matchFrom cs (start + 1)

/-- `ansiRegex.match(text, offset)`: the leftmost match starting at `offset` or later, `none`
when `hasMatch()` is false. -/
def ansiRegexMatch (text : QString) (offset : Nat) : Option RegexMatch :=
  matchFrom (text.drop offset) offset

/-- `text.indexOf(ch, start)`; `none` stands for the result `-1`. -/
def indexOf (text : QString) (ch : Char) (start : Nat) : Option Nat :=
  if ch ∈ text.drop start then some (start + (text.drop start).indexOf ch) else none

/-- `text.mid(pos)`. -/
def midToEnd (text : QString) (pos : Nat) : QString := text.drop pos

/-- `text.mid(pos, n)`. -/
def mid (text : QString) (pos n : Nat) : QString := (text.drop pos).take n

/-! ## Terminal decoder: `processANSI` -/

/-- The body of `for (const QString &code : codes)`: one SGR code applied to `currentFormat_`. -/
def applyCode (currentFormat : QTextCharFormat) (code : QString) : QTextCharFormat :=
  let c := toInt code
  if c = 0 then defaultFormat
  else if 30 ≤ c ∧ c ≤ 37 then
    match colorAt (c - 30) with
    | some col => { currentFormat with foreground := col }
    | none => currentFormat
  else if 40 ≤ c ∧ c ≤ 47 then
    match colorAt (c - 40) with
    | some col => { currentFormat with background := col }
    | none => currentFormat
  else if c = 1 then { currentFormat with bold := true }
  else currentFormat

/-- The effect of one matched sequence on `currentFormat_`: for command `m` the codes of
`params.split(';', Qt::SkipEmptyParts)` are applied in order, any other command does nothing. -/
def applySequence (currentFormat : QTextCharFormat) (params : QString) (command : Char) :
    QTextCharFormat :=
  if command = 'm' then (split ';' params).foldl applyCode currentFormat else currentFormat

/-- What one run of the decoder leaves behind: the new `currentFormat_` and the `appendText`
calls it made, in order. -/
abbrev DecodeResult := QTextCharFormat × List StyledRun

/-- Record an `appendText` call made before the rest of the loop runs. -/
def emit (run : StyledRun) (rest : Option DecodeResult) : Option DecodeResult :=
  rest.map (fun r => (r.1, run :: r.2))

/-- The `while (pos < text.length())` loop of `processANSI`, from position `pos` with the
current format `currentFormat`. Each iteration costs one unit of fuel; `none` means the fuel ran
out before the loop exited. -/
def processLoop (text : QString) : Nat → Nat → QTextCharFormat → Option DecodeResult
  | 0, _, _ => none
  | fuel + 1, pos, currentFormat =>
    if pos < text.length then
      match (ansiRegexMatch text pos).filter (fun m => m.capturedStart = pos) with
      | some m =>
        processLoop text fuel m.capturedEnd (applySequence currentFormat m.captured1 m.captured2)
      | none =>
        match indexOf text ESC pos with
        | none => some (currentFormat, [{ text := midToEnd text pos, format := currentFormat }])
        | some nextEscape =>
          emit { text := mid text pos (nextEscape - pos), format := currentFormat }
            (processLoop text fuel nextEscape currentFormat)
    else some (currentFormat, [])

/-- `QEMUConsoleWidget::processANSI(data)`, run with `fuel` loop iterations allowed, from the
current format `currentFormat`. `text` is `QString::fromUtf8(data)`, the first statement of
the function; `processANSIBytes` below is the function from the bytes on. -/
def processANSI (fuel : Nat) (currentFormat : QTextCharFormat) (text : QString) :
    Option DecodeResult :=
  processLoop text fuel 0 currentFormat

/-- The characters of a list of runs, each with the format it was inserted with. -/
def styledChars (runs : List StyledRun) : List (Char × QTextCharFormat) :=
  runs.flatMap (fun r => r.text.map (fun c => (c, r.format)))

/-! ## Client facade: wire messages and notifications -/

/-- A `QByteArray`. -/
abbrev QByteArray := List UInt8

/-- The final `grpc::Status` of a call. -/
structure Status where
  ok : Bool
  error_message : String

/-- One `elmos::v1::BuildProgress` message, by its `event_case()`. `notSet` is
`EVENT_NOT_SET`: the oneof is empty, or holds a tag this client does not know. -/
inductive BuildProgress where
  | stage (name : String) (progress current_file total_files : Int)
  | log (level : Int) (message : String) (timestamp_ms : Int)
  | error (message file : String) (line : Int)
  | complete (success : Bool) (duration_ms : Int) (image_path : String)
  | notSet
  deriving DecidableEq, Repr

/-- One `elmos::v1::CloneProgress` message. -/
structure CloneProgress where
  progress : Int
  message : String
  deriving DecidableEq, Repr

/-- One `elmos::v1::QEMUOutput` message, by its `event_case()`. -/
inductive QEMUOutput where
  | started (pid : Int) (qemu_version command : String)
  | console (data : QByteArray)
  | stopped (exit_code : Int) (uptime_ms : Int)
  | error (message : String)
  | notSet
  deriving DecidableEq, Repr

/-- The signals of `GrpcClient` (grpcclient.h). -/
inductive Signal where
  | buildStageChanged (stageName : String) (progress currentFile totalFiles : Int)
  | buildLogReceived (level : Int) (message : String) (timestamp : Int)
  | buildErrorReceived (message file : String) (line : Int)
  | buildCompleted (success : Bool) (durationMs : Int) (imagePath : String)
  | cloneProgress (progress : Int) (message : String)
  | qemuStarted (pid : Int) (qemuVersion command : String)
  | qemuConsoleOutput (data : QByteArray)
  | qemuStopped (exitCode : Int) (uptimeMs : Int)
  | qemuError (error : String)
  | errorOccurred (error : String)
  deriving DecidableEq, Repr

structure BuildRequest where
  targets : List String
  jobs : Int
  arch : String
  verbose : Bool

structure CloneRequest where
  version : String

structure ConfigureRequest where
  config_type : String

structure ConfigureResponse where
  success : Bool
  error_message : String

structure CleanRequest where
  deep_clean : Bool

structure CleanResponse where
  success : Bool

structure ListVersionsRequest where
  limit : Int

structure ListVersionsResponse where
  versions : List String

structure QEMURunRequest where
  graphical : Bool
  debug : Bool
  memory_mb : Int
  cpus : Int
  extra_args : List String
  kernel_cmdline : String

structure QEMUStopRequest where

structure QEMUStopResponse where
  success : Bool

structure QEMUInputRequest where
  data : QByteArray

structure QEMUInputResponse where
  success : Bool

/-! ## Client facade: the transport -/

/-- What a server-streaming call delivers: the messages for which `reader->Read` returns true,
in order, and then the status `reader->Finish()` returns. -/
structure ServerStream (α : Type) where
  messages : List α
  status : Status

/-- What a unary call delivers: its status and the response it filled in. -/
structure UnaryReply (α : Type) where
  status : Status
  response : α

/-- The transport behind `elmos::v1::KernelService::Stub`. -/
structure KernelStub where
  Build : BuildRequest → ServerStream BuildProgress
  Clone : CloneRequest → ServerStream CloneProgress
  Configure : ConfigureRequest → UnaryReply ConfigureResponse
  Clean : CleanRequest → UnaryReply CleanResponse
  ListVersions : ListVersionsRequest → UnaryReply ListVersionsResponse

/-- The transport behind `elmos::v1::QEMUService::Stub`. -/
structure QEMUStub where
  Run : QEMURunRequest → ServerStream QEMUOutput
  Stop : QEMUStopRequest → UnaryReply QEMUStopResponse
  SendInput : QEMUInputRequest → UnaryReply QEMUInputResponse

/-- The values of `grpc_connectivity_state`. -/
inductive ConnectivityState where
  | GRPC_CHANNEL_IDLE
  | GRPC_CHANNEL_CONNECTING
  | GRPC_CHANNEL_READY
  | GRPC_CHANNEL_TRANSIENT_FAILURE
  | GRPC_CHANNEL_SHUTDOWN
  deriving DecidableEq, Repr

/-- `GrpcClient::Impl`; `none` is a null pointer. For the channel only the state
`GetState(false)` reports is kept. -/
structure Impl where
  channel : Option ConnectivityState
  kernelStub : Option KernelStub
  qemuStub : Option QEMUStub

/-- The members of `GrpcClient`. -/
structure GrpcClient where
  impl : Impl
  lastError : String

/-- One finished call of an operation: the value returned, the client afterwards, and the
signals emitted during the call, in order. -/
structure Call (ρ : Type) where
  ret : ρ
  client : GrpcClient
  emitted : List Signal

/-! ## Client facade: the operations of `GrpcClient` -/

/-- `GrpcClient::isConnected`. -/
def GrpcClient.isConnected (c : GrpcClient) : Bool :=
  match c.impl.channel with
  | none => false
  | some state =>
    state = ConnectivityState.GRPC_CHANNEL_READY || state = ConnectivityState.GRPC_CHANNEL_IDLE

/-- The three statements every early exit of an operation runs: set `lastError_`, emit
`errorOccurred(lastError_)`, return `ret`; `before` are the signals emitted so far. -/
def GrpcClient.fail {ρ : Type} (c : GrpcClient) (before : List Signal) (lastError : String)
    (ret : ρ) : Call ρ :=
  { ret := ret
    client := { c with lastError := lastError }
    emitted := before ++ [Signal.errorOccurred lastError] }

/-- The read loop of `buildKernel`: `while (reader->Read(&progress)) switch (...)`. -/
def buildReadLoop : List BuildProgress → List Signal
  | [] => []
  | progress :: more =>
    match progress with
    | BuildProgress.stage name progress current_file total_files =>
      Signal.buildStageChanged name progress current_file total_files :: buildReadLoop more
    | BuildProgress.log level message timestamp_ms =>
      Signal.buildLogReceived level message timestamp_ms :: buildReadLoop more
    | BuildProgress.error message file line =>
      Signal.buildErrorReceived message file line :: buildReadLoop more
    | BuildProgress.complete success duration_ms image_path =>
      Signal.buildCompleted success duration_ms image_path :: buildReadLoop more
    | BuildProgress.notSet => buildReadLoop more

/-- `GrpcClient::buildKernel`. -/
def GrpcClient.buildKernel (c : GrpcClient) (targets : List String) (jobs : Int) (arch : String)
    (verbose : Bool) : Call Bool :=
  match c.impl.kernelStub with
  | none => c.fail [] "gRPC stub not initialized" false
  | some kernelStub =>
    let reader := kernelStub.Build
      { targets := targets, jobs := jobs, arch := arch, verbose := verbose }
    let events := buildReadLoop reader.messages
    let status := reader.status
    if !status.ok then c.fail events ("Build failed: " ++ status.error_message) false
    else { ret := true, client := c, emitted := events }

/-- The read loop of `cloneKernel`. -/
def cloneReadLoop : List CloneProgress → List Signal
  | [] => []
  | progress :: more => Signal.cloneProgress progress.progress progress.message :: cloneReadLoop more

/-- `GrpcClient::cloneKernel`. -/
def GrpcClient.cloneKernel (c : GrpcClient) (version : String) : Call Bool :=
  match c.impl.kernelStub with
  | none => c.fail [] "gRPC stub not initialized" false
  | some kernelStub =>
    let reader := kernelStub.Clone { version := version }
    let events := cloneReadLoop reader.messages
    let status := reader.status
    if !status.ok then c.fail events ("Clone failed: " ++ status.error_message) false
    else { ret := true, client := c, emitted := events }

/-- `GrpcClient::configureKernel`. -/
def GrpcClient.configureKernel (c : GrpcClient) (configType : String) : Call Bool :=
  match c.impl.kernelStub with
  | none => c.fail [] "gRPC stub not initialized" false
  | some kernelStub =>
    let reply := kernelStub.Configure { config_type := configType }
    if !reply.status.ok then c.fail [] ("Configure failed: " ++ reply.status.error_message) false
    else if !reply.response.success then c.fail [] reply.response.error_message false
    else { ret := true, client := c, emitted := [] }

/-- `GrpcClient::cleanKernel`. -/
def GrpcClient.cleanKernel (c : GrpcClient) (deepClean : Bool) : Call Bool :=
  match c.impl.kernelStub with
  | none => c.fail [] "gRPC stub not initialized" false
  | some kernelStub =>
    let reply := kernelStub.Clean { deep_clean := deepClean }
    if !reply.status.ok then c.fail [] ("Clean failed: " ++ reply.status.error_message) false
    else { ret := reply.response.success, client := c, emitted := [] }

/-- `GrpcClient::listKernelVersions`. -/
def GrpcClient.listKernelVersions (c : GrpcClient) (limit : Int) : Call (List String) :=
  match c.impl.kernelStub with
  | none => c.fail [] "gRPC stub not initialized" []
  | some kernelStub =>
    let reply := kernelStub.ListVersions { limit := limit }
    if !reply.status.ok then
      c.fail [] ("ListVersions failed: " ++ reply.status.error_message) []
    else { ret := reply.response.versions, client := c, emitted := [] }

/-- The read loop of `runQEMU`. -/
def qemuReadLoop : List QEMUOutput → List Signal
  | [] => []
  | output :: more =>
    match output with
    | QEMUOutput.started pid qemu_version command =>
      Signal.qemuStarted pid qemu_version command :: qemuReadLoop more
    | QEMUOutput.console data => Signal.qemuConsoleOutput data :: qemuReadLoop more
    | QEMUOutput.stopped exit_code uptime_ms =>
      Signal.qemuStopped exit_code uptime_ms :: qemuReadLoop more
    | QEMUOutput.error message => Signal.qemuError message :: qemuReadLoop more
    | QEMUOutput.notSet => qemuReadLoop more

/-- `GrpcClient::runQEMU`. -/
def GrpcClient.runQEMU (c : GrpcClient) (graphical debug : Bool) (memoryMB cpus : Int)
    (extraArgs : List String) (kernelCmdline : String) : Call Bool :=
  match c.impl.qemuStub with
  | none => c.fail [] "gRPC stub not initialized" false
  | some qemuStub =>
    let reader := qemuStub.Run
      { graphical := graphical, debug := debug, memory_mb := memoryMB, cpus := cpus,
        extra_args := extraArgs, kernel_cmdline := kernelCmdline }
    let events := qemuReadLoop reader.messages
    let status := reader.status
    if !status.ok then c.fail events ("QEMU run failed: " ++ status.error_message) false
    else { ret := true, client := c, emitted := events }

/-- `GrpcClient::stopQEMU`. -/
def GrpcClient.stopQEMU (c : GrpcClient) : Call Bool :=
  match c.impl.qemuStub with
  | none => c.fail [] "gRPC stub not initialized" false
  | some qemuStub =>
    let reply := qemuStub.Stop {}
    if !reply.status.ok then c.fail [] ("Stop QEMU failed: " ++ reply.status.error_message) false
    else { ret := reply.response.success, client := c, emitted := [] }

/-- `GrpcClient::sendQEMUInput`. -/
def GrpcClient.sendQEMUInput (c : GrpcClient) (data : QByteArray) : Call Bool :=
  match c.impl.qemuStub with
  | none => c.fail [] "gRPC stub not initialized" false
  | some qemuStub =>
    let reply := qemuStub.SendInput { data := data }
    if !reply.status.ok then c.fail [] ("Send input failed: " ++ reply.status.error_message) false
    else { ret := reply.response.success, client := c, emitted := [] }

/-! ## Terminal decoder: the bytes of a chunk -/

/-- `QEMUConsoleWidget::processANSI(data)` from the bytes of the chunk on: the chunk is decoded
by `QString::fromUtf8` on its own, inside the call, and the loop runs on the decoded text.
`QString::fromUtf8` is a function of the Qt library, not of this repository; it is a
parameter here, and `qtFromUtf8` below is the decoder of Qt. -/
def processANSIBytes (fromUtf8 : QByteArray → QString) (fuel : Nat)
    (currentFormat : QTextCharFormat) (data : QByteArray) : Option DecodeResult :=
  processANSI fuel currentFormat (fromUtf8 data)

/-- With enough fuel, `processANSI(data)` run from `style` returns `result`. -/
def DecodesBytesTo (fromUtf8 : QByteArray → QString) (style : QTextCharFormat)
    (data : QByteArray) (result : DecodeResult) : Prop :=
  ∃ fuel, processANSIBytes fromUtf8 fuel style data = some result

/-- `QChar::ReplacementCharacter`, U+FFFD. -/
def replacementCharacter : Char := Char.ofNat 65533

/-- A UTF-8 continuation byte, `10xxxxxx`. -/
def isContinuationByte (b : UInt8) : Bool := decide (128 ≤ b.toNat) && decide (b.toNat < 192)

/-- Read `needed` continuation bytes from `src` into the code point `uc`, six bits each;
`none` when the bytes end or a byte is no continuation byte. -/
def readContinuation : Nat → Nat → QByteArray → Option Nat
  | 0, uc, _ => some uc
  | _ + 1, _, [] => none
  | needed + 1, uc, b :: src =>
    if isContinuationByte b then readContinuation needed (uc * 64 + b.toNat % 64) src else none

/-- The continuation bytes of a sequence read and the code point checked: not an overlong
form (`uc < min_uc`), not a surrogate, not above U+10FFFF. Returns the character and the
number of continuation bytes. -/
def decodeContinuation (needed minUc uc : Nat) (src : QByteArray) : Option (Char × Nat) :=
  match readContinuation needed uc src with
  | none => none
  | some value =>
    if value < minUc then none
    else if (55296 ≤ value ∧ value ≤ 57343) ∨ 1114111 < value then none
    else some (Char.ofNat value, needed)

/-- The sequence that starts with the byte `b`, followed by the bytes `src`, as Qt's decoder
reads it: the character and the number of bytes of `src` it takes, or `none` for a decoding
error or a sequence cut off by the end of the bytes. -/
def decodeSequence (b : Nat) (src : QByteArray) : Option (Char × Nat) :=
  if b < 128 then some (Char.ofNat b, 0)
  else if b ≤ 193 then none
  else if b < 224 then decodeContinuation 1 128 (b % 32) src
  else if b < 240 then decodeContinuation 2 2048 (b % 16) src
  else if b < 245 then decodeContinuation 3 65536 (b % 8) src
  else none

/-- The decoding loop of Qt: a sequence that decodes gives its character and is skipped whole;
otherwise the one byte gives U+FFFD and decoding goes on at the next byte. Each step takes at
least one byte, so a fuel of the number of bytes is enough. -/
def decodeUtf8 : Nat → QByteArray → QString
  | 0, _ => []
  | _ + 1, [] => []
  | fuel + 1, b :: src =>
    match decodeSequence b.toNat src with
    | some (c, taken) => c :: decodeUtf8 fuel (src.drop taken)
    | none => replacementCharacter :: decodeUtf8 fuel src

/-- The byte order mark `EF BB BF` at the very start of the bytes is skipped. -/
def skipBom : QByteArray → QByteArray
  | b0 :: b1 :: b2 :: rest =>
    if b0.toNat = 239 ∧ b1.toNat = 187 ∧ b2.toNat = 191 then rest else b0 :: b1 :: b2 :: rest
  | other => other

/-- `QString::fromUtf8` as the Qt library computes it, stateless: a leading byte order mark is
skipped, every well-formed sequence gives its character, and every byte that starts no
well-formed sequence, also the start of a sequence the bytes cut off, gives U+FFFD. A
character outside the Basic Multilingual Plane is one `Char` here and two UTF-16 units in
Qt. -/
def qtFromUtf8 (data : QByteArray) : QString :=
  decodeUtf8 (skipBom data).length (skipBom data)

/-- Every byte of the chunk is an ASCII byte. -/
def isAscii (data : QByteArray) : Bool := data.all (fun b => decide (b.toNat < 128))

/-! ## QEMU console widget (qemuconsolewidget.cpp) -/

/-- A call the widget makes on `grpcClient_`. `startQEMU` makes its call from a new thread;
the signals the call emits come back to the widget as invocations of its handlers. -/
inductive ClientCall where
  | runQEMU (graphical debug : Bool) (memoryMB cpus : Int) (extraArgs : List String)
      (kernelCmdline : String)
  | stopQEMU
  | sendQEMUInput (data : QByteArray)
  deriving DecidableEq, Repr

/-- `QString::toUtf8`. -/
def toUtf8 (text : QString) : QByteArray := (String.mk text).toUTF8.toList

/-- The members of `QEMUConsoleWidget` and the state of its child widgets that the slots read
or write. `grpcClient` says that the pointer `grpcClient_` is not null; `consoleView` is the
document of the console view, as the runs inserted into it. -/
structure QEMUConsoleWidget where
  grpcClient : Bool
  isRunning : Bool
  currentFormat : QTextCharFormat
  consoleView : List StyledRun
  inputLineText : QString
  inputLineEnabled : Bool
  startButtonEnabled : Bool
  stopButtonEnabled : Bool
  statusLabel : String
  graphicalChecked : Bool
  debugChecked : Bool
  memoryValue : Int
  cpusValue : Int
  cmdlineText : String
  deriving DecidableEq, Repr

/-- One finished slot: the widget afterwards and the calls made on the client, in order. -/
abbrev SlotResult := QEMUConsoleWidget × List ClientCall

/-- The constructor, with `setupUI`: not running, the input line and the stop button
disabled, the start button enabled, memory 256, two CPUs, the current format the default
format. -/
def QEMUConsoleWidget.new (grpcClient : Bool) : QEMUConsoleWidget :=
  { grpcClient := grpcClient
    isRunning := false
    currentFormat := defaultFormat
    consoleView := []
    inputLineText := []
    inputLineEnabled := false
    startButtonEnabled := true
    stopButtonEnabled := false
    statusLabel := "Ready"
    graphicalChecked := false
    debugChecked := false
    memoryValue := 256
    cpusValue := 2
    cmdlineText := "" }

/-- `QEMUConsoleWidget::appendText`: insert the text at the end of the console view with the
given format. -/
def QEMUConsoleWidget.appendText (w : QEMUConsoleWidget) (text : QString)
    (format : QTextCharFormat) : QEMUConsoleWidget :=
  { w with consoleView := w.consoleView ++ [{ text := text, format := format }] }

/-- `QEMUConsoleWidget::startQEMU`. -/
def QEMUConsoleWidget.startQEMU (w : QEMUConsoleWidget) : SlotResult :=
  if w.isRunning || !w.grpcClient then (w, [])
  else
    ({ w with isRunning := true
              startButtonEnabled := false
              stopButtonEnabled := true
              inputLineEnabled := true
              statusLabel := "Starting..."
              consoleView := [] },
     [ClientCall.runQEMU w.graphicalChecked w.debugChecked w.memoryValue w.cpusValue []
        w.cmdlineText])

/-- `QEMUConsoleWidget::stopQEMU`. -/
def QEMUConsoleWidget.stopQEMU (w : QEMUConsoleWidget) : SlotResult :=
  if !w.isRunning || !w.grpcClient then (w, [])
  else
    ({ w with isRunning := false
              startButtonEnabled := true
              stopButtonEnabled := false
              inputLineEnabled := false
              statusLabel := "Stopped" },
     [ClientCall.stopQEMU])

/-- `QEMUConsoleWidget::clearConsole`. -/
def QEMUConsoleWidget.clearConsole (w : QEMUConsoleWidget) : QEMUConsoleWidget :=
  { w with consoleView := [] }

/-- `QEMUConsoleWidget::sendInput`. -/
def QEMUConsoleWidget.sendInput (w : QEMUConsoleWidget) : SlotResult :=
  if !w.isRunning || !w.grpcClient then (w, [])
  else if w.inputLineText.isEmpty then (w, [])
  else
    ({ w.appendText (w.inputLineText ++ ['\n']) w.currentFormat with inputLineText := [] },
     [ClientCall.sendQEMUInput (toUtf8 (w.inputLineText ++ ['\n']))])

/-- The local `greenFormat` of `onQEMUStarted`. -/
def greenFormat : QTextCharFormat :=
  { foreground := QColor.green, background := QColor.black, bold := false }

/-- The local `yellowFormat` of `onQEMUStopped`. -/
def yellowFormat : QTextCharFormat :=
  { foreground := QColor.yellow, background := QColor.black, bold := false }

/-- The local `redFormat` of `onQEMUError`. -/
def redFormat : QTextCharFormat :=
  { foreground := QColor.red, background := QColor.black, bold := false }

/-- `QEMUConsoleWidget::onQEMUStarted`. -/
def QEMUConsoleWidget.onQEMUStarted (w : QEMUConsoleWidget) (pid : Int) (qemuVersion : String)
    (_command : String) : QEMUConsoleWidget :=
  let w1 := { w with statusLabel := "Running (PID: " ++ toString pid ++ ")" }
  let w2 := w1.appendText "=== QEMU Started ===\n".toList greenFormat
  let w3 := w2.appendText ("Version: " ++ qemuVersion ++ "\n").toList greenFormat
  w3.appendText ("PID: " ++ toString pid ++ "\n\n").toList greenFormat

/-- `QEMUConsoleWidget::onQEMUConsoleOutput`, which is one call of `processANSI`. `text` is
`QString::fromUtf8(data)`; `none` means the fuel ran out before `processANSI` returned. -/
def QEMUConsoleWidget.onQEMUConsoleOutput (fuel : Nat) (w : QEMUConsoleWidget)
    (text : QString) : Option QEMUConsoleWidget :=
  match processANSI fuel w.currentFormat text with
  | some (format, runs) =>
    some { w with currentFormat := format, consoleView := w.consoleView ++ runs }
  | none => none

/-- `QEMUConsoleWidget::onQEMUStopped`. `seconds` is the text `QString::arg(uptimeMs / 1000.0,
0, 'f', 2)` produces, a floating-point conversion that is left open here. -/
def QEMUConsoleWidget.onQEMUStopped (seconds : Int → String) (w : QEMUConsoleWidget)
    (exitCode : Int) (uptimeMs : Int) : QEMUConsoleWidget :=
  let w1 := { w with isRunning := false
                     startButtonEnabled := true
                     stopButtonEnabled := false
                     inputLineEnabled := false
                     statusLabel := "Stopped (exit: " ++ toString exitCode ++ ")" }
  let w2 := w1.appendText "\n=== QEMU Stopped ===\n".toList yellowFormat
  let w3 := w2.appendText ("Exit code: " ++ toString exitCode ++ "\n").toList yellowFormat
  w3.appendText ("Uptime: " ++ seconds uptimeMs ++ "s\n").toList yellowFormat

/-- `QEMUConsoleWidget::onQEMUError`. -/
def QEMUConsoleWidget.onQEMUError (w : QEMUConsoleWidget) (error : String) :
    QEMUConsoleWidget :=
  w.appendText ("[ERROR] " ++ error ++ "\n").toList redFormat

/-- `QEMUConsoleWidget::onReturnPressed`. -/
def QEMUConsoleWidget.onReturnPressed (w : QEMUConsoleWidget) : SlotResult :=
  w.sendInput

/-- The slots of the widget other than `startQEMU`, with their arguments. -/
inductive Slot where
  | stopQEMU
  | clearConsole
  | sendInput
  | typeInput (text : QString)
  | onQEMUStarted (pid : Int) (qemuVersion command : String)
  | onQEMUConsoleOutput (text : QString)
  | onQEMUStopped (exitCode uptimeMs : Int)
  | onQEMUError (error : String)

/-- Run one slot other than `startQEMU`. `typeInput` is the user editing the input line.
`none` means `processANSI` did not return within the fuel. -/
def QEMUConsoleWidget.runSlot (fuel : Nat) (seconds : Int → String) (w : QEMUConsoleWidget) :
    Slot → Option SlotResult
  | Slot.stopQEMU => some w.stopQEMU
  | Slot.clearConsole => some (w.clearConsole, [])
  | Slot.sendInput => some w.sendInput
  | Slot.typeInput text => some ({ w with inputLineText := text }, [])
  | Slot.onQEMUStarted pid qemuVersion command =>
    some (w.onQEMUStarted pid qemuVersion command, [])
  | Slot.onQEMUConsoleOutput text => (w.onQEMUConsoleOutput fuel text).map (fun w2 => (w2, []))
  | Slot.onQEMUStopped exitCode uptimeMs => some (w.onQEMUStopped seconds exitCode uptimeMs, [])
  | Slot.onQEMUError error => some (w.onQEMUError error, [])

/-- Run slots other than `startQEMU` one after the other, collecting the calls made on the
client. -/
def QEMUConsoleWidget.runSlots (fuel : Nat) (seconds : Int → String) :
    QEMUConsoleWidget → List Slot → Option SlotResult
  | w, [] => some (w, [])
  | w, slot :: more =>
    match w.runSlot fuel seconds slot with
    | none => none
    | some (w2, calls) =>
      match QEMUConsoleWidget.runSlots fuel seconds w2 more with
      | none => none
      | some (w3, calls2) => some (w3, calls ++ calls2)

/-- Run `startQEMU` or one of the other slots. -/
inductive WidgetAction where
  | startQEMU
  | slot (s : Slot)

/-- Run one action on the widget; the calls made on the client are dropped. `none` means
`processANSI` did not return within the fuel. -/
def QEMUConsoleWidget.runAction (fuel : Nat) (seconds : Int → String) (w : QEMUConsoleWidget) :
    WidgetAction → Option QEMUConsoleWidget
  | WidgetAction.startQEMU => some w.startQEMU.1
  | WidgetAction.slot s => (w.runSlot fuel seconds s).map (fun r => r.1)

/-- Run actions one after the other. -/
def QEMUConsoleWidget.runActions (fuel : Nat) (seconds : Int → String) :
    QEMUConsoleWidget → List WidgetAction → Option QEMUConsoleWidget
  | w, [] => some w
  | w, action :: more =>
    match w.runAction fuel seconds action with
    | none => none
    | some w2 => QEMUConsoleWidget.runActions fuel seconds w2 more

/-! ## Terminal decoder: one iteration, and the colour table under a checked access -/

/-- How one iteration of the loop of `processANSI` ends: with `break`, or at the end of the
body with a new `pos` and a new `currentFormat_`; `emitted` are its `appendText` calls. -/
inductive Iteration where
  | leave (emitted : List StyledRun)
  | next (pos : Nat) (currentFormat : QTextCharFormat) (emitted : List StyledRun)
  deriving DecidableEq, Repr

/-- The body of the `while` loop of `processANSI`, entered with `pos < text.length()`. -/
def loopBody (text : QString) (pos : Nat) (currentFormat : QTextCharFormat) : Iteration :=
  match (ansiRegexMatch text pos).filter (fun m => m.capturedStart = pos) with
  | some m =>
    Iteration.next m.capturedEnd (applySequence currentFormat m.captured1 m.captured2) []
  | none =>
    match indexOf text ESC pos with
    | none => Iteration.leave [{ text := midToEnd text pos, format := currentFormat }]
    | some nextEscape =>
      Iteration.next nextEscape currentFormat
        [{ text := mid text pos (nextEscape - pos), format := currentFormat }]

/-- The body of `for (const QString &code : codes)` with the accesses `colors[c - 30]` and
`colors[c - 40]` checked: `none` stands for an access outside the eight entries. -/
def applyCodeChecked (currentFormat : QTextCharFormat) (code : QString) :
    Option QTextCharFormat :=
  let c := toInt code
  if c = 0 then some defaultFormat
  else if 30 ≤ c ∧ c ≤ 37 then
    (colorAt (c - 30)).map (fun col => { currentFormat with foreground := col })
  else if 40 ≤ c ∧ c ≤ 47 then
    (colorAt (c - 40)).map (fun col => { currentFormat with background := col })
  else if c = 1 then some { currentFormat with bold := true }
  else some currentFormat

/-- The codes of one matched sequence applied in order with checked accesses. -/
def applyCodesChecked : QTextCharFormat → List QString → Option QTextCharFormat
  | currentFormat, [] => some currentFormat
  | currentFormat, code :: codes =>
    match applyCodeChecked currentFormat code with
    | none => none
    | some format => applyCodesChecked format codes

/-- The effect of one matched sequence with checked accesses. -/
def applySequenceChecked (currentFormat : QTextCharFormat) (params : QString) (command : Char) :
    Option QTextCharFormat :=
  if command = 'm' then applyCodesChecked currentFormat (split ';' params)
  else some currentFormat

/-- A run of the decoder with checked accesses: it reads outside the colour table, or it
returns. -/
inductive CheckedResult where
  | outOfRange
  | returned (result : DecodeResult)
  deriving DecidableEq, Repr

/-- Record an `appendText` call in front of a checked run. -/
def emitChecked (run : StyledRun) : Option CheckedResult → Option CheckedResult
  | some (CheckedResult.returned r) => some (CheckedResult.returned (r.1, run :: r.2))
  | other => other

/-- The loop of `processANSI` with checked accesses to the colour table. -/
def processLoopChecked (text : QString) : Nat → Nat → QTextCharFormat → Option CheckedResult
  | 0, _, _ => none
  | fuel + 1, pos, currentFormat =>
    if pos < text.length then
      match (ansiRegexMatch text pos).filter (fun m => m.capturedStart = pos) with
      | some m =>
        match applySequenceChecked currentFormat m.captured1 m.captured2 with
        | none => some CheckedResult.outOfRange
        | some format => processLoopChecked text fuel m.capturedEnd format
      | none =>
        match indexOf text ESC pos with
        | none =>
          some (CheckedResult.returned
            (currentFormat, [{ text := midToEnd text pos, format := currentFormat }]))
        | some nextEscape =>
          emitChecked { text := mid text pos (nextEscape - pos), format := currentFormat }
            (processLoopChecked text fuel nextEscape currentFormat)
    else some (CheckedResult.returned (currentFormat, []))

/-! ## Kernel build widget (kernelbuildwidget.cpp) -/

/-- `KernelBuildWidget::logLevelToString`. -/
def logLevelToString (level : Int) : String :=
  if level = 0 then "DEBUG"
  else if level = 1 then "INFO"
  else if level = 2 then "WARN"
  else if level = 3 then "ERROR"
  else "UNKNOWN"

/-! ## Specification-side definitions

These follow the words of the specification, not the code; the theorems below compare them
with the definitions above. -/

/-- Specification side: every ESC of the chunk begins a complete sequence
ESC `[` (digits or `;`)* letter. -/
def everyEscComplete : QString → Bool
  | [] => true
  | c :: cs => (c != ESC || (matchHere (c :: cs)).isSome) && everyEscComplete cs

/-- Specification side: a chunk cut into its pieces, text segments and escape sequences. -/
inductive Piece where
  | text (segment : QString)
  | sequence (params : QString) (command : Char)
  deriving DecidableEq, Repr

/-- Specification side: the characters a piece stands for. -/
def Piece.render : Piece → QString
  | Piece.text segment => segment
  | Piece.sequence params command => ESC :: '[' :: (params ++ [command])

/-- Specification side: the chunk a list of pieces stands for. -/
def renderPieces : List Piece → QString
  | [] => []
  | p :: ps => p.render ++ renderPieces ps

/-- Specification side: a sound cutting. A text segment holds no ESC; a sequence has
parameters over digits and `;` and a letter as its command. -/
def validPieces : List Piece → Bool
  | [] => true
  | Piece.text segment :: ps => !segment.contains ESC && validPieces ps
  | Piece.sequence params command :: ps =>
    params.all isParamChar && isCommandChar command && validPieces ps

/-- Specification side: the text segments are maximal, that is non-empty and never adjacent. -/
def maximalSegments : List Piece → Bool
  | [] => true
  | Piece.text segment :: ps =>
    !segment.isEmpty
      && (match ps with
          | Piece.text _ :: _ => false
          | _ => true)
      && maximalSegments ps
  | Piece.sequence _ _ :: ps => maximalSegments ps

/-- Specification side: the style in force after the pieces, every sequence applied in
order. -/
def styleAfter (style : QTextCharFormat) : List Piece → QTextCharFormat
  | [] => style
  | Piece.text _ :: ps => styleAfter style ps
  | Piece.sequence params command :: ps => styleAfter (applySequence style params command) ps

/-- Specification side: one run per text segment, in order, with the style in force at the
segment. -/
def runsOf (style : QTextCharFormat) : List Piece → List StyledRun
  | [] => []
  | Piece.text segment :: ps => { text := segment, format := style } :: runsOf style ps
  | Piece.sequence params command :: ps => runsOf (applySequence style params command) ps

/-- With enough fuel, `processANSI` run on `text` from `style` returns `result`. -/
def DecodesTo (style : QTextCharFormat) (text : QString) (result : DecodeResult) : Prop :=
  ∃ fuel, processANSI fuel style text = some result

/-- Specification side: the notification a build message with a recognized tag stands for. -/
def specBuildNotification : BuildProgress → Option Signal
  | BuildProgress.stage name progress current_file total_files =>
    some (Signal.buildStageChanged name progress current_file total_files)
  | BuildProgress.log level message timestamp_ms =>
    some (Signal.buildLogReceived level message timestamp_ms)
  | BuildProgress.error message file line => some (Signal.buildErrorReceived message file line)
  | BuildProgress.complete success duration_ms image_path =>
    some (Signal.buildCompleted success duration_ms image_path)
  | BuildProgress.notSet => none

/-- Specification side: the notification a clone message stands for. -/
def specCloneNotification (m : CloneProgress) : Option Signal :=
  some (Signal.cloneProgress m.progress m.message)

/-- Specification side: the notification a QEMU message with a recognized tag stands for. -/
def specQemuNotification : QEMUOutput → Option Signal
  | QEMUOutput.started pid qemu_version command =>
    some (Signal.qemuStarted pid qemu_version command)
  | QEMUOutput.console data => some (Signal.qemuConsoleOutput data)
  | QEMUOutput.stopped exit_code uptime_ms => some (Signal.qemuStopped exit_code uptime_ms)
  | QEMUOutput.error message => some (Signal.qemuError message)
  | QEMUOutput.notSet => none

/-- An event notification: every signal except the generic `errorOccurred`. -/
def Signal.isEvent : Signal → Bool
  | Signal.errorOccurred _ => false
  | _ => true

/-- The signal is `buildCompleted`. -/
def Signal.isBuildCompleted : Signal → Bool
  | Signal.buildCompleted _ _ _ => true
  | _ => false

/-- The signal is `qemuStopped`. -/
def Signal.isQemuStopped : Signal → Bool
  | Signal.qemuStopped _ _ => true
  | _ => false

/-- The message is a `Complete` event. -/
def BuildProgress.isComplete : BuildProgress → Bool
  | BuildProgress.complete _ _ _ => true
  | _ => false

/-- The message is a `Stopped` event. -/
def QEMUOutput.isStopped : QEMUOutput → Bool
  | QEMUOutput.stopped _ _ => true
  | _ => false

/-- Specification side: no event notification follows a terminal notification. -/
def nothingAfterTerminal (isTerminal : Signal → Bool) : List Signal → Bool
  | [] => true
  | s :: rest =>
    (!isTerminal s || rest.all (fun t => !t.isEvent)) && nothingAfterTerminal isTerminal rest

/-- Specification side: at most one terminal notification, and no event notification after
it. -/
def terminatesOnce (isTerminal : Signal → Bool) (emitted : List Signal) : Bool :=
  decide (emitted.countP isTerminal ≤ 1) && nothingAfterTerminal isTerminal emitted

/-- Specification side, the invariant of the data model on a stream: a terminal message, if
there is one, is the last message of the stream. -/
def terminalIsLast {α : Type} (isTerminal : α → Bool) : List α → Bool
  | [] => true
  | m :: rest => (!isTerminal m || rest.isEmpty) && terminalIsLast isTerminal rest

/-- Specification side: the one outcome of a streaming call comes after its events. `events`
are the event notifications of the messages delivered, `failure` the last-error text of a
failed call. When the status is not ok the signals are the events followed by one
`errorOccurred`, the last signal, and the call returns false; when it is ok the signals are
the events and the call returns true. -/
def OutcomeAfterEvents (call : Call Bool) (events : List Signal) (status : Status)
    (failure : String) : Prop :=
  (∀ s ∈ events, s.isEvent = true)
    ∧ (status.ok = false →
        call.emitted = events ++ [Signal.errorOccurred failure] ∧ call.ret = false
          ∧ call.client.lastError = failure)
    ∧ (status.ok = false → events = [] → call.emitted = [Signal.errorOccurred failure])
    ∧ (status.ok = true → call.emitted = events ∧ call.ret = true)

/-- Specification side: the colour table of the SGR codes, (black, red, green, yellow, blue,
magenta, cyan, white). -/
def specPalette : List QColor :=
  [QColor.black, QColor.red, QColor.green, QColor.yellow,
   QColor.blue, QColor.magenta, QColor.cyan, QColor.white]

/-- Specification side: the codes the decoder knows, 0, 1, 30..37 and 40..47. -/
def isKnownCode (value : Nat) : Bool :=
  value == 0 || value == 1 || (decide (30 ≤ value) && decide (value ≤ 37))
    || (decide (40 ≤ value) && decide (value ≤ 47))

/-- The build message has no tag set, or a tag this client does not know. -/
def BuildProgress.isUnset : BuildProgress → Bool
  | BuildProgress.notSet => true
  | _ => false

/-- The QEMU message has no tag set, or a tag this client does not know. -/
def QEMUOutput.isUnset : QEMUOutput → Bool
  | QEMUOutput.notSet => true
  | _ => false

/-- The message is an `Error` event. -/
def QEMUOutput.isError : QEMUOutput → Bool
  | QEMUOutput.error _ => true
  | _ => false

/-- The signal is `qemuError`. -/
def Signal.isQemuError : Signal → Bool
  | Signal.qemuError _ => true
  | _ => false

/-- The signal is `errorOccurred`. -/
def Signal.isErrorOccurred : Signal → Bool
  | Signal.errorOccurred _ => true
  | _ => false

/-- Specification side: adjacent runs of equal style merged into one run. -/
def mergeRuns : List StyledRun → List StyledRun
  | [] => []
  | run :: rest =>
    match mergeRuns rest with
    | [] => [run]
    | m :: more =>
      if m.format = run.format then { text := run.text ++ m.text, format := run.format } :: more
      else run :: m :: more

/-- Styled characters gathered into runs, a new run wherever the style changes. -/
def groupChars : List (Char × QTextCharFormat) → List StyledRun
  | [] => []
  | (c, format) :: rest =>
    match groupChars rest with
    | [] => [{ text := [c], format := format }]
    | m :: more =>
      if m.format = format then { text := c :: m.text, format := format } :: more
      else { text := [c], format := format } :: m :: more

/-- Specification side: the buttons and the input line follow the running flag. The start
button is enabled exactly when the widget is not running, the stop button and the input line
exactly when it is. -/
def controlsFollowRunning (w : QEMUConsoleWidget) : Bool :=
  (w.startButtonEnabled == !w.isRunning) && (w.stopButtonEnabled == w.isRunning)
    && (w.inputLineEnabled == w.isRunning)

/-- Specification side: the call reported the missing stub at once. It returned `empty` (false,
or the empty list), set the last error to the fixed text, and emitted one `errorOccurred`
with that text and nothing else. -/
def ReportsMissingStub {ρ : Type} (call : Call ρ) (empty : ρ) : Prop :=
  call.ret = empty ∧ call.client.lastError = "gRPC stub not initialized"
    ∧ call.emitted = [Signal.errorOccurred "gRPC stub not initialized"]

/-! ## Concrete transports, the inputs of the examples -/

/-- The status `grpc::Status::OK`. -/
def Status.OK : Status := { ok := true, error_message := "" }

/-- A kernel-service transport that gives the same replies whatever the request. -/
def fixedKernelStub (build : ServerStream BuildProgress) (clone : ServerStream CloneProgress)
    (configure : UnaryReply ConfigureResponse) (clean : UnaryReply CleanResponse)
    (listVersions : UnaryReply ListVersionsResponse) : KernelStub :=
  { Build := fun _ => build
    Clone := fun _ => clone
    Configure := fun _ => configure
    Clean := fun _ => clean
    ListVersions := fun _ => listVersions }

/-- A QEMU-service transport that gives the same replies whatever the request. -/
def fixedQEMUStub (run : ServerStream QEMUOutput) (stop : UnaryReply QEMUStopResponse)
    (sendInput : UnaryReply QEMUInputResponse) : QEMUStub :=
  { Run := fun _ => run
    Stop := fun _ => stop
    SendInput := fun _ => sendInput }

/-- A client as the constructor leaves it, over the two given transports, with `lastError_`
as given. -/
def clientOver (kernelStub : KernelStub) (qemuStub : QEMUStub) (lastError : String) :
    GrpcClient :=
  { impl := { channel := some ConnectivityState.GRPC_CHANNEL_IDLE
              kernelStub := some kernelStub
              qemuStub := some qemuStub }
    lastError := lastError }

/-- A kernel-service transport whose build stream is `build`; every other call succeeds with
nothing to report. -/
def kernelStubBuilding (build : ServerStream BuildProgress) : KernelStub :=
  fixedKernelStub build { messages := [], status := Status.OK }
    { status := Status.OK, response := { success := true, error_message := "" } }
    { status := Status.OK, response := { success := true } }
    { status := Status.OK, response := { versions := [] } }

/-- A QEMU-service transport whose run stream is `run`; the unary calls succeed. -/
def qemuStubRunning (run : ServerStream QEMUOutput) : QEMUStub :=
  fixedQEMUStub run { status := Status.OK, response := { success := true } }
    { status := Status.OK, response := { success := true } }

/-- The build stream of the scenario: Stage(progress=50), LogLine(level=info),
Complete(success=true, durationMs=1200), final status ok. -/
def scenarioBuildStream : ServerStream BuildProgress :=
  { messages := [BuildProgress.stage "compile" 50 12 24,
                 BuildProgress.log 1 "CC init/main.o" 1700000000000,
                 BuildProgress.complete true 1200 "arch/arm64/boot/Image"]
    status := Status.OK }

/-- A build stream that goes on after its Complete message. -/
def buildStreamPastComplete : ServerStream BuildProgress :=
  { messages := [BuildProgress.complete true 1200 "arch/arm64/boot/Image",
                 BuildProgress.stage "modules" 10 1 10,
                 BuildProgress.complete false 1300 ""]
    status := Status.OK }

/-- A QEMU stream: started, console bytes, a recoverable error, stopped; final status ok. -/
def scenarioQemuStream : ServerStream QEMUOutput :=
  { messages := [QEMUOutput.started 4242 "8.2.0" "qemu-system-aarch64",
                 QEMUOutput.console [79, 75, 10],
                 QEMUOutput.error "warning",
                 QEMUOutput.notSet,
                 QEMUOutput.stopped 0 1500]
    status := Status.OK }

/-- A QEMU stream that goes on after its Stopped message. -/
def qemuStreamPastStopped : ServerStream QEMUOutput :=
  { messages := [QEMUOutput.stopped 0 1500, QEMUOutput.console [79, 75, 10]]
    status := Status.OK }

/-- A stream cut off by the transport after the messages `messages`. -/
def abortedStream {α : Type} (messages : List α) : ServerStream α :=
  { messages := messages, status := { ok := false, error_message := "Socket closed" } }

/-- A kernel-service transport on which every call goes through and every unary response
says `success = false`. -/
def refusingKernelStub : KernelStub :=
  fixedKernelStub { messages := [], status := Status.OK } { messages := [], status := Status.OK }
    { status := Status.OK, response := { success := false, error_message := "no such config" } }
    { status := Status.OK, response := { success := false } }
    { status := Status.OK, response := { versions := [] } }

/-- A QEMU-service transport on which every call goes through and every unary response says
`success = false`. -/
def refusingQEMUStub : QEMUStub :=
  fixedQEMUStub { messages := [], status := Status.OK }
    { status := Status.OK, response := { success := false } }
    { status := Status.OK, response := { success := false } }

/-- A kernel-service transport whose version listing is `listVersions`; every other call
succeeds with nothing to report. -/
def kernelStubListing (listVersions : UnaryReply ListVersionsResponse) : KernelStub :=
  fixedKernelStub { messages := [], status := Status.OK } { messages := [], status := Status.OK }
    { status := Status.OK, response := { success := true, error_message := "" } }
    { status := Status.OK, response := { success := true } }
    listVersions

/-- A QEMU stream with unset messages before, between and after its events. -/
def qemuStreamWithUnset : ServerStream QEMUOutput :=
  { messages := [QEMUOutput.notSet,
                 QEMUOutput.started 4242 "8.2.0" "qemu-system-aarch64",
                 QEMUOutput.notSet,
                 QEMUOutput.notSet,
                 QEMUOutput.console [79, 75, 10],
                 QEMUOutput.error "warning",
                 QEMUOutput.stopped 0 1500,
                 QEMUOutput.notSet]
    status := Status.OK }

/-- The scenario build stream with unset messages before, between and after its events. -/
def buildStreamWithUnset : ServerStream BuildProgress :=
  { messages := [BuildProgress.notSet,
                 BuildProgress.stage "compile" 50 12 24,
                 BuildProgress.notSet,
                 BuildProgress.log 1 "CC init/main.o" 1700000000000,
                 BuildProgress.complete true 1200 "arch/arm64/boot/Image",
                 BuildProgress.notSet]
    status := Status.OK }

/-- A stand-in for the uptime text of `onQEMUStopped` in the examples: whole seconds with two
zero decimals. -/
def wholeSeconds (uptimeMs : Int) : String := toString (uptimeMs / 1000) ++ ".00"

/-- A client whose two stubs are null pointers. -/
def clientWithoutStubs (lastError : String) : GrpcClient :=
  { impl := { channel := none, kernelStub := none, qemuStub := none }
    lastError := lastError }

/-- The bytes of an ASCII string. -/
def bytesOf (text : String) : QByteArray := text.toList.map (fun c => UInt8.ofNat c.toNat)

/-! ## Terminal decoder: lemmas on the string operations -/

theorem isParamChar_of_isCommandChar {c : Char} (h : isCommandChar c = true) :
    isParamChar c = false := by
  simp only [isCommandChar, isParamChar, Char.isAlpha, Char.isUpper, Char.isLower, Char.isDigit,
    Bool.or_eq_true, Bool.and_eq_true, decide_eq_true_eq, Bool.or_eq_false_iff,
    Bool.and_eq_false_iff, decide_eq_false_iff_not, beq_eq_false_iff_ne, ne_eq] at h ⊢
  constructor
  · simp only [ge_iff_le, UInt32.le_def, BitVec.le_def] at h ⊢
    have e1 : (UInt32.toBitVec 65).toNat = 65 := rfl
    have e2 : (UInt32.toBitVec 90).toNat = 90 := rfl
    have e3 : (UInt32.toBitVec 97).toNat = 97 := rfl
    have e4 : (UInt32.toBitVec 122).toNat = 122 := rfl
    have e5 : (UInt32.toBitVec 48).toNat = 48 := rfl
    have e6 : (UInt32.toBitVec 57).toNat = 57 := rfl
    rw [e1, e2, e3, e4] at h
    rw [e5, e6]
    omega
  · rintro rfl
    revert h
    decide

theorem takeWhile_append_stop (p : Char → Bool) (xs : QString) (y : Char) (ys : QString)
    (hx : xs.all p = true) (hy : p y = false) : (xs ++ y :: ys).takeWhile p = xs := by
  induction xs with
  | nil => simp [List.takeWhile, hy]
  | cons x xs ih =>
    simp only [List.all_cons, Bool.and_eq_true] at hx
    simp [List.takeWhile, hx.1, ih hx.2]

theorem dropWhile_append_stop (p : Char → Bool) (xs : QString) (y : Char) (ys : QString)
    (hx : xs.all p = true) (hy : p y = false) : (xs ++ y :: ys).dropWhile p = y :: ys := by
  induction xs with
  | nil => simp [List.dropWhile, hy]
  | cons x xs ih =>
    simp only [List.all_cons, Bool.and_eq_true] at hx
    simp [List.dropWhile, hx.1, ih hx.2]

theorem all_takeWhile_self (p : Char → Bool) (xs : QString) : (xs.takeWhile p).all p = true := by
  induction xs with
  | nil => simp
  | cons x xs ih =>
    by_cases hx : p x = true
    · simp [List.takeWhile, hx, ih]
    · simp [List.takeWhile, hx]

/-- The regex matches at the start of a rendered sequence and captures its two parts. -/
theorem matchHere_sequence (params : QString) (command : Char) (rest : QString)
    (hp : params.all isParamChar = true) (hc : isCommandChar command = true) :
    matchHere (ESC :: '[' :: (params ++ command :: rest)) = some (params, command) := by
  have hnc := isParamChar_of_isCommandChar hc
  simp [matchHere, takeWhile_append_stop isParamChar params command rest hp hnc,
    dropWhile_append_stop isParamChar params command rest hp hnc, hc]

/-- A match at the start of `s` exhibits `s` as a sequence followed by the rest. -/
theorem matchHere_eq_some {s params : QString} {command : Char}
    (h : matchHere s = some (params, command)) :
    ∃ rest, s = ESC :: '[' :: (params ++ command :: rest)
      ∧ params.all isParamChar = true ∧ isCommandChar command = true := by
  match s, h with
  | e :: b :: tail, h =>
    simp only [matchHere] at h
    split at h
    · rename_i heb
      split at h
      · rename_i cmd after hdrop
        split at h
        · rename_i hcmd
          simp only [Option.some.injEq, Prod.mk.injEq] at h
          obtain ⟨h1, h2⟩ := h
          subst h1 h2
          refine ⟨after, ?_, all_takeWhile_self _ _, hcmd⟩
          rw [heb.1, heb.2, ← hdrop, List.takeWhile_append_dropWhile]
        · exact absurd h (by simp)
      · exact absurd h (by simp)
    · exact absurd h (by simp)

theorem matchHere_nil : matchHere [] = none := rfl

theorem matchHere_of_head_ne (c : Char) (cs : QString) (h : c ≠ ESC) :
    matchHere (c :: cs) = none := by
  cases cs with
  | nil => rfl
  | cons b rest => simp [matchHere, h]

theorem matchFrom_capturedStart_ge (s : QString) :
    ∀ (start : Nat) (m : RegexMatch), matchFrom s start = some m → start ≤ m.capturedStart := by
  induction s with
  | nil => intro start m h; simp [matchFrom] at h
  | cons c cs ih =>
    intro start m h
    simp only [matchFrom] at h
    split at h
    · simp only [Option.some.injEq] at h
      subst h
      exact Nat.le_refl _
    · exact Nat.le_of_succ_le (ih _ _ h)

theorem matchFrom_of_matchHere (s : QString) (start : Nat) (params : QString) (command : Char)
    (h : matchHere s = some (params, command)) :
    matchFrom s start = some { capturedStart := start, captured1 := params, captured2 := command,
                               capturedEnd := start + 2 + params.length + 1 } := by
  cases s with
  | nil => simp [matchHere] at h
  | cons c cs => simp [matchFrom, h]

theorem matchFrom_filter_none (s : QString) (start : Nat) (h : matchHere s = none) :
    (matchFrom s start).filter (fun m => m.capturedStart = start) = none := by
  cases s with
  | nil => simp [matchFrom]
  | cons c cs =>
    simp only [matchFrom, h]
    cases hm : matchFrom cs (start + 1) with
    | none => simp
    | some m =>
      have := matchFrom_capturedStart_ge cs _ _ hm
      simp [Option.filter]
      omega

/-! ## Terminal decoder: one iteration of the loop -/

theorem processLoop_zero (text : QString) (pos : Nat) (style : QTextCharFormat) :
    processLoop text 0 pos style = none := rfl

/-- At the end of the text the loop exits. -/
theorem processLoop_exit (text : QString) (fuel pos : Nat) (style : QTextCharFormat)
    (h : text.drop pos = []) : processLoop text (fuel + 1) pos style = some (style, []) := by
  have hlen : ¬ pos < text.length := by
    have := List.drop_eq_nil_iff.mp h
    omega
  simp [processLoop, hlen]

/-- At a position where a sequence starts, the loop applies it and moves behind it. -/
theorem processLoop_sequence (text : QString) (fuel pos : Nat) (style : QTextCharFormat)
    (params : QString) (command : Char)
    (h : matchHere (text.drop pos) = some (params, command)) :
    processLoop text (fuel + 1) pos style
      = processLoop text fuel (pos + 2 + params.length + 1)
          (applySequence style params command) := by
  have hlen : pos < text.length := by
    by_contra hc
    have : text.drop pos = [] := List.drop_eq_nil_iff.mpr (by omega)
    rw [this] at h
    simp [matchHere] at h
  simp [processLoop, hlen, ansiRegexMatch, matchFrom_of_matchHere _ pos _ _ h, Option.filter]

/-- At a position where no sequence starts, the loop emits the text up to the next ESC and
moves there, or emits the rest and exits when there is no ESC. -/
theorem processLoop_text (text : QString) (fuel pos : Nat) (style : QTextCharFormat)
    (hne : text.drop pos ≠ []) (h : matchHere (text.drop pos) = none) :
    processLoop text (fuel + 1) pos style
      = if ESC ∈ text.drop pos then
          emit { text := (text.drop pos).take ((text.drop pos).indexOf ESC), format := style }
            (processLoop text fuel (pos + (text.drop pos).indexOf ESC) style)
        else some (style, [{ text := text.drop pos, format := style }]) := by
  have hlen : pos < text.length := by
    by_contra hc
    exact hne (List.drop_eq_nil_iff.mpr (by omega))
  by_cases hmem : ESC ∈ text.drop pos
  · simp [processLoop, hlen, ansiRegexMatch, matchFrom_filter_none _ pos h, indexOf, hmem, mid]
  · simp [processLoop, hlen, ansiRegexMatch, matchFrom_filter_none _ pos h, indexOf, hmem,
      midToEnd]

/-- At an ESC where no sequence starts the loop makes no progress: it never exits. -/
theorem processLoop_stuck (text : QString) (pos : Nat) (style : QTextCharFormat) (rest : QString)
    (hs : text.drop pos = ESC :: rest) (h : matchHere (text.drop pos) = none) :
    ∀ fuel, processLoop text fuel pos style = none := by
  intro fuel
  induction fuel with
  | zero => rfl
  | succ n ih =>
    rw [processLoop_text text n pos style (by rw [hs]; simp) h]
    simp [hs, ih, emit]

/-! ## Terminal decoder: the loop on a chunk cut into pieces -/

theorem drop_add_of_drop_eq {text s r : QString} {pos : Nat} (h : text.drop pos = s ++ r) :
    text.drop (pos + s.length) = r := by
  rw [← List.drop_drop, h, List.drop_left]

theorem indexOf_append_of_not_mem (seg r : QString) (h : ESC ∉ seg) :
    (seg ++ r).indexOf ESC = seg.length + r.indexOf ESC := by
  induction seg with
  | nil => simp
  | cons c cs ih =>
    simp only [List.mem_cons, not_or] at h
    have hc : c ≠ ESC := fun e => h.1 e.symm
    rw [List.cons_append, List.indexOf_cons_ne _ hc, ih h.2, List.length_cons]
    omega

theorem styledChars_cons (run : StyledRun) (runs : List StyledRun) :
    styledChars (run :: runs) = run.text.map (fun c => (c, run.format)) ++ styledChars runs := by
  simp [styledChars]

theorem styledChars_append (xs ys : List StyledRun) :
    styledChars (xs ++ ys) = styledChars xs ++ styledChars ys := by
  simp [styledChars]

theorem not_mem_of_contains_eq_false {seg : QString} (h : (!seg.contains ESC) = true) :
    ESC ∉ seg := by
  simpa using h

theorem matchHere_text_append (seg r : QString) (hne : seg ≠ []) (h : ESC ∉ seg) :
    matchHere (seg ++ r) = none := by
  cases seg with
  | nil => exact absurd rfl hne
  | cons c cs =>
    simp only [List.mem_cons, not_or] at h
    exact matchHere_of_head_ne c _ (fun e => h.1 e.symm)

/-- On a chunk cut into valid pieces with maximal text segments, the loop exits after one
iteration per piece and has emitted exactly one run per text segment. -/
theorem processLoop_pieces (text : QString) :
    ∀ (ps : List Piece) (pos : Nat) (style : QTextCharFormat),
      validPieces ps = true → maximalSegments ps = true → text.drop pos = renderPieces ps →
      processLoop text (ps.length + 1) pos style = some (styleAfter style ps, runsOf style ps) := by
  intro ps
  induction ps with
  | nil =>
    intro pos style _ _ hd
    exact processLoop_exit text 0 pos style hd
  | cons p rest ih =>
    intro pos style hv hm hd
    cases p with
    | text seg =>
      simp only [validPieces, Bool.and_eq_true] at hv
      have hseg := not_mem_of_contains_eq_false hv.1
      simp only [maximalSegments, Bool.and_eq_true] at hm
      have hne : seg ≠ [] := by
        intro e
        rw [e] at hm
        simp at hm
      simp only [renderPieces, Piece.render] at hd
      have hnone : matchHere (text.drop pos) = none := by
        rw [hd]
        exact matchHere_text_append seg _ hne hseg
      have hdne : text.drop pos ≠ [] := by
        rw [hd]
        simp [hne]
      rw [List.length_cons, processLoop_text text _ pos style hdne hnone]
      cases rest with
      | nil =>
        simp only [renderPieces, List.append_nil] at hd
        simp [hd, hseg, styleAfter, runsOf]
      | cons q rest2 =>
        cases q with
        | text seg2 => simp at hm
        | sequence params command =>
          have hmem : ESC ∈ text.drop pos := by
            rw [hd]
            simp [renderPieces, Piece.render]
          have hidx : (text.drop pos).indexOf ESC = seg.length := by
            rw [hd, indexOf_append_of_not_mem _ _ hseg]
            simp [renderPieces, Piece.render]
          rw [if_pos hmem, hidx, ih (pos + seg.length) style hv.2 hm.2 (drop_add_of_drop_eq hd)]
          simp [emit, hd, styleAfter, runsOf]
    | sequence params command =>
      simp only [validPieces, Bool.and_eq_true] at hv
      simp only [maximalSegments] at hm
      simp only [renderPieces, Piece.render] at hd
      have hd2 : text.drop pos
          = ESC :: '[' :: (params ++ command :: renderPieces rest) := by
        rw [hd]
        simp
      have hmatch : matchHere (text.drop pos) = some (params, command) := by
        rw [hd2]
        exact matchHere_sequence params command _ hv.1.1 hv.1.2
      have hd3 : text.drop pos = (ESC :: '[' :: (params ++ [command])) ++ renderPieces rest := hd
      have hnext := drop_add_of_drop_eq hd3
      have hlen : pos + (ESC :: '[' :: (params ++ [command])).length
          = pos + 2 + params.length + 1 := by
        simp
        omega
      rw [hlen] at hnext
      rw [List.length_cons, processLoop_sequence text _ pos style params command hmatch,
        ih _ _ hv.2 hm hnext]
      simp [styleAfter, runsOf]

theorem everyEscComplete_append_right (xs ys : QString)
    (h : everyEscComplete (xs ++ ys) = true) : everyEscComplete ys = true := by
  induction xs with
  | nil => simpa using h
  | cons x xs ih =>
    simp only [List.cons_append, everyEscComplete, Bool.and_eq_true] at h
    exact ih h.2

theorem dropWhile_head (p : Char → Bool) (l : QString) :
    l.dropWhile p = [] ∨ ∃ y ys, l.dropWhile p = y :: ys ∧ p y = false := by
  induction l with
  | nil => left; rfl
  | cons x xs ih =>
    by_cases hx : p x = true
    · simpa [List.dropWhile, hx] using ih
    · right
      exact ⟨x, xs, by simp [List.dropWhile, hx], by simpa using hx⟩

theorem not_mem_takeWhile_ne (l : QString) : ESC ∉ l.takeWhile (fun c => c != ESC) := by
  intro h
  have := List.mem_takeWhile_imp h
  simp at this

/-- Every chunk in which each ESC begins a complete sequence can be cut into valid pieces with
maximal text segments. -/
theorem exists_pieces (n : Nat) :
    ∀ text : QString, text.length ≤ n → everyEscComplete text = true →
      ∃ ps, validPieces ps = true ∧ maximalSegments ps = true ∧ renderPieces ps = text := by
  induction n with
  | zero =>
    intro text hlen _
    have : text = [] := List.length_eq_zero.mp (by omega)
    subst this
    exact ⟨[], rfl, rfl, rfl⟩
  | succ n ih =>
    intro text hlen hall
    cases text with
    | nil => exact ⟨[], rfl, rfl, rfl⟩
    | cons c cs =>
      by_cases hc : c = ESC
      · have hsome : (matchHere (c :: cs)).isSome = true := by
          simp only [everyEscComplete, Bool.and_eq_true, Bool.or_eq_true] at hall
          rcases hall.1 with h1 | h1
          · simp [hc] at h1
          · exact h1
        obtain ⟨⟨params, command⟩, hm⟩ := Option.isSome_iff_exists.mp hsome
        obtain ⟨rest, hs, hp, hcmd⟩ := matchHere_eq_some hm
        have hs2 : c :: cs = (ESC :: '[' :: (params ++ [command])) ++ rest := by
          rw [hs]
          simp
        have hrest : everyEscComplete rest = true := by
          rw [hs2] at hall
          exact everyEscComplete_append_right _ _ hall
        have hrlen : rest.length ≤ n := by
          have := congrArg List.length hs2
          simp at this hlen
          omega
        obtain ⟨ps, hv, hmx, hr⟩ := ih rest hrlen hrest
        refine ⟨Piece.sequence params command :: ps, ?_, ?_, ?_⟩
        · simp [validPieces, hp, hcmd, hv]
        · simpa [maximalSegments] using hmx
        · rw [hs2]
          simp [renderPieces, Piece.render, hr]
      · have hsplit : (c :: cs).takeWhile (fun x => x != ESC)
            ++ (c :: cs).dropWhile (fun x => x != ESC) = c :: cs :=
          List.takeWhile_append_dropWhile _ _
        have hsegne : (c :: cs).takeWhile (fun x => x != ESC) ≠ [] := by
          rw [List.takeWhile_cons_of_pos (by simpa using hc)]
          simp
        have hseg := not_mem_takeWhile_ne (c :: cs)
        generalize (c :: cs).takeWhile (fun x => x != ESC) = seg at hsplit hsegne hseg
        have hhead := dropWhile_head (fun x => x != ESC) (c :: cs)
        generalize (c :: cs).dropWhile (fun x => x != ESC) = rest at hsplit hhead
        have hrest : everyEscComplete rest = true := by
          rw [← hsplit] at hall
          exact everyEscComplete_append_right _ _ hall
        have hrlen : rest.length ≤ n := by
          have := congrArg List.length hsplit
          have hpos : 0 < seg.length := List.length_pos.mpr hsegne
          simp at this hlen
          omega
        obtain ⟨ps, hv, hmx, hr⟩ := ih rest hrlen hrest
        refine ⟨Piece.text seg :: ps, ?_, ?_, ?_⟩
        · simp [validPieces, hseg, hv]
        · cases ps with
          | nil => simp [maximalSegments, hsegne]
          | cons q qs =>
            cases q with
            | sequence params command =>
              simpa [maximalSegments, hsegne] using hmx
            | text seg2 =>
              exfalso
              simp only [validPieces, Bool.and_eq_true] at hv
              have h2 := not_mem_of_contains_eq_false hv.1
              simp only [maximalSegments, Bool.and_eq_true] at hmx
              simp only [renderPieces, Piece.render] at hr
              rcases hhead with h0 | ⟨y, ys, hy, hpy⟩
              · rw [h0] at hr
                cases seg2 with
                | nil => simp at hmx
                | cons z zs => simp at hr
              · have hyE : y = ESC := by simpa using hpy
                rw [hy] at hr
                cases seg2 with
                | nil => simp at hmx
                | cons z zs =>
                  simp only [List.cons_append, List.cons.injEq] at hr
                  apply h2
                  rw [hr.1, hyE]
                  simp
        · simp [renderPieces, Piece.render, hr, hsplit]

/-! ## Terminal decoder: text in front of a decoded rest -/

/-- Text without ESC in front of a rest the loop decodes: the loop decodes both, ends in the
same style, and the characters come out as the text in the current style followed by the
characters of the rest. -/
theorem processLoop_text_before (text seg r : QString) (pos fuel : Nat)
    (style : QTextCharFormat) (result : DecodeResult) (hseg : ESC ∉ seg)
    (hd : text.drop pos = seg ++ r)
    (hr : processLoop text fuel (pos + seg.length) style = some result) :
    ∃ fuel2 runs, processLoop text fuel2 pos style = some (result.1, runs)
      ∧ styledChars runs = seg.map (fun c => (c, style)) ++ styledChars result.2 := by
  by_cases hne : seg = []
  · subst hne
    exact ⟨fuel, result.2, by simpa using hr, by simp⟩
  have hnone : matchHere (text.drop pos) = none := by
    rw [hd]
    exact matchHere_text_append seg _ hne hseg
  have hdne : text.drop pos ≠ [] := by
    rw [hd]
    simp [hne]
  have hnext := drop_add_of_drop_eq hd
  have hidx : (text.drop pos).indexOf ESC = seg.length + r.indexOf ESC := by
    rw [hd, indexOf_append_of_not_mem _ _ hseg]
  cases fuel with
  | zero => simp [processLoop] at hr
  | succ n =>
    cases r with
    | nil =>
      rw [processLoop_exit text n _ style hnext] at hr
      simp only [Option.some.injEq] at hr
      subst hr
      refine ⟨1, [{ text := seg, format := style }], ?_, by simp [styledChars]⟩
      rw [processLoop_text text 0 pos style hdne hnone]
      simp [hd, hseg]
    | cons d r2 =>
      by_cases hdE : d = ESC
      · subst hdE
        refine ⟨n + 1 + 1, { text := seg, format := style } :: result.2, ?_, ?_⟩
        · rw [processLoop_text text (n + 1) pos style hdne hnone]
          have hmem : ESC ∈ text.drop pos := by
            rw [hd]
            simp
          rw [if_pos hmem, hidx]
          simp [hr, emit, hd]
        · simp [styledChars_cons]
      · have hnone2 : matchHere (text.drop (pos + seg.length)) = none := by
          rw [hnext]
          exact matchHere_of_head_ne d r2 hdE
        have hdne2 : text.drop (pos + seg.length) ≠ [] := by
          rw [hnext]
          simp
        rw [processLoop_text text n _ style hdne2 hnone2, hnext] at hr
        by_cases hmem2 : ESC ∈ d :: r2
        · rw [if_pos hmem2] at hr
          cases hrec : processLoop text n (pos + seg.length + (d :: r2).indexOf ESC) style with
          | none => simp [hrec, emit] at hr
          | some r0 =>
            simp only [hrec, emit, Option.map_some', Option.some.injEq] at hr
            subst hr
            refine ⟨n + 1,
              { text := seg ++ (d :: r2).take ((d :: r2).indexOf ESC), format := style } :: r0.2,
              ?_, ?_⟩
            · rw [processLoop_text text n pos style hdne hnone]
              have hmem : ESC ∈ text.drop pos := by
                rw [hd]
                exact List.mem_append_right _ hmem2
              rw [if_pos hmem, hidx, ← Nat.add_assoc, hrec, hd, List.take_append]
              simp [emit]
            · simp [styledChars_cons]
        · rw [if_neg hmem2] at hr
          simp only [Option.some.injEq] at hr
          subst hr
          refine ⟨n + 1, [{ text := seg ++ d :: r2, format := style }], ?_, ?_⟩
          · rw [processLoop_text text n pos style hdne hnone]
            have hmem : ESC ∉ text.drop pos := by
              rw [hd]
              intro h
              rcases List.mem_append.mp h with h | h
              · exact hseg h
              · exact hmem2 h
            rw [if_neg hmem, hd]
          · simp [styledChars]

theorem styleAfter_append (ps qs : List Piece) :
    ∀ style, styleAfter style (ps ++ qs) = styleAfter (styleAfter style ps) qs := by
  induction ps with
  | nil => intro style; rfl
  | cons p ps ih =>
    intro style
    cases p with
    | text seg => simpa [styleAfter] using ih style
    | sequence params command => simpa [styleAfter] using ih _

theorem runsOf_append (ps qs : List Piece) :
    ∀ style, runsOf style (ps ++ qs) = runsOf style ps ++ runsOf (styleAfter style ps) qs := by
  induction ps with
  | nil => intro style; rfl
  | cons p ps ih =>
    intro style
    cases p with
    | text seg => simpa [runsOf, styleAfter] using ih style
    | sequence params command => simpa [runsOf, styleAfter] using ih _

theorem renderPieces_append (ps qs : List Piece) :
    renderPieces (ps ++ qs) = renderPieces ps ++ renderPieces qs := by
  induction ps with
  | nil => rfl
  | cons p ps ih => simp [renderPieces, ih]

theorem validPieces_append (ps qs : List Piece) (hp : validPieces ps = true)
    (hq : validPieces qs = true) : validPieces (ps ++ qs) = true := by
  induction ps with
  | nil => simpa using hq
  | cons p ps ih =>
    cases p with
    | text seg =>
      simp only [validPieces, Bool.and_eq_true, List.cons_append] at hp ⊢
      exact ⟨hp.1, ih hp.2⟩
    | sequence params command =>
      simp only [validPieces, Bool.and_eq_true, List.cons_append] at hp ⊢
      exact ⟨hp.1, ih hp.2⟩

/-- On a chunk cut into valid pieces, maximal or not, the loop exits in the style after the
pieces and the characters it emitted are those of the text segments, each in the style in
force at its segment. -/
theorem processLoop_validPieces (text : QString) :
    ∀ (ps : List Piece) (pos : Nat) (style : QTextCharFormat),
      validPieces ps = true → text.drop pos = renderPieces ps →
      ∃ fuel runs, processLoop text fuel pos style = some (styleAfter style ps, runs)
        ∧ styledChars runs = styledChars (runsOf style ps) := by
  intro ps
  induction ps with
  | nil =>
    intro pos style _ hd
    exact ⟨1, [], processLoop_exit text 0 pos style hd, rfl⟩
  | cons p rest ih =>
    intro pos style hv hd
    cases p with
    | text seg =>
      simp only [validPieces, Bool.and_eq_true] at hv
      have hseg := not_mem_of_contains_eq_false hv.1
      simp only [renderPieces, Piece.render] at hd
      obtain ⟨fuel, runs, hrun, hchars⟩ := ih (pos + seg.length) style hv.2
        (drop_add_of_drop_eq hd)
      obtain ⟨fuel2, runs2, hrun2, hchars2⟩ :=
        processLoop_text_before text seg _ pos fuel style _ hseg hd hrun
      refine ⟨fuel2, runs2, by simpa [styleAfter] using hrun2, ?_⟩
      rw [hchars2, runsOf, styledChars_cons]
      simp [hchars]
    | sequence params command =>
      simp only [validPieces, Bool.and_eq_true] at hv
      simp only [renderPieces, Piece.render] at hd
      have hd2 : text.drop pos
          = ESC :: '[' :: (params ++ command :: renderPieces rest) := by
        rw [hd]
        simp
      have hmatch : matchHere (text.drop pos) = some (params, command) := by
        rw [hd2]
        exact matchHere_sequence params command _ hv.1.1 hv.1.2
      have hd3 : text.drop pos = (ESC :: '[' :: (params ++ [command])) ++ renderPieces rest := hd
      have hnext := drop_add_of_drop_eq hd3
      have hlen : pos + (ESC :: '[' :: (params ++ [command])).length
          = pos + 2 + params.length + 1 := by
        simp
        omega
      rw [hlen] at hnext
      obtain ⟨fuel, runs, hrun, hchars⟩ := ih _ (applySequence style params command) hv.2 hnext
      refine ⟨fuel + 1, runs, ?_, by simpa [runsOf] using hchars⟩
      rw [processLoop_sequence text fuel pos style params command hmatch]
      simpa [styleAfter] using hrun

/-- More fuel does not change a result the loop has reached. -/
theorem processLoop_fuel_succ (text : QString) :
    ∀ (fuel pos : Nat) (style : QTextCharFormat) (result : DecodeResult),
      processLoop text fuel pos style = some result →
      processLoop text (fuel + 1) pos style = some result := by
  intro fuel
  induction fuel with
  | zero => intro pos style result h; simp [processLoop] at h
  | succ n ih =>
    intro pos style result h
    rw [processLoop] at h ⊢
    split
    · rename_i hlt
      rw [if_pos hlt] at h
      split
      · rename_i m hm
        rw [hm] at h
        exact ih _ _ _ h
      · rename_i hm
        rw [hm] at h
        split
        · rename_i hi
          rw [hi] at h
          exact h
        · rename_i nextEscape hi
          rw [hi] at h
          cases hrec : processLoop text n nextEscape style with
          | none => simp [hrec, emit] at h
          | some r0 =>
            rw [ih _ _ _ hrec]
            simpa [hrec, emit] using h
    · rename_i hlt
      rw [if_neg hlt] at h
      exact h

theorem processLoop_fuel_le (text : QString) (fuel more pos : Nat) (style : QTextCharFormat)
    (result : DecodeResult) (h : processLoop text fuel pos style = some result) :
    processLoop text (fuel + more) pos style = some result := by
  induction more with
  | zero => exact h
  | succ k ih => exact processLoop_fuel_succ text _ pos style result ih

/-- The result of a run does not depend on the fuel: `DecodesTo` is a partial function. -/
theorem DecodesTo_unique {style : QTextCharFormat} {text : QString} {r1 r2 : DecodeResult}
    (h1 : DecodesTo style text r1) (h2 : DecodesTo style text r2) : r1 = r2 := by
  obtain ⟨f1, h1⟩ := h1
  obtain ⟨f2, h2⟩ := h2
  have e1 := processLoop_fuel_le text f1 f2 0 style r1 h1
  have e2 := processLoop_fuel_le text f2 f1 0 style r2 h2
  rw [Nat.add_comm] at e2
  rw [e1] at e2
  exact Option.some.inj e2

theorem splitKeepEmpty_ne_nil (sep : Char) (s : QString) : splitKeepEmpty sep s ≠ [] := by
  cases s with
  | nil => simp [splitKeepEmpty]
  | cons c cs =>
    simp only [splitKeepEmpty]
    split
    · simp
    · split <;> simp

theorem splitKeepEmpty_append_sep (sep : Char) (p q : QString) :
    splitKeepEmpty sep (p ++ sep :: q) = splitKeepEmpty sep p ++ splitKeepEmpty sep q := by
  induction p with
  | nil => simp [splitKeepEmpty]
  | cons c cs ih =>
    by_cases hc : c = sep
    · simp [splitKeepEmpty, hc, ih]
    · simp only [List.cons_append, splitKeepEmpty, if_neg hc]
      have ih2 : splitKeepEmpty sep (cs.append (sep :: q))
          = splitKeepEmpty sep cs ++ splitKeepEmpty sep q := ih
      rw [ih2]
      cases hsp : splitKeepEmpty sep cs with
      | nil => exact absurd hsp (splitKeepEmpty_ne_nil sep cs)
      | cons x xs => rfl

theorem split_append_sep (sep : Char) (p q : QString) :
    split sep (p ++ sep :: q) = split sep p ++ split sep q := by
  simp [split, splitKeepEmpty_append_sep]

/-! ## Terminal decoder: the claims -/

/-- C1 (the code fails the claim): the claim says one decode invocation terminates on every
chunk, malformed or unterminated escape sequences included. On the code, for every prior
style and however many iterations are allowed, `processANSI` does not return on a lone ESC,
on ESC not followed by `[`, or on ESC `[` with parameters and no terminating letter: the
loop stays at the ESC. -/
theorem processANSI_malformed_escape_never_returns (style : QTextCharFormat) (fuel : Nat) :
    processANSI fuel style [ESC] = none
      ∧ processANSI fuel style [ESC, 'X'] = none
      ∧ processANSI fuel style [ESC, '[', '3', '1'] = none :=
  ⟨processLoop_stuck _ 0 style [] rfl (by decide) fuel,
   processLoop_stuck _ 0 style ['X'] rfl (by decide) fuel,
   processLoop_stuck _ 0 style ['[', '3', '1'] rfl (by decide) fuel⟩

/-- Two decoded texts in each of which every ESC begins a complete sequence: decoding the one
and then the other returns, and so does decoding their concatenation; both end in the same
style and give the same characters with the same style on each character. -/
theorem decoded_split_between_sequences (style : QTextCharFormat) (a b : QString)
    (ha : everyEscComplete a = true) (hb : everyEscComplete b = true) :
    ∃ first second whole : DecodeResult,
      DecodesTo style a first ∧ DecodesTo first.1 b second ∧ DecodesTo style (a ++ b) whole
        ∧ whole.1 = second.1
        ∧ styledChars whole.2 = styledChars (first.2 ++ second.2) := by
  obtain ⟨pa, hva, _, hra⟩ := exists_pieces a.length a (Nat.le_refl _) ha
  obtain ⟨pb, hvb, _, hrb⟩ := exists_pieces b.length b (Nat.le_refl _) hb
  obtain ⟨fa, ra, hda, hca⟩ := processLoop_validPieces a pa 0 style hva (by simpa using hra.symm)
  obtain ⟨fb, rb, hdb, hcb⟩ :=
    processLoop_validPieces b pb 0 (styleAfter style pa) hvb (by simpa using hrb.symm)
  obtain ⟨fw, rw, hdw, hcw⟩ :=
    processLoop_validPieces (a ++ b) (pa ++ pb) 0 style (validPieces_append pa pb hva hvb)
      (by simp [renderPieces_append, hra, hrb])
  refine ⟨(styleAfter style pa, ra), (styleAfter (styleAfter style pa) pb, rb),
    (styleAfter style (pa ++ pb), rw), ⟨fa, hda⟩, ⟨fb, hdb⟩, ⟨fw, hdw⟩, ?_, ?_⟩
  · exact styleAfter_append pa pb style
  · simp only [hcw, runsOf_append, styledChars_append, hca, hcb]

/-- C3: on a chunk in which every ESC begins a complete sequence, `processANSI` returns, and
the chunk is cut into escape sequences and maximal text segments such that the runs emitted
are exactly the text segments, in order, each with the style obtained from the prior style
by applying every sequence before it. From the default style `"\x1b[32mOK\x1b[0m\n"` gives
the two runs `("OK", green on the default background, not bold)` and `("\n", default)`. -/
theorem processANSI_emits_segments_with_style_in_force (style : QTextCharFormat)
    (text : QString) (h : everyEscComplete text = true) :
    (∃ ps : List Piece,
        validPieces ps = true ∧ maximalSegments ps = true ∧ renderPieces ps = text
          ∧ processANSI (ps.length + 1) style text = some (styleAfter style ps, runsOf style ps))
      ∧ processANSI 5 defaultFormat "\x1b[32mOK\x1b[0m\n".toList
          = some (defaultFormat,
              [{ text := "OK".toList,
                 format := { foreground := QColor.green, background := defaultFormat.background,
                             bold := false } },
               { text := "\n".toList, format := defaultFormat }]) := by
  refine ⟨?_, by decide⟩
  obtain ⟨ps, hv, hm, hr⟩ := exists_pieces text.length text (Nat.le_refl _) h
  exact ⟨ps, hv, hm, hr, processLoop_pieces text ps 0 style hv hm (by simpa using hr.symm)⟩

/-- C3, at the chunk `"boot\x1b[1;34mOK\x1b[2K\x1b[0m\n"` from the default style. -/
theorem processANSI_emits_segments_with_style_in_force_witness :
    (∃ ps : List Piece,
        validPieces ps = true ∧ maximalSegments ps = true
          ∧ renderPieces ps = "boot\x1b[1;34mOK\x1b[2K\x1b[0m\n".toList
          ∧ processANSI (ps.length + 1) defaultFormat "boot\x1b[1;34mOK\x1b[2K\x1b[0m\n".toList
              = some (styleAfter defaultFormat ps, runsOf defaultFormat ps))
      ∧ processANSI 5 defaultFormat "\x1b[32mOK\x1b[0m\n".toList
          = some (defaultFormat,
              [{ text := "OK".toList,
                 format := { foreground := QColor.green, background := defaultFormat.background,
                             bold := false } },
               { text := "\n".toList, format := defaultFormat }]) :=
  processANSI_emits_segments_with_style_in_force defaultFormat
    "boot\x1b[1;34mOK\x1b[2K\x1b[0m\n".toList (by decide)

/-- C10: an SGR code whose value is 0 sets the current style to the default style whatever the
style was; a list of codes that ends in such a code leaves the default style whatever the
codes before it; applying the reset twice equals applying it once; and a sequence
ESC `[` params `;0m` decodes from every style to the default style. -/
theorem sgr_reset_sets_default_style (style : QTextCharFormat) (codes : List QString)
    (code params : QString) (h0 : toInt code = 0) (hp : params.all isParamChar = true) :
    applyCode style code = defaultFormat
      ∧ defaultFormat
          = { foreground := QColor.white, background := QColor.black, bold := false }
      ∧ (codes ++ [code]).foldl applyCode style = defaultFormat
      ∧ applyCode (applyCode style code) code = applyCode style code
      ∧ applySequence style (params ++ [';', '0']) 'm' = defaultFormat
      ∧ processANSI 2 style (ESC :: '[' :: (params ++ [';', '0', 'm']))
          = some (defaultFormat, []) := by
  have hreset : ∀ st, applyCode st code = defaultFormat := by
    intro st
    simp [applyCode, h0]
  have hzero : ∀ st, applyCode st ['0'] = defaultFormat := by
    intro st
    have : toInt ['0'] = 0 := by decide
    simp [applyCode, this]
  have hseq : applySequence style (params ++ [';', '0']) 'm' = defaultFormat := by
    have hsplit : split ';' ['0'] = [['0']] := by decide
    simp [applySequence, split_append_sep, hsplit, List.foldl_append, hzero]
  refine ⟨hreset style, rfl, ?_, ?_, hseq, ?_⟩
  · simp [List.foldl_append, hreset]
  · rw [hreset, hreset]
  · have hall : (params ++ [';', '0']).all isParamChar = true := by
      simp only [List.all_append, hp, Bool.true_and]
      decide
    have hm := matchHere_sequence (params ++ [';', '0']) 'm' [] hall (by decide)
    have htxt : ESC :: '[' :: (params ++ [';', '0', 'm'])
        = ESC :: '[' :: ((params ++ [';', '0']) ++ ['m']) := by simp
    rw [processANSI, htxt,
      processLoop_sequence _ 1 0 style (params ++ [';', '0']) 'm' (by simpa using hm), hseq]
    exact processLoop_exit _ 0 _ _ (by simp; omega)

/-- C10, at the bold red-on-blue style, the codes `1`, `31` before the reset code `0`, and the
parameters `1;31`. -/
theorem sgr_reset_sets_default_style_witness :
    toInt ['0'] = 0 ∧ "1;31".toList.all isParamChar = true
      ∧ applyCode { foreground := QColor.red, background := QColor.blue, bold := true } ['0']
          = defaultFormat
      ∧ ([['1'], ['3', '1']] ++ [['0']]).foldl applyCode
          { foreground := QColor.red, background := QColor.blue, bold := true } = defaultFormat :=
  have h := sgr_reset_sets_default_style
    { foreground := QColor.red, background := QColor.blue, bold := true }
    [['1'], ['3', '1']] ['0'] "1;31".toList (by decide) (by decide)
  ⟨by decide, by decide, h.1, h.2.2.1⟩

/-! ## Client facade: the read loops -/

theorem buildReadLoop_eq_filterMap (messages : List BuildProgress) :
    buildReadLoop messages = messages.filterMap specBuildNotification := by
  induction messages with
  | nil => rfl
  | cons m rest ih => cases m <;> simp [buildReadLoop, specBuildNotification, ih]

theorem cloneReadLoop_eq_filterMap (messages : List CloneProgress) :
    cloneReadLoop messages = messages.filterMap specCloneNotification := by
  induction messages with
  | nil => rfl
  | cons m rest ih => simp [cloneReadLoop, specCloneNotification, ih]

theorem qemuReadLoop_eq_filterMap (messages : List QEMUOutput) :
    qemuReadLoop messages = messages.filterMap specQemuNotification := by
  induction messages with
  | nil => rfl
  | cons m rest ih => cases m <;> simp [qemuReadLoop, specQemuNotification, ih]

theorem specBuildNotification_isEvent {m : BuildProgress} {s : Signal}
    (h : specBuildNotification m = some s) : s.isEvent = true := by
  cases m <;> simp [specBuildNotification] at h <;> subst h <;> rfl

theorem specCloneNotification_isEvent {m : CloneProgress} {s : Signal}
    (h : specCloneNotification m = some s) : s.isEvent = true := by
  simp [specCloneNotification] at h
  subst h
  rfl

theorem specQemuNotification_isEvent {m : QEMUOutput} {s : Signal}
    (h : specQemuNotification m = some s) : s.isEvent = true := by
  cases m <;> simp [specQemuNotification] at h <;> subst h <;> rfl

theorem filterMap_all_isEvent {α : Type} (spec : α → Option Signal)
    (hspec : ∀ m s, spec m = some s → s.isEvent = true) (messages : List α) :
    ∀ s ∈ messages.filterMap spec, s.isEvent = true := by
  intro s hs
  obtain ⟨m, _, hm⟩ := List.mem_filterMap.mp hs
  exact hspec m s hm

theorem filter_isEvent_events {α : Type} (spec : α → Option Signal)
    (hspec : ∀ m s, spec m = some s → s.isEvent = true) (messages : List α) :
    (messages.filterMap spec).filter Signal.isEvent = messages.filterMap spec :=
  List.filter_eq_self.mpr (filterMap_all_isEvent spec hspec messages)

/-- The signals of a streaming call whose stub is there: the events of the read loop, then
`errorOccurred` when the final status is not ok. -/
theorem buildKernel_emitted (c : GrpcClient) (kernelStub : KernelStub)
    (h : c.impl.kernelStub = some kernelStub) (targets : List String) (jobs : Int)
    (arch : String) (verbose : Bool) :
    (c.buildKernel targets jobs arch verbose).emitted
      = buildReadLoop (kernelStub.Build
            { targets := targets, jobs := jobs, arch := arch, verbose := verbose }).messages
        ++ (if (kernelStub.Build { targets := targets, jobs := jobs, arch := arch,
                                   verbose := verbose }).status.ok = true then []
            else [Signal.errorOccurred ("Build failed: " ++ (kernelStub.Build
              { targets := targets, jobs := jobs, arch := arch,
                verbose := verbose }).status.error_message)]) := by
  simp only [GrpcClient.buildKernel, h]
  split <;> rename_i hok <;> simp_all [GrpcClient.fail]

theorem cloneKernel_emitted (c : GrpcClient) (kernelStub : KernelStub)
    (h : c.impl.kernelStub = some kernelStub) (version : String) :
    (c.cloneKernel version).emitted
      = cloneReadLoop (kernelStub.Clone { version := version }).messages
        ++ (if (kernelStub.Clone { version := version }).status.ok = true then []
            else [Signal.errorOccurred ("Clone failed: "
              ++ (kernelStub.Clone { version := version }).status.error_message)]) := by
  simp only [GrpcClient.cloneKernel, h]
  split <;> rename_i hok <;> simp_all [GrpcClient.fail]

theorem runQEMU_emitted (c : GrpcClient) (qemuStub : QEMUStub)
    (h : c.impl.qemuStub = some qemuStub) (graphical debug : Bool) (memoryMB cpus : Int)
    (extraArgs : List String) (kernelCmdline : String) :
    (c.runQEMU graphical debug memoryMB cpus extraArgs kernelCmdline).emitted
      = qemuReadLoop (qemuStub.Run
            { graphical := graphical, debug := debug, memory_mb := memoryMB, cpus := cpus,
              extra_args := extraArgs, kernel_cmdline := kernelCmdline }).messages
        ++ (if (qemuStub.Run
                  { graphical := graphical, debug := debug, memory_mb := memoryMB, cpus := cpus,
                    extra_args := extraArgs, kernel_cmdline := kernelCmdline }).status.ok = true
            then []
            else [Signal.errorOccurred ("QEMU run failed: " ++ (qemuStub.Run
              { graphical := graphical, debug := debug, memory_mb := memoryMB, cpus := cpus,
                extra_args := extraArgs,
                kernel_cmdline := kernelCmdline }).status.error_message)]) := by
  simp only [GrpcClient.runQEMU, h]
  split <;> rename_i hok <;> simp_all [GrpcClient.fail]

theorem buildKernel_ret (c : GrpcClient) (kernelStub : KernelStub)
    (h : c.impl.kernelStub = some kernelStub) (targets : List String) (jobs : Int)
    (arch : String) (verbose : Bool) :
    (c.buildKernel targets jobs arch verbose).ret
      = (kernelStub.Build
          { targets := targets, jobs := jobs, arch := arch, verbose := verbose }).status.ok := by
  simp only [GrpcClient.buildKernel, h]
  split <;> rename_i hok <;> simp_all [GrpcClient.fail]

theorem cloneKernel_ret (c : GrpcClient) (kernelStub : KernelStub)
    (h : c.impl.kernelStub = some kernelStub) (version : String) :
    (c.cloneKernel version).ret = (kernelStub.Clone { version := version }).status.ok := by
  simp only [GrpcClient.cloneKernel, h]
  split <;> rename_i hok <;> simp_all [GrpcClient.fail]

theorem runQEMU_ret (c : GrpcClient) (qemuStub : QEMUStub)
    (h : c.impl.qemuStub = some qemuStub) (graphical debug : Bool) (memoryMB cpus : Int)
    (extraArgs : List String) (kernelCmdline : String) :
    (c.runQEMU graphical debug memoryMB cpus extraArgs kernelCmdline).ret
      = (qemuStub.Run
          { graphical := graphical, debug := debug, memory_mb := memoryMB, cpus := cpus,
            extra_args := extraArgs, kernel_cmdline := kernelCmdline }).status.ok := by
  simp only [GrpcClient.runQEMU, h]
  split <;> rename_i hok <;> simp_all [GrpcClient.fail]

/-! ## Client facade: the claims on streaming calls -/

/-- C4: with the stub there, the event notifications `buildKernel`, `cloneKernel` and `runQEMU`
emit are, in order, exactly the notifications of the messages with a recognized tag, one per
message and with that message's fields: the order-preserving map of the recognized messages.
Nothing else stands before them or between them. -/
theorem stream_notifications_follow_arrival_order (c : GrpcClient) :
    (∀ kernelStub, c.impl.kernelStub = some kernelStub →
        ∀ targets jobs arch verbose,
          (c.buildKernel targets jobs arch verbose).emitted.filter Signal.isEvent
              = (kernelStub.Build { targets := targets, jobs := jobs, arch := arch,
                                    verbose := verbose }).messages.filterMap
                  specBuildNotification
            ∧ (kernelStub.Build { targets := targets, jobs := jobs, arch := arch,
                                  verbose := verbose }).messages.filterMap specBuildNotification
                <+: (c.buildKernel targets jobs arch verbose).emitted)
      ∧ (∀ kernelStub, c.impl.kernelStub = some kernelStub →
          ∀ version,
            (c.cloneKernel version).emitted.filter Signal.isEvent
                = (kernelStub.Clone { version := version }).messages.filterMap
                    specCloneNotification
              ∧ (kernelStub.Clone { version := version }).messages.filterMap
                    specCloneNotification
                  <+: (c.cloneKernel version).emitted)
      ∧ (∀ qemuStub, c.impl.qemuStub = some qemuStub →
          ∀ graphical debug memoryMB cpus extraArgs kernelCmdline,
            (c.runQEMU graphical debug memoryMB cpus extraArgs kernelCmdline).emitted.filter
                  Signal.isEvent
                = (qemuStub.Run { graphical := graphical, debug := debug, memory_mb := memoryMB,
                                  cpus := cpus, extra_args := extraArgs,
                                  kernel_cmdline := kernelCmdline }).messages.filterMap
                    specQemuNotification
              ∧ (qemuStub.Run { graphical := graphical, debug := debug, memory_mb := memoryMB,
                                cpus := cpus, extra_args := extraArgs,
                                kernel_cmdline := kernelCmdline }).messages.filterMap
                    specQemuNotification
                  <+: (c.runQEMU graphical debug memoryMB cpus extraArgs kernelCmdline).emitted) := by
  refine ⟨?_, ?_, ?_⟩
  · intro kernelStub h targets jobs arch verbose
    rw [buildKernel_emitted c kernelStub h, buildReadLoop_eq_filterMap, List.filter_append,
      filter_isEvent_events _ (fun _ _ => specBuildNotification_isEvent)]
    refine ⟨?_, List.prefix_append _ _⟩
    split <;> simp [Signal.isEvent]
  · intro kernelStub h version
    rw [cloneKernel_emitted c kernelStub h, cloneReadLoop_eq_filterMap, List.filter_append,
      filter_isEvent_events _ (fun _ _ => specCloneNotification_isEvent)]
    refine ⟨?_, List.prefix_append _ _⟩
    split <;> simp [Signal.isEvent]
  · intro qemuStub h graphical debug memoryMB cpus extraArgs kernelCmdline
    rw [runQEMU_emitted c qemuStub h, qemuReadLoop_eq_filterMap, List.filter_append,
      filter_isEvent_events _ (fun _ _ => specQemuNotification_isEvent)]
    refine ⟨?_, List.prefix_append _ _⟩
    split <;> simp [Signal.isEvent]

/-- C4, on the scenario build stream and the scenario QEMU stream: the signals are the
notifications of the recognized messages in arrival order, the unset message skipped. -/
theorem stream_notifications_follow_arrival_order_witness :
    ((clientOver (kernelStubBuilding scenarioBuildStream) (qemuStubRunning scenarioQemuStream)
          "").buildKernel ["Image"] 8 "arm64" false).emitted.filter Signal.isEvent
        = [Signal.buildStageChanged "compile" 50 12 24,
           Signal.buildLogReceived 1 "CC init/main.o" 1700000000000,
           Signal.buildCompleted true 1200 "arch/arm64/boot/Image"]
      ∧ ((clientOver (kernelStubBuilding scenarioBuildStream)
            (qemuStubRunning scenarioQemuStream) "").runQEMU false false 256 2 []
            "console=ttyAMA0").emitted.filter Signal.isEvent
          = [Signal.qemuStarted 4242 "8.2.0" "qemu-system-aarch64",
             Signal.qemuConsoleOutput [79, 75, 10],
             Signal.qemuError "warning",
             Signal.qemuStopped 0 1500] :=
  ⟨((stream_notifications_follow_arrival_order _).1 (kernelStubBuilding scenarioBuildStream)
      rfl ["Image"] 8 "arm64" false).1,
   ((stream_notifications_follow_arrival_order _).2.2 (qemuStubRunning scenarioQemuStream)
      rfl false false 256 2 [] "console=ttyAMA0").1⟩

/-- C5: with the stub there, `buildKernel`, `cloneKernel` and `runQEMU` return true exactly
when the final status of the transport is ok, whatever messages were delivered. -/
theorem streaming_call_returns_transport_status (c : GrpcClient) :
    (∀ kernelStub, c.impl.kernelStub = some kernelStub →
        ∀ targets jobs arch verbose,
          ((c.buildKernel targets jobs arch verbose).ret = true
            ↔ (kernelStub.Build { targets := targets, jobs := jobs, arch := arch,
                                  verbose := verbose }).status.ok = true))
      ∧ (∀ kernelStub, c.impl.kernelStub = some kernelStub →
          ∀ version,
            ((c.cloneKernel version).ret = true
              ↔ (kernelStub.Clone { version := version }).status.ok = true))
      ∧ (∀ qemuStub, c.impl.qemuStub = some qemuStub →
          ∀ graphical debug memoryMB cpus extraArgs kernelCmdline,
            ((c.runQEMU graphical debug memoryMB cpus extraArgs kernelCmdline).ret = true
              ↔ (qemuStub.Run { graphical := graphical, debug := debug, memory_mb := memoryMB,
                                cpus := cpus, extra_args := extraArgs,
                                kernel_cmdline := kernelCmdline }).status.ok = true)) := by
  refine ⟨?_, ?_, ?_⟩
  · intro kernelStub h targets jobs arch verbose
    rw [buildKernel_ret c kernelStub h]
  · intro kernelStub h version
    rw [cloneKernel_ret c kernelStub h]
  · intro qemuStub h graphical debug memoryMB cpus extraArgs kernelCmdline
    rw [runQEMU_ret c qemuStub h]

/-- C5, on a build stream whose Complete event says `success = false` under an ok status (the
call returns true) and on a QEMU stream cut off by the transport (the call returns false). -/
theorem streaming_call_returns_transport_status_witness :
    ((clientOver
        (kernelStubBuilding
          { messages := [BuildProgress.complete false 900 ""], status := Status.OK })
        (qemuStubRunning (abortedStream [QEMUOutput.started 4242 "8.2.0" "qemu"]))
        "").buildKernel ["Image"] 8 "arm64" false).ret = true
      ∧ ¬ ((clientOver
          (kernelStubBuilding
            { messages := [BuildProgress.complete false 900 ""], status := Status.OK })
          (qemuStubRunning (abortedStream [QEMUOutput.started 4242 "8.2.0" "qemu"]))
          "").runQEMU false false 256 2 [] "").ret = true :=
  ⟨((streaming_call_returns_transport_status _).1
      (kernelStubBuilding
        { messages := [BuildProgress.complete false 900 ""], status := Status.OK })
      rfl ["Image"] 8 "arm64" false).mpr rfl,
   fun hr => absurd
    (((streaming_call_returns_transport_status _).2.2
      (qemuStubRunning (abortedStream [QEMUOutput.started 4242 "8.2.0" "qemu"]))
      rfl false false 256 2 [] "").mp hr) (by decide)⟩

/-- C6: a streaming call has one outcome and it comes after every event notification of the
call. With the stub there, the signals of `buildKernel`, `cloneKernel` and `runQEMU` are the
event notifications of the messages delivered, in order; when the final status is not ok they
are followed by exactly one `errorOccurred`, the last signal, and the call returns false (with
no event delivered `errorOccurred` is the only signal); when it is ok nothing follows them
and the call returns true. -/
theorem streaming_call_outcome_after_events (c : GrpcClient) :
    (∀ kernelStub, c.impl.kernelStub = some kernelStub →
        ∀ targets jobs arch verbose,
          OutcomeAfterEvents (c.buildKernel targets jobs arch verbose)
            ((kernelStub.Build { targets := targets, jobs := jobs, arch := arch,
                                 verbose := verbose }).messages.filterMap specBuildNotification)
            (kernelStub.Build { targets := targets, jobs := jobs, arch := arch,
                                verbose := verbose }).status
            ("Build failed: "
              ++ (kernelStub.Build { targets := targets, jobs := jobs, arch := arch,
                                     verbose := verbose }).status.error_message))
      ∧ (∀ kernelStub, c.impl.kernelStub = some kernelStub →
          ∀ version,
            OutcomeAfterEvents (c.cloneKernel version)
              ((kernelStub.Clone { version := version }).messages.filterMap
                specCloneNotification)
              (kernelStub.Clone { version := version }).status
              ("Clone failed: "
                ++ (kernelStub.Clone { version := version }).status.error_message))
      ∧ (∀ qemuStub, c.impl.qemuStub = some qemuStub →
          ∀ graphical debug memoryMB cpus extraArgs kernelCmdline,
            OutcomeAfterEvents (c.runQEMU graphical debug memoryMB cpus extraArgs kernelCmdline)
              ((qemuStub.Run { graphical := graphical, debug := debug, memory_mb := memoryMB,
                               cpus := cpus, extra_args := extraArgs,
                               kernel_cmdline := kernelCmdline }).messages.filterMap
                specQemuNotification)
              (qemuStub.Run { graphical := graphical, debug := debug, memory_mb := memoryMB,
                              cpus := cpus, extra_args := extraArgs,
                              kernel_cmdline := kernelCmdline }).status
              ("QEMU run failed: "
                ++ (qemuStub.Run { graphical := graphical, debug := debug, memory_mb := memoryMB,
                                   cpus := cpus, extra_args := extraArgs,
                                   kernel_cmdline := kernelCmdline }).status.error_message)) := by
  refine ⟨?_, ?_, ?_⟩
  · intro kernelStub h targets jobs arch verbose
    refine ⟨filterMap_all_isEvent _ (fun _ _ => specBuildNotification_isEvent) _, ?_, ?_, ?_⟩
    · intro hok
      simp [GrpcClient.buildKernel, h, hok, GrpcClient.fail, buildReadLoop_eq_filterMap]
    · intro hok hev
      simp [GrpcClient.buildKernel, h, hok, GrpcClient.fail, buildReadLoop_eq_filterMap, hev]
    · intro hok
      simp [GrpcClient.buildKernel, h, hok, buildReadLoop_eq_filterMap]
  · intro kernelStub h version
    refine ⟨filterMap_all_isEvent _ (fun _ _ => specCloneNotification_isEvent) _, ?_, ?_, ?_⟩
    · intro hok
      simp [GrpcClient.cloneKernel, h, hok, GrpcClient.fail, cloneReadLoop_eq_filterMap]
    · intro hok hev
      simp [GrpcClient.cloneKernel, h, hok, GrpcClient.fail, cloneReadLoop_eq_filterMap, hev]
    · intro hok
      simp [GrpcClient.cloneKernel, h, hok, cloneReadLoop_eq_filterMap]
  · intro qemuStub h graphical debug memoryMB cpus extraArgs kernelCmdline
    refine ⟨filterMap_all_isEvent _ (fun _ _ => specQemuNotification_isEvent) _, ?_, ?_, ?_⟩
    · intro hok
      simp [GrpcClient.runQEMU, h, hok, GrpcClient.fail, qemuReadLoop_eq_filterMap]
    · intro hok hev
      simp [GrpcClient.runQEMU, h, hok, GrpcClient.fail, qemuReadLoop_eq_filterMap, hev]
    · intro hok
      simp [GrpcClient.runQEMU, h, hok, qemuReadLoop_eq_filterMap]

/-- C6, on a build stream cut off after a Stage event and a QEMU stream cut off before any
event: the stage notification stays, `errorOccurred` is last, and the calls return false. -/
theorem streaming_call_outcome_after_events_witness :
    ((clientOver (kernelStubBuilding (abortedStream [BuildProgress.stage "compile" 50 12 24]))
        (qemuStubRunning (abortedStream [])) "").buildKernel ["Image"] 8 "arm64" false).emitted
        = [Signal.buildStageChanged "compile" 50 12 24,
           Signal.errorOccurred "Build failed: Socket closed"]
      ∧ ((clientOver (kernelStubBuilding (abortedStream [BuildProgress.stage "compile" 50 12 24]))
          (qemuStubRunning (abortedStream [])) "").buildKernel ["Image"] 8 "arm64" false).ret
          = false
      ∧ ((clientOver (kernelStubBuilding (abortedStream [BuildProgress.stage "compile" 50 12 24]))
          (qemuStubRunning (abortedStream [])) "").runQEMU false false 256 2 [] "").emitted
          = [Signal.errorOccurred "QEMU run failed: Socket closed"] :=
  have hb := ((streaming_call_outcome_after_events (clientOver
      (kernelStubBuilding (abortedStream [BuildProgress.stage "compile" 50 12 24]))
      (qemuStubRunning (abortedStream [])) "")).1
      (kernelStubBuilding (abortedStream [BuildProgress.stage "compile" 50 12 24]))
      rfl ["Image"] 8 "arm64" false).2.1 rfl
  have hq := ((streaming_call_outcome_after_events (clientOver
      (kernelStubBuilding (abortedStream [BuildProgress.stage "compile" 50 12 24]))
      (qemuStubRunning (abortedStream [])) "")).2.2
      (qemuStubRunning (abortedStream [])) rfl false false 256 2 [] "").2.2.1 rfl rfl
  ⟨hb.1, hb.2.1, hq⟩

/-! ## Client facade: terminal events -/

theorem nothingAfterTerminal_of_no_event (isTerminal : Signal → Bool) (tail : List Signal)
    (h : tail.all (fun t => !t.isEvent) = true) : nothingAfterTerminal isTerminal tail = true := by
  induction tail with
  | nil => rfl
  | cons s rest ih =>
    simp only [List.all_cons, Bool.and_eq_true] at h
    simp only [nothingAfterTerminal, Bool.and_eq_true, Bool.or_eq_true]
    exact ⟨Or.inr h.2, ih h.2⟩

theorem nothingAfterTerminal_filterMap {α : Type} (spec : α → Option Signal) (isTm : α → Bool)
    (isTs : Signal → Bool) (hspec : ∀ m s, spec m = some s → isTs s = isTm m)
    (tail : List Signal) (htail : tail.all (fun t => !t.isEvent) = true) :
    ∀ messages : List α, terminalIsLast isTm messages = true →
      nothingAfterTerminal isTs (messages.filterMap spec ++ tail) = true := by
  intro messages
  induction messages with
  | nil =>
    intro _
    exact nothingAfterTerminal_of_no_event isTs tail htail
  | cons m rest ih =>
    intro h
    simp only [terminalIsLast, Bool.and_eq_true, Bool.or_eq_true] at h
    cases hm : spec m with
    | none =>
      rw [List.filterMap_cons_none hm]
      exact ih h.2
    | some s =>
      rw [List.filterMap_cons_some hm, List.cons_append]
      simp only [nothingAfterTerminal, Bool.and_eq_true, Bool.or_eq_true]
      refine ⟨?_, ih h.2⟩
      rcases h.1 with h1 | h1
      · left
        rw [hspec m s hm]
        exact h1
      · right
        have : rest = [] := by simpa using h1
        subst this
        simpa using htail

theorem countP_filterMap_terminal {α : Type} (spec : α → Option Signal) (isTm : α → Bool)
    (isTs : Signal → Bool) (hspec : ∀ m s, spec m = some s → isTs s = isTm m)
    (hnone : ∀ m, spec m = none → isTm m = false) :
    ∀ messages : List α, (messages.filterMap spec).countP isTs = messages.countP isTm := by
  intro messages
  induction messages with
  | nil => rfl
  | cons m rest ih =>
    cases hm : spec m with
    | none =>
      rw [List.filterMap_cons_none hm, ih, List.countP_cons, hnone m hm]
      simp
    | some s =>
      rw [List.filterMap_cons_some hm, List.countP_cons, List.countP_cons, ih, hspec m s hm]

theorem countP_le_one_of_terminalIsLast {α : Type} (isTm : α → Bool) :
    ∀ messages : List α, terminalIsLast isTm messages = true → messages.countP isTm ≤ 1 := by
  intro messages
  induction messages with
  | nil => intro _; simp
  | cons m rest ih =>
    intro h
    simp only [terminalIsLast, Bool.and_eq_true, Bool.or_eq_true] at h
    rw [List.countP_cons]
    rcases h.1 with h1 | h1
    · have hm : isTm m = false := by simpa using h1
      have := ih h.2
      simp [hm]
      exact this
    · have : rest = [] := by simpa using h1
      subst this
      simp
      split <;> omega

theorem specBuildNotification_terminal (m : BuildProgress) (s : Signal)
    (h : specBuildNotification m = some s) : s.isBuildCompleted = m.isComplete := by
  cases m <;> simp [specBuildNotification] at h <;> subst h <;> rfl

theorem specBuildNotification_none (m : BuildProgress) (h : specBuildNotification m = none) :
    m.isComplete = false := by
  cases m <;> first | rfl | simp [specBuildNotification] at h

theorem specQemuNotification_terminal (m : QEMUOutput) (s : Signal)
    (h : specQemuNotification m = some s) : s.isQemuStopped = m.isStopped := by
  cases m <;> simp [specQemuNotification] at h <;> subst h <;> rfl

theorem specQemuNotification_none (m : QEMUOutput) (h : specQemuNotification m = none) :
    m.isStopped = false := by
  cases m <;> first | rfl | simp [specQemuNotification] at h

/-- What the theorems on terminal events need of a streaming call: its signals are the
notifications of the messages followed by a tail that holds no event. -/
theorem terminal_events_of_emitted {α : Type} (spec : α → Option Signal) (isTm : α → Bool)
    (isTs : Signal → Bool) (hspec : ∀ m s, spec m = some s → isTs s = isTm m)
    (hnone : ∀ m, spec m = none → isTm m = false) (messages : List α) (emitted : List Signal)
    (tail : List Signal) (hem : emitted = messages.filterMap spec ++ tail)
    (htail : tail.all (fun t => !t.isEvent) = true) (hcount : tail.countP isTs = 0) :
    emitted.countP isTs = messages.countP isTm
      ∧ (terminalIsLast isTm messages = true → terminatesOnce isTs emitted = true) := by
  have hc : emitted.countP isTs = messages.countP isTm := by
    rw [hem, List.countP_append, hcount, countP_filterMap_terminal spec isTm isTs hspec hnone]
    rfl
  refine ⟨hc, ?_⟩
  intro hlast
  simp only [terminatesOnce, Bool.and_eq_true, decide_eq_true_eq]
  refine ⟨?_, ?_⟩
  · rw [hc]
    exact countP_le_one_of_terminalIsLast isTm messages hlast
  · rw [hem]
    exact nothingAfterTerminal_filterMap spec isTm isTs hspec tail htail messages hlast

/-- C7 (counterexample): on a build stream that goes on after its Complete message and on a
QEMU stream that goes on after its Stopped message, `buildKernel` emits two `buildCompleted`
with a `buildStageChanged` between them, and `runQEMU` emits a `qemuConsoleOutput` after
`qemuStopped`. -/
theorem event_after_terminal_notification_counterexample :
    ((clientOver (kernelStubBuilding buildStreamPastComplete)
          (qemuStubRunning qemuStreamPastStopped) "").buildKernel ["Image"] 8 "arm64"
          false).emitted
        = [Signal.buildCompleted true 1200 "arch/arm64/boot/Image",
           Signal.buildStageChanged "modules" 10 1 10,
           Signal.buildCompleted false 1300 ""]
      ∧ terminatesOnce Signal.isBuildCompleted
          ((clientOver (kernelStubBuilding buildStreamPastComplete)
            (qemuStubRunning qemuStreamPastStopped) "").buildKernel ["Image"] 8 "arm64"
            false).emitted = false
      ∧ ((clientOver (kernelStubBuilding buildStreamPastComplete)
            (qemuStubRunning qemuStreamPastStopped) "").runQEMU false false 256 2 []
            "").emitted
          = [Signal.qemuStopped 0 1500, Signal.qemuConsoleOutput [79, 75, 10]]
      ∧ terminatesOnce Signal.isQemuStopped
          ((clientOver (kernelStubBuilding buildStreamPastComplete)
            (qemuStubRunning qemuStreamPastStopped) "").runQEMU false false 256 2 []
            "").emitted = false :=
  ⟨rfl, rfl, rfl, rfl⟩

/-- C7 (amended): with the stub there, `buildKernel` emits one `buildCompleted` per Complete
message of the stream and `runQEMU` one `qemuStopped` per Stopped message; when the stream
keeps the invariant of the data model, a Complete (Stopped) message being the last message
of its stream, the signals hold at most one `buildCompleted` (`qemuStopped`) and no event
notification follows it. -/
theorem terminal_notification_last_on_terminated_streams (c : GrpcClient) :
    (∀ kernelStub, c.impl.kernelStub = some kernelStub →
        ∀ targets jobs arch verbose,
          (c.buildKernel targets jobs arch verbose).emitted.countP Signal.isBuildCompleted
              = (kernelStub.Build { targets := targets, jobs := jobs, arch := arch,
                                    verbose := verbose }).messages.countP
                  BuildProgress.isComplete
            ∧ (terminalIsLast BuildProgress.isComplete
                  (kernelStub.Build { targets := targets, jobs := jobs, arch := arch,
                                      verbose := verbose }).messages = true →
                terminatesOnce Signal.isBuildCompleted
                  (c.buildKernel targets jobs arch verbose).emitted = true))
      ∧ (∀ qemuStub, c.impl.qemuStub = some qemuStub →
          ∀ graphical debug memoryMB cpus extraArgs kernelCmdline,
            (c.runQEMU graphical debug memoryMB cpus extraArgs kernelCmdline).emitted.countP
                  Signal.isQemuStopped
                = (qemuStub.Run { graphical := graphical, debug := debug, memory_mb := memoryMB,
                                  cpus := cpus, extra_args := extraArgs,
                                  kernel_cmdline := kernelCmdline }).messages.countP
                    QEMUOutput.isStopped
              ∧ (terminalIsLast QEMUOutput.isStopped
                    (qemuStub.Run { graphical := graphical, debug := debug,
                                    memory_mb := memoryMB, cpus := cpus,
                                    extra_args := extraArgs,
                                    kernel_cmdline := kernelCmdline }).messages = true →
                  terminatesOnce Signal.isQemuStopped
                    (c.runQEMU graphical debug memoryMB cpus extraArgs kernelCmdline).emitted
                      = true)) := by
  refine ⟨?_, ?_⟩
  · intro kernelStub h targets jobs arch verbose
    refine terminal_events_of_emitted specBuildNotification BuildProgress.isComplete
      Signal.isBuildCompleted specBuildNotification_terminal specBuildNotification_none _ _ _
      (by rw [buildKernel_emitted c kernelStub h, buildReadLoop_eq_filterMap]) ?_ ?_
    · split <;> simp [Signal.isEvent]
    · split <;> simp [Signal.isBuildCompleted]
  · intro qemuStub h graphical debug memoryMB cpus extraArgs kernelCmdline
    refine terminal_events_of_emitted specQemuNotification QEMUOutput.isStopped
      Signal.isQemuStopped specQemuNotification_terminal specQemuNotification_none _ _ _
      (by rw [runQEMU_emitted c qemuStub h, qemuReadLoop_eq_filterMap]) ?_ ?_
    · split <;> simp [Signal.isEvent]
    · split <;> simp [Signal.isQemuStopped]

/-- C7 (amended), on the scenario build stream Stage(progress=50), LogLine(level=info),
Complete(success=true, durationMs=1200): exactly one `buildCompleted(true, 1200, ...)`, the
last signal; and on the scenario QEMU stream. -/
theorem terminal_notification_last_on_terminated_streams_witness :
    terminatesOnce Signal.isBuildCompleted
        ((clientOver (kernelStubBuilding scenarioBuildStream)
          (qemuStubRunning scenarioQemuStream) "").buildKernel ["Image"] 8 "arm64"
          false).emitted = true
      ∧ ((clientOver (kernelStubBuilding scenarioBuildStream)
            (qemuStubRunning scenarioQemuStream) "").buildKernel ["Image"] 8 "arm64"
            false).emitted
          = [Signal.buildStageChanged "compile" 50 12 24,
             Signal.buildLogReceived 1 "CC init/main.o" 1700000000000,
             Signal.buildCompleted true 1200 "arch/arm64/boot/Image"]
      ∧ terminatesOnce Signal.isQemuStopped
          ((clientOver (kernelStubBuilding scenarioBuildStream)
            (qemuStubRunning scenarioQemuStream) "").runQEMU false false 256 2 []
            "").emitted = true :=
  ⟨((terminal_notification_last_on_terminated_streams _).1
      (kernelStubBuilding scenarioBuildStream) rfl ["Image"] 8 "arm64" false).2 rfl,
   rfl,
   ((terminal_notification_last_on_terminated_streams _).2
      (qemuStubRunning scenarioQemuStream) rfl false false 256 2 [] "").2 rfl⟩

/-! ## Client facade: the claims on unary calls -/

/-- C8: with the stub there, `configureKernel`, `cleanKernel`, `stopQEMU` and `sendQEMUInput`
return true exactly when the status of the transport is ok and the `success` field of the
response is true. -/
theorem unary_call_returns_status_and_success (c : GrpcClient) :
    (∀ kernelStub, c.impl.kernelStub = some kernelStub →
        ∀ configType,
          ((c.configureKernel configType).ret = true
            ↔ (kernelStub.Configure { config_type := configType }).status.ok = true
              ∧ (kernelStub.Configure { config_type := configType }).response.success = true))
      ∧ (∀ kernelStub, c.impl.kernelStub = some kernelStub →
          ∀ deepClean,
            ((c.cleanKernel deepClean).ret = true
              ↔ (kernelStub.Clean { deep_clean := deepClean }).status.ok = true
                ∧ (kernelStub.Clean { deep_clean := deepClean }).response.success = true))
      ∧ (∀ qemuStub, c.impl.qemuStub = some qemuStub →
          ((c.stopQEMU).ret = true
            ↔ (qemuStub.Stop {}).status.ok = true ∧ (qemuStub.Stop {}).response.success = true))
      ∧ (∀ qemuStub, c.impl.qemuStub = some qemuStub →
          ∀ data,
            ((c.sendQEMUInput data).ret = true
              ↔ (qemuStub.SendInput { data := data }).status.ok = true
                ∧ (qemuStub.SendInput { data := data }).response.success = true)) := by
  refine ⟨?_, ?_, ?_, ?_⟩
  · intro kernelStub h configType
    simp only [GrpcClient.configureKernel, h]
    split_ifs <;> simp_all [GrpcClient.fail]
  · intro kernelStub h deepClean
    simp only [GrpcClient.cleanKernel, h]
    split_ifs <;> simp_all [GrpcClient.fail]
  · intro qemuStub h
    simp only [GrpcClient.stopQEMU, h]
    split_ifs <;> simp_all [GrpcClient.fail]
  · intro qemuStub h data
    simp only [GrpcClient.sendQEMUInput, h]
    split_ifs <;> simp_all [GrpcClient.fail]

/-- C8, on transports whose unary calls go through with `success = false` (every unary
operation returns false) and on transports whose unary calls succeed (`cleanKernel` returns
true). -/
theorem unary_call_returns_status_and_success_witness :
    ¬ ((clientOver refusingKernelStub refusingQEMUStub "").configureKernel "defconfig").ret = true
      ∧ ¬ ((clientOver refusingKernelStub refusingQEMUStub "").stopQEMU).ret = true
      ∧ ((clientOver (kernelStubBuilding scenarioBuildStream)
            (qemuStubRunning scenarioQemuStream) "").cleanKernel true).ret = true :=
  ⟨fun hr => absurd (((unary_call_returns_status_and_success _).1 refusingKernelStub rfl
      "defconfig").mp hr).2 (by decide),
   fun hr => absurd (((unary_call_returns_status_and_success _).2.2.1 refusingQEMUStub
      rfl).mp hr).2 (by decide),
   ((unary_call_returns_status_and_success _).2.1 (kernelStubBuilding scenarioBuildStream) rfl
      true).mpr ⟨rfl, rfl⟩⟩

/-- C9 (the code fails the claim): the claim says every call that returns false has set
`lastError()` to a message for this failure and emitted `errorOccurred` with it. On the code,
when the transport is ok and the response says `success = false`, `cleanKernel`, `stopQEMU`
and `sendQEMUInput` return false, leave `lastError()` as it was before the call, whatever it
was, and emit nothing; `configureKernel` on the same kind of response does set `lastError()`
and emits `errorOccurred`. -/
theorem unary_refusal_leaves_lastError_untouched (previous : String) :
    ((clientOver refusingKernelStub refusingQEMUStub previous).cleanKernel false).ret = false
      ∧ ((clientOver refusingKernelStub refusingQEMUStub previous).cleanKernel
            false).client.lastError = previous
      ∧ ((clientOver refusingKernelStub refusingQEMUStub previous).cleanKernel false).emitted = []
      ∧ ((clientOver refusingKernelStub refusingQEMUStub previous).stopQEMU).ret = false
      ∧ ((clientOver refusingKernelStub refusingQEMUStub previous).stopQEMU).client.lastError
          = previous
      ∧ ((clientOver refusingKernelStub refusingQEMUStub previous).stopQEMU).emitted = []
      ∧ ((clientOver refusingKernelStub refusingQEMUStub previous).sendQEMUInput
            [108, 115, 10]).ret = false
      ∧ ((clientOver refusingKernelStub refusingQEMUStub previous).sendQEMUInput
            [108, 115, 10]).client.lastError = previous
      ∧ ((clientOver refusingKernelStub refusingQEMUStub previous).sendQEMUInput
            [108, 115, 10]).emitted = []
      ∧ ((clientOver refusingKernelStub refusingQEMUStub previous).configureKernel
            "defconfig").ret = false
      ∧ ((clientOver refusingKernelStub refusingQEMUStub previous).configureKernel
            "defconfig").client.lastError = "no such config"
      ∧ ((clientOver refusingKernelStub refusingQEMUStub previous).configureKernel
            "defconfig").emitted = [Signal.errorOccurred "no such config"] :=
  ⟨rfl, rfl, rfl, rfl, rfl, rfl, rfl, rfl, rfl, rfl, rfl, rfl⟩

/-! ## Terminal decoder: the loop depends on the text from `pos` on -/

theorem drop_add_eq (text : QString) (pos k : Nat) : text.drop (pos + k) = (text.drop pos).drop k := by
  rw [← List.drop_drop]

/-- The loop reads the text only from `pos` on: two texts that agree from their positions on
decode alike. -/
theorem processLoop_suffix (fuel : Nat) :
    ∀ (text1 text2 : QString) (pos1 pos2 : Nat) (style : QTextCharFormat),
      text1.drop pos1 = text2.drop pos2 →
      processLoop text1 fuel pos1 style = processLoop text2 fuel pos2 style := by
  induction fuel with
  | zero => intro _ _ _ _ _ _; rfl
  | succ n ih =>
    intro text1 text2 pos1 pos2 style h
    by_cases hnil : text1.drop pos1 = []
    · rw [processLoop_exit text1 n pos1 style hnil,
        processLoop_exit text2 n pos2 style (by rw [← h]; exact hnil)]
    · cases hm : matchHere (text1.drop pos1) with
      | some pc =>
        obtain ⟨params, command⟩ := pc
        rw [processLoop_sequence text1 n pos1 style params command hm,
          processLoop_sequence text2 n pos2 style params command (by rw [← h]; exact hm)]
        apply ih
        have e1 : pos1 + 2 + params.length + 1 = pos1 + (2 + params.length + 1) := by omega
        have e2 : pos2 + 2 + params.length + 1 = pos2 + (2 + params.length + 1) := by omega
        rw [e1, e2, drop_add_eq text1 pos1, drop_add_eq text2 pos2, h]
      | none =>
        rw [processLoop_text text1 n pos1 style hnil hm,
          processLoop_text text2 n pos2 style (by rw [← h]; exact hnil) (by rw [← h]; exact hm),
          ← h]
        by_cases hmem : ESC ∈ text1.drop pos1
        · rw [if_pos hmem, if_pos hmem]
          congr 1
          apply ih
          rw [drop_add_eq text1 pos1, drop_add_eq text2 pos2, h]
        · rw [if_neg hmem, if_neg hmem]

/-- A chunk that is one complete sequence: the loop applies it and exits without a run. -/
theorem processANSI_single_sequence (style : QTextCharFormat) (params : QString)
    (command : Char) (hp : params.all isParamChar = true) (hc : isCommandChar command = true) :
    processANSI 2 style (ESC :: '[' :: (params ++ [command]))
      = some (applySequence style params command, []) := by
  have hm := matchHere_sequence params command [] hp hc
  rw [processANSI, processLoop_sequence _ 1 0 style params command (by simpa using hm)]
  exact processLoop_exit _ 0 _ _ (by simp; omega)

theorem isDigit_ne_semicolon {c : Char} (h : c.isDigit = true) : c ≠ ';' := by
  rintro rfl
  exact absurd h (by decide)

theorem splitKeepEmpty_of_not_mem (sep : Char) (s : QString) (h : sep ∉ s) :
    splitKeepEmpty sep s = [s] := by
  induction s with
  | nil => rfl
  | cons c cs ih =>
    simp only [List.mem_cons, not_or] at h
    have hc : c ≠ sep := fun e => h.1 e.symm
    simp [splitKeepEmpty, hc, ih h.2]

/-- A parameter string that is one non-empty run of digits is one code. -/
theorem applySequence_single_code (style : QTextCharFormat) (code : QString) (hne : code ≠ [])
    (hd : code.all Char.isDigit = true) : applySequence style code 'm' = applyCode style code := by
  have hsep : ';' ∉ code := by
    intro hmem
    exact isDigit_ne_semicolon (List.all_eq_true.mp hd _ hmem) rfl
  have hempty : code.isEmpty = false := by
    cases code with
    | nil => exact absurd rfl hne
    | cons c cs => rfl
  simp [applySequence, split, splitKeepEmpty_of_not_mem ';' code hsep, hempty]

theorem all_isParamChar_of_digits (code : QString) (hd : code.all Char.isDigit = true) :
    code.all isParamChar = true := by
  rw [List.all_eq_true] at hd ⊢
  intro c hc
  simp [isParamChar, hd c hc]

/-! ## Terminal decoder: the claims on single codes, sequences and plain text -/

theorem toInt_of_digits (code : QString) (hne : code ≠ []) (hd : code.all Char.isDigit = true)
    (hfit : decimalValue code ≤ 2147483647) : toInt code = (decimalValue code : Int) := by
  simp [toInt, hne, hd, hfit]

/-- A code of digits whose value fits an `int` and is none of 0, 1, 30..37, 40..47 leaves the
format as it is. -/
theorem applyCode_of_unknown_code (style : QTextCharFormat) (code : QString) (hne : code ≠ [])
    (hd : code.all Char.isDigit = true) (hfit : decimalValue code ≤ 2147483647)
    (hun : isKnownCode (decimalValue code) = false) : applyCode style code = style := by
  have hv := toInt_of_digits code hne hd hfit
  simp only [isKnownCode, Bool.or_eq_false_iff, Bool.and_eq_false_iff, beq_eq_false_iff_ne,
    decide_eq_false_iff_not, ne_eq] at hun
  obtain ⟨⟨⟨h0, h1⟩, h3⟩, h4⟩ := hun
  have c0 : ¬ toInt code = 0 := by rw [hv]; omega
  have c1 : ¬ toInt code = 1 := by rw [hv]; omega
  have c3 : ¬ (30 ≤ toInt code ∧ toInt code ≤ 37) := by rw [hv]; omega
  have c4 : ¬ (40 ≤ toInt code ∧ toInt code ≤ 47) := by rw [hv]; omega
  simp only [applyCode, if_neg c0, if_neg c1, if_neg c3, if_neg c4]

/-- C11: an SGR code with a value c in 30..37 sets the foreground to entry c - 30 of the
table (black, red, green, yellow, blue, magenta, cyan, white) and changes nothing else; a
value in 40..47 sets the background to entry c - 40 and changes nothing else; the value 1
sets bold and leaves both colours as they are. The decoder applies exactly this on the
sequence ESC `[` code `m`. -/
theorem sgr_colour_and_bold_codes (style : QTextCharFormat) (code : QString) :
    (30 ≤ toInt code ∧ toInt code ≤ 37 →
        ∃ colour, specPalette[(toInt code - 30).toNat]? = some colour
          ∧ applyCode style code = { style with foreground := colour })
      ∧ (40 ≤ toInt code ∧ toInt code ≤ 47 →
          ∃ colour, specPalette[(toInt code - 40).toNat]? = some colour
            ∧ applyCode style code = { style with background := colour })
      ∧ (toInt code = 1 → applyCode style code = { style with bold := true })
      ∧ (code ≠ [] → code.all Char.isDigit = true →
          processANSI 2 style (ESC :: '[' :: (code ++ ['m'])) = some (applyCode style code, [])) := by
  refine ⟨?_, ?_, ?_, ?_⟩
  · rintro ⟨h1, h2⟩
    unfold applyCode
    generalize toInt code = c at h1 h2
    interval_cases c <;> simp [colorAt, colors, specPalette]
  · rintro ⟨h1, h2⟩
    unfold applyCode
    generalize toInt code = c at h1 h2
    interval_cases c <;> simp [colorAt, colors, specPalette]
  · intro h1
    simp [applyCode, h1]
  · intro hne hd
    rw [processANSI_single_sequence style code 'm' (all_isParamChar_of_digits code hd)
      (by decide), applySequence_single_code style code hne hd]

/-- C11, at the codes `34`, `43` and `1` on the default style, and at the chunk `"\x1b[34m"`. -/
theorem sgr_colour_and_bold_codes_witness :
    applyCode defaultFormat "34".toList = { defaultFormat with foreground := QColor.blue }
      ∧ applyCode defaultFormat "43".toList = { defaultFormat with background := QColor.yellow }
      ∧ applyCode defaultFormat "1".toList = { defaultFormat with bold := true }
      ∧ processANSI 2 defaultFormat "\x1b[34m".toList
          = some ({ defaultFormat with foreground := QColor.blue }, []) := by
  have h := sgr_colour_and_bold_codes defaultFormat "34".toList
  have h2 := sgr_colour_and_bold_codes defaultFormat "43".toList
  have h3 := sgr_colour_and_bold_codes defaultFormat "1".toList
  refine ⟨?_, ?_, h3.2.2.1 (by decide), ?_⟩
  · obtain ⟨colour, hc, ha⟩ := h.1 (by decide)
    rw [ha]
    have : colour = QColor.blue := by
      have e : specPalette[(toInt "34".toList - 30).toNat]? = some QColor.blue := by decide
      rw [e] at hc
      exact (Option.some.inj hc).symm
    rw [this]
  · obtain ⟨colour, hc, ha⟩ := h2.2.1 (by decide)
    rw [ha]
    have : colour = QColor.yellow := by
      have e : specPalette[(toInt "43".toList - 40).toNat]? = some QColor.yellow := by decide
      rw [e] at hc
      exact (Option.some.inj hc).symm
    rw [this]
  · have hp := h.2.2.2 (by decide) (by decide)
    have e : applyCode defaultFormat "34".toList
        = { defaultFormat with foreground := QColor.blue } := by decide
    rw [e] at hp
    exact hp

/-- C12 (the code fails the claim): the claim says a parameter of decimal digits of any length
whose value is none of 0, 1, 30..37, 40..47 leaves the style unchanged. On the code the
parameter `2147483648`, whose value is none of them, does not fit an `int`: `toInt` gives 0
for it and the style is reset to the default style, here from bold red on blue, both by the
code alone and by the chunk `"\x1b[2147483648m"`. -/
theorem overflowing_sgr_code_resets_style :
    "2147483648".toList.all Char.isDigit = true
      ∧ decimalValue "2147483648".toList = 2147483648
      ∧ isKnownCode (decimalValue "2147483648".toList) = false
      ∧ toInt "2147483648".toList = 0
      ∧ applyCode { foreground := QColor.red, background := QColor.blue, bold := true }
          "2147483648".toList = defaultFormat
      ∧ processANSI 2 { foreground := QColor.red, background := QColor.blue, bold := true }
          "\x1b[2147483648m".toList = some (defaultFormat, [])
      ∧ defaultFormat
          ≠ { foreground := QColor.red, background := QColor.blue, bold := true } := by
  refine ⟨by decide, by decide, by decide, by decide, by decide, by decide, by decide⟩

/-- C13: a complete sequence ESC `[` params L whose letter L is not `m` is consumed whole in
one iteration, without a run and without a change of the style: at any position where it
starts the loop moves behind it, and a chunk that starts with it is decoded as the rest of
the chunk is decoded from the same style. -/
theorem non_sgr_sequence_is_discarded (style : QTextCharFormat) (params : QString)
    (command : Char) (rest : QString) (fuel : Nat) (hp : params.all isParamChar = true)
    (hc : isCommandChar command = true) (hm : command ≠ 'm') :
    applySequence style params command = style
      ∧ (∀ (text : QString) (pos : Nat),
          text.drop pos = ESC :: '[' :: (params ++ command :: rest) →
            processLoop text (fuel + 1) pos style
                = processLoop text fuel (pos + 2 + params.length + 1) style
              ∧ text.drop (pos + 2 + params.length + 1) = rest)
      ∧ processANSI (fuel + 1) style (ESC :: '[' :: (params ++ command :: rest))
          = processANSI fuel style rest := by
  have happly : applySequence style params command = style := by
    simp [applySequence, hm]
  have hstep : ∀ (text : QString) (pos : Nat),
      text.drop pos = ESC :: '[' :: (params ++ command :: rest) →
        processLoop text (fuel + 1) pos style
            = processLoop text fuel (pos + 2 + params.length + 1) style
          ∧ text.drop (pos + 2 + params.length + 1) = rest := by
    intro text pos hd
    have hmatch : matchHere (text.drop pos) = some (params, command) := by
      rw [hd]
      exact matchHere_sequence params command rest hp hc
    refine ⟨?_, ?_⟩
    · rw [processLoop_sequence text fuel pos style params command hmatch, happly]
    · have e : pos + 2 + params.length + 1 = pos + (2 + params.length + 1) := by omega
      rw [e, drop_add_eq text pos, hd]
      have e2 : 2 + params.length + 1 = (ESC :: '[' :: (params ++ [command])).length := by
        simp
        omega
      have e3 : ESC :: '[' :: (params ++ command :: rest)
          = (ESC :: '[' :: (params ++ [command])) ++ rest := by simp
      rw [e2, e3, List.drop_left]
  refine ⟨happly, hstep, ?_⟩
  obtain ⟨h1, h2⟩ := hstep (ESC :: '[' :: (params ++ command :: rest)) 0 rfl
  rw [processANSI, h1, processANSI]
  exact processLoop_suffix fuel _ _ _ 0 style (by simpa using h2)

/-- C13, at the erase-line sequence `"\x1b[2K"` in front of `"ok"` in the bold red style. -/
theorem non_sgr_sequence_is_discarded_witness :
    processANSI 2 { foreground := QColor.red, background := QColor.black, bold := true }
        (ESC :: '[' :: ("2".toList ++ 'K' :: "ok".toList))
      = some ({ foreground := QColor.red, background := QColor.black, bold := true },
          [{ text := "ok".toList,
             format := { foreground := QColor.red, background := QColor.black, bold := true } }]) := by
  rw [(non_sgr_sequence_is_discarded
    { foreground := QColor.red, background := QColor.black, bold := true }
    "2".toList 'K' "ok".toList 1 (by decide) (by decide) (by decide)).2.2]
  decide

theorem buildReadLoop_filter_unset (messages : List BuildProgress) :
    buildReadLoop (messages.filter (fun m => !m.isUnset)) = buildReadLoop messages := by
  induction messages with
  | nil => rfl
  | cons m rest ih =>
    cases m
    case notSet =>
      rw [List.filter_cons_of_neg (by simp [BuildProgress.isUnset]), ih]
      rfl
    all_goals
      rw [List.filter_cons_of_pos (by rfl)]
      simp only [buildReadLoop, ih]

theorem qemuReadLoop_filter_unset (messages : List QEMUOutput) :
    qemuReadLoop (messages.filter (fun m => !m.isUnset)) = qemuReadLoop messages := by
  induction messages with
  | nil => rfl
  | cons m rest ih =>
    cases m
    case notSet =>
      rw [List.filter_cons_of_neg (by simp [QEMUOutput.isUnset]), ih]
      rfl
    all_goals
      rw [List.filter_cons_of_pos (by rfl)]
      simp only [qemuReadLoop, ih]

theorem buildKernel_lastError (c : GrpcClient) (kernelStub : KernelStub)
    (h : c.impl.kernelStub = some kernelStub) (targets : List String) (jobs : Int)
    (arch : String) (verbose : Bool) :
    (c.buildKernel targets jobs arch verbose).client.lastError
      = if (kernelStub.Build { targets := targets, jobs := jobs, arch := arch,
                               verbose := verbose }).status.ok = true then c.lastError
        else "Build failed: "
          ++ (kernelStub.Build { targets := targets, jobs := jobs, arch := arch,
                                 verbose := verbose }).status.error_message := by
  simp only [GrpcClient.buildKernel, h]
  split <;> rename_i hok <;> simp_all [GrpcClient.fail]

theorem runQEMU_lastError (c : GrpcClient) (qemuStub : QEMUStub)
    (h : c.impl.qemuStub = some qemuStub) (graphical debug : Bool) (memoryMB cpus : Int)
    (extraArgs : List String) (kernelCmdline : String) :
    (c.runQEMU graphical debug memoryMB cpus extraArgs kernelCmdline).client.lastError
      = if (qemuStub.Run
              { graphical := graphical, debug := debug, memory_mb := memoryMB, cpus := cpus,
                extra_args := extraArgs, kernel_cmdline := kernelCmdline }).status.ok = true
        then c.lastError
        else "QEMU run failed: "
          ++ (qemuStub.Run
                { graphical := graphical, debug := debug, memory_mb := memoryMB, cpus := cpus,
                  extra_args := extraArgs,
                  kernel_cmdline := kernelCmdline }).status.error_message := by
  simp only [GrpcClient.runQEMU, h]
  split <;> rename_i hok <;> simp_all [GrpcClient.fail]

theorem filter_isErrorOccurred_events {α : Type} (spec : α → Option Signal)
    (hspec : ∀ m s, spec m = some s → s.isEvent = true) (messages : List α) :
    (messages.filterMap spec).filter Signal.isErrorOccurred = [] := by
  rw [List.filter_eq_nil_iff]
  intro s hs
  have := filterMap_all_isEvent spec hspec messages s hs
  cases s <;> simp_all [Signal.isEvent, Signal.isErrorOccurred]

/-- C16: a message whose tag is unset or unknown is skipped without a trace. Two build streams
(two QEMU streams) that end in the same status and agree once their unset messages are
removed, so that one is the other with unset messages inserted at any positions, give the
same signals, the same value returned and the same last error; and the `errorOccurred`
signals of a call are fixed by the final status alone, none when it is ok. -/
theorem unset_messages_are_skipped (c c2 : GrpcClient) (hl : c.lastError = c2.lastError) :
    (∀ k k2, c.impl.kernelStub = some k → c2.impl.kernelStub = some k2 →
        ∀ targets jobs arch verbose,
          (k.Build { targets := targets, jobs := jobs, arch := arch,
                     verbose := verbose }).status
            = (k2.Build { targets := targets, jobs := jobs, arch := arch,
                          verbose := verbose }).status →
          (k.Build { targets := targets, jobs := jobs, arch := arch,
                     verbose := verbose }).messages.filter (fun m => !m.isUnset)
            = (k2.Build { targets := targets, jobs := jobs, arch := arch,
                          verbose := verbose }).messages.filter (fun m => !m.isUnset) →
          (c.buildKernel targets jobs arch verbose).emitted
              = (c2.buildKernel targets jobs arch verbose).emitted
            ∧ (c.buildKernel targets jobs arch verbose).ret
              = (c2.buildKernel targets jobs arch verbose).ret
            ∧ (c.buildKernel targets jobs arch verbose).client.lastError
              = (c2.buildKernel targets jobs arch verbose).client.lastError
            ∧ (c.buildKernel targets jobs arch verbose).emitted.filter Signal.isErrorOccurred
              = (if (k.Build { targets := targets, jobs := jobs, arch := arch,
                               verbose := verbose }).status.ok = true then []
                 else [Signal.errorOccurred ("Build failed: "
                   ++ (k.Build { targets := targets, jobs := jobs, arch := arch,
                                 verbose := verbose }).status.error_message)]))
      ∧ (∀ q q2, c.impl.qemuStub = some q → c2.impl.qemuStub = some q2 →
          ∀ graphical debug memoryMB cpus extraArgs kernelCmdline,
            (q.Run { graphical := graphical, debug := debug, memory_mb := memoryMB,
                     cpus := cpus, extra_args := extraArgs,
                     kernel_cmdline := kernelCmdline }).status
              = (q2.Run { graphical := graphical, debug := debug, memory_mb := memoryMB,
                          cpus := cpus, extra_args := extraArgs,
                          kernel_cmdline := kernelCmdline }).status →
            (q.Run { graphical := graphical, debug := debug, memory_mb := memoryMB,
                     cpus := cpus, extra_args := extraArgs,
                     kernel_cmdline := kernelCmdline }).messages.filter (fun m => !m.isUnset)
              = (q2.Run { graphical := graphical, debug := debug, memory_mb := memoryMB,
                          cpus := cpus, extra_args := extraArgs,
                          kernel_cmdline := kernelCmdline }).messages.filter
                  (fun m => !m.isUnset) →
            (c.runQEMU graphical debug memoryMB cpus extraArgs kernelCmdline).emitted
                = (c2.runQEMU graphical debug memoryMB cpus extraArgs kernelCmdline).emitted
              ∧ (c.runQEMU graphical debug memoryMB cpus extraArgs kernelCmdline).ret
                = (c2.runQEMU graphical debug memoryMB cpus extraArgs kernelCmdline).ret
              ∧ (c.runQEMU graphical debug memoryMB cpus extraArgs
                    kernelCmdline).client.lastError
                = (c2.runQEMU graphical debug memoryMB cpus extraArgs
                    kernelCmdline).client.lastError
              ∧ (c.runQEMU graphical debug memoryMB cpus extraArgs
                    kernelCmdline).emitted.filter Signal.isErrorOccurred
                = (if (q.Run { graphical := graphical, debug := debug, memory_mb := memoryMB,
                               cpus := cpus, extra_args := extraArgs,
                               kernel_cmdline := kernelCmdline }).status.ok = true then []
                   else [Signal.errorOccurred ("QEMU run failed: "
                     ++ (q.Run { graphical := graphical, debug := debug,
                                 memory_mb := memoryMB, cpus := cpus, extra_args := extraArgs,
                                 kernel_cmdline := kernelCmdline }).status.error_message)])) := by
  refine ⟨?_, ?_⟩
  · intro k k2 h h2 targets jobs arch verbose hs hm
    refine ⟨?_, ?_, ?_, ?_⟩
    · rw [buildKernel_emitted c k h, buildKernel_emitted c2 k2 h2,
        ← buildReadLoop_filter_unset, hm, buildReadLoop_filter_unset, hs]
    · rw [buildKernel_ret c k h, buildKernel_ret c2 k2 h2, hs]
    · rw [buildKernel_lastError c k h, buildKernel_lastError c2 k2 h2, hs, hl]
    · rw [buildKernel_emitted c k h, buildReadLoop_eq_filterMap, List.filter_append,
        filter_isErrorOccurred_events _ (fun _ _ => specBuildNotification_isEvent)]
      split <;> simp [Signal.isErrorOccurred]
  · intro q q2 h h2 graphical debug memoryMB cpus extraArgs kernelCmdline hs hm
    refine ⟨?_, ?_, ?_, ?_⟩
    · rw [runQEMU_emitted c q h, runQEMU_emitted c2 q2 h2,
        ← qemuReadLoop_filter_unset, hm, qemuReadLoop_filter_unset, hs]
    · rw [runQEMU_ret c q h, runQEMU_ret c2 q2 h2, hs]
    · rw [runQEMU_lastError c q h, runQEMU_lastError c2 q2 h2, hs, hl]
    · rw [runQEMU_emitted c q h, qemuReadLoop_eq_filterMap, List.filter_append,
        filter_isErrorOccurred_events _ (fun _ _ => specQemuNotification_isEvent)]
      split <;> simp [Signal.isErrorOccurred]

/-- C16, on the scenario build stream with and without unset messages inserted, and on the
QEMU stream likewise: the same signals, none of them `errorOccurred`, and the same result. -/
theorem unset_messages_are_skipped_witness :
    ((clientOver (kernelStubBuilding buildStreamWithUnset) (qemuStubRunning qemuStreamWithUnset)
          "").buildKernel ["Image"] 8 "arm64" false).emitted
        = ((clientOver (kernelStubBuilding scenarioBuildStream)
            (qemuStubRunning scenarioQemuStream) "").buildKernel ["Image"] 8 "arm64"
            false).emitted
      ∧ ((clientOver (kernelStubBuilding buildStreamWithUnset)
            (qemuStubRunning qemuStreamWithUnset) "").buildKernel ["Image"] 8 "arm64"
            false).emitted.filter Signal.isErrorOccurred = []
      ∧ ((clientOver (kernelStubBuilding buildStreamWithUnset)
            (qemuStubRunning qemuStreamWithUnset) "").runQEMU false false 256 2 [] "").emitted
          = ((clientOver (kernelStubBuilding scenarioBuildStream)
              (qemuStubRunning scenarioQemuStream) "").runQEMU false false 256 2 [] "").emitted
      ∧ ((clientOver (kernelStubBuilding buildStreamWithUnset)
            (qemuStubRunning qemuStreamWithUnset) "").runQEMU false false 256 2 [] "").ret
          = ((clientOver (kernelStubBuilding scenarioBuildStream)
              (qemuStubRunning scenarioQemuStream) "").runQEMU false false 256 2 [] "").ret :=
  have hb := (unset_messages_are_skipped
      (clientOver (kernelStubBuilding buildStreamWithUnset)
        (qemuStubRunning qemuStreamWithUnset) "")
      (clientOver (kernelStubBuilding scenarioBuildStream)
        (qemuStubRunning scenarioQemuStream) "") rfl).1
      (kernelStubBuilding buildStreamWithUnset) (kernelStubBuilding scenarioBuildStream)
      rfl rfl ["Image"] 8 "arm64" false rfl rfl
  have hq := (unset_messages_are_skipped
      (clientOver (kernelStubBuilding buildStreamWithUnset)
        (qemuStubRunning qemuStreamWithUnset) "")
      (clientOver (kernelStubBuilding scenarioBuildStream)
        (qemuStubRunning scenarioQemuStream) "") rfl).2
      (qemuStubRunning qemuStreamWithUnset) (qemuStubRunning scenarioQemuStream)
      rfl rfl false false 256 2 [] "" rfl rfl
  ⟨hb.1, hb.2.2.2, hq.1, hq.2.1⟩

theorem runQEMU_events (c : GrpcClient) (qemuStub : QEMUStub)
    (h : c.impl.qemuStub = some qemuStub) (graphical debug : Bool) (memoryMB cpus : Int)
    (extraArgs : List String) (kernelCmdline : String) :
    (c.runQEMU graphical debug memoryMB cpus extraArgs kernelCmdline).emitted.filter
        Signal.isEvent
      = (qemuStub.Run
          { graphical := graphical, debug := debug, memory_mb := memoryMB, cpus := cpus,
            extra_args := extraArgs, kernel_cmdline := kernelCmdline }).messages.filterMap
          specQemuNotification := by
  rw [runQEMU_emitted c qemuStub h, qemuReadLoop_eq_filterMap, List.filter_append,
    filter_isEvent_events _ (fun _ _ => specQemuNotification_isEvent)]
  split <;> simp [Signal.isEvent]

theorem specQemuNotification_error (m : QEMUOutput) (s : Signal)
    (h : specQemuNotification m = some s) : s.isQemuError = m.isError := by
  cases m <;> simp [specQemuNotification] at h <;> subst h <;> rfl

theorem specQemuNotification_none_error (m : QEMUOutput) (h : specQemuNotification m = none) :
    m.isError = false := by
  cases m <;> first | rfl | simp [specQemuNotification] at h

/-- C17: a QEMU Error event does not end the call. With the stub there, an Error message
anywhere in the stream gives exactly one `qemuError` at its place, the messages after it are
dispatched as the messages before it, the signals hold one `qemuError` per Error message, and
the value returned is the ok flag of the final status. The handler `onQEMUError` of the
console widget changes neither the running flag nor the decoder style. -/
theorem qemu_error_event_does_not_end_the_call (c : GrpcClient) (w : QEMUConsoleWidget)
    (error : String) :
    (∀ q, c.impl.qemuStub = some q →
        ∀ graphical debug memoryMB cpus extraArgs kernelCmdline,
          (∀ before after message,
              (q.Run { graphical := graphical, debug := debug, memory_mb := memoryMB,
                       cpus := cpus, extra_args := extraArgs,
                       kernel_cmdline := kernelCmdline }).messages
                = before ++ QEMUOutput.error message :: after →
              (c.runQEMU graphical debug memoryMB cpus extraArgs kernelCmdline).emitted.filter
                  Signal.isEvent
                = before.filterMap specQemuNotification
                  ++ Signal.qemuError message :: after.filterMap specQemuNotification)
            ∧ (c.runQEMU graphical debug memoryMB cpus extraArgs kernelCmdline).emitted.countP
                  Signal.isQemuError
                = (q.Run { graphical := graphical, debug := debug, memory_mb := memoryMB,
                           cpus := cpus, extra_args := extraArgs,
                           kernel_cmdline := kernelCmdline }).messages.countP QEMUOutput.isError
            ∧ (c.runQEMU graphical debug memoryMB cpus extraArgs kernelCmdline).ret
                = (q.Run { graphical := graphical, debug := debug, memory_mb := memoryMB,
                           cpus := cpus, extra_args := extraArgs,
                           kernel_cmdline := kernelCmdline }).status.ok)
      ∧ (w.onQEMUError error).isRunning = w.isRunning
      ∧ (w.onQEMUError error).currentFormat = w.currentFormat := by
  refine ⟨?_, rfl, rfl⟩
  intro q h graphical debug memoryMB cpus extraArgs kernelCmdline
  have hev := runQEMU_events c q h graphical debug memoryMB cpus extraArgs kernelCmdline
  refine ⟨?_, ?_, runQEMU_ret c q h _ _ _ _ _ _⟩
  · intro before after message hmsg
    rw [hev, hmsg]
    simp [specQemuNotification]
  · rw [runQEMU_emitted c q h, qemuReadLoop_eq_filterMap, List.countP_append,
      countP_filterMap_terminal specQemuNotification QEMUOutput.isError Signal.isQemuError
        specQemuNotification_error specQemuNotification_none_error]
    split <;> simp [Signal.isQemuError]

/-- C17, on the scenario QEMU stream, whose Error message stands before its Stopped message,
and on a running widget in the blue style. -/
theorem qemu_error_event_does_not_end_the_call_witness :
    ((clientOver (kernelStubBuilding scenarioBuildStream) (qemuStubRunning scenarioQemuStream)
          "").runQEMU false false 256 2 [] "").emitted.filter Signal.isEvent
        = [Signal.qemuStarted 4242 "8.2.0" "qemu-system-aarch64",
           Signal.qemuConsoleOutput [79, 75, 10]]
          ++ Signal.qemuError "warning" :: [Signal.qemuStopped 0 1500]
      ∧ ((clientOver (kernelStubBuilding scenarioBuildStream)
            (qemuStubRunning scenarioQemuStream) "").runQEMU false false 256 2 [] "").ret = true
      ∧ (({ (QEMUConsoleWidget.new true).startQEMU.1 with
              currentFormat := { defaultFormat with foreground := QColor.blue } }).onQEMUError
            "warning").isRunning = true
      ∧ (({ (QEMUConsoleWidget.new true).startQEMU.1 with
              currentFormat := { defaultFormat with foreground := QColor.blue } }).onQEMUError
            "warning").currentFormat = { defaultFormat with foreground := QColor.blue } :=
  have h := qemu_error_event_does_not_end_the_call
    (clientOver (kernelStubBuilding scenarioBuildStream) (qemuStubRunning scenarioQemuStream) "")
    ({ (QEMUConsoleWidget.new true).startQEMU.1 with
        currentFormat := { defaultFormat with foreground := QColor.blue } }) "warning"
  have hq := h.1 (qemuStubRunning scenarioQemuStream) rfl false false 256 2 [] ""
  ⟨hq.1 [QEMUOutput.started 4242 "8.2.0" "qemu-system-aarch64", QEMUOutput.console [79, 75, 10]]
      [QEMUOutput.notSet, QEMUOutput.stopped 0 1500] "warning" rfl,
   hq.2.2, h.2.1, h.2.2⟩

/-! ## Client facade: the claims on `listKernelVersions` -/

/-- C19 (counterexample): asked for at most one version, `listKernelVersions(1)` returns all three
identifiers of a response that holds three. -/
theorem listKernelVersions_exceeds_limit_counterexample :
    ((clientOver
          (kernelStubListing
            { status := Status.OK, response := { versions := ["6.6", "6.5", "6.1"] } })
          (qemuStubRunning scenarioQemuStream) "").listKernelVersions 1).ret
        = ["6.6", "6.5", "6.1"]
      ∧ ¬ ((((clientOver
            (kernelStubListing
              { status := Status.OK, response := { versions := ["6.6", "6.5", "6.1"] } })
            (qemuStubRunning scenarioQemuStream) "").listKernelVersions 1).ret.length : Int)
          ≤ 1) := by
  refine ⟨rfl, ?_⟩
  decide

/-- C19 (amended): with the stub there and the status ok, `listKernelVersions(limit)` passes
`limit` to the server in the request and returns the version identifiers of the response, all
of them and in the order of the response, emitting nothing; the result holds at most `limit`
identifiers whenever the response does. -/
theorem listKernelVersions_returns_response (c : GrpcClient) (kernelStub : KernelStub)
    (limit : Int) (h : c.impl.kernelStub = some kernelStub)
    (hok : (kernelStub.ListVersions { limit := limit }).status.ok = true) :
    (c.listKernelVersions limit).ret
        = (kernelStub.ListVersions { limit := limit }).response.versions
      ∧ (c.listKernelVersions limit).emitted = []
      ∧ (((kernelStub.ListVersions { limit := limit }).response.versions.length : Int) ≤ limit →
          ((c.listKernelVersions limit).ret.length : Int) ≤ limit) := by
  have hret : (c.listKernelVersions limit).ret
      = (kernelStub.ListVersions { limit := limit }).response.versions := by
    simp [GrpcClient.listKernelVersions, h, hok]
  refine ⟨hret, by simp [GrpcClient.listKernelVersions, h, hok], ?_⟩
  intro hle
  rw [hret]
  exact hle

/-- C19 (amended), at the limit 5 and a response of three identifiers. -/
theorem listKernelVersions_returns_response_witness :
    ((clientOver
          (kernelStubListing
            { status := Status.OK, response := { versions := ["6.6", "6.5", "6.1"] } })
          (qemuStubRunning scenarioQemuStream) "").listKernelVersions 5).ret
        = ["6.6", "6.5", "6.1"]
      ∧ ((((clientOver
            (kernelStubListing
              { status := Status.OK, response := { versions := ["6.6", "6.5", "6.1"] } })
            (qemuStubRunning scenarioQemuStream) "").listKernelVersions 5).ret.length : Int)
          ≤ 5) :=
  have h := listKernelVersions_returns_response
    (clientOver
      (kernelStubListing
        { status := Status.OK, response := { versions := ["6.6", "6.5", "6.1"] } })
      (qemuStubRunning scenarioQemuStream) "")
    (kernelStubListing
      { status := Status.OK, response := { versions := ["6.6", "6.5", "6.1"] } })
    5 rfl rfl
  ⟨h.1, h.2.2 (by decide)⟩

/-- C20 (counterexample): `listVersions(limit=5)` against a transport that fails with the
diagnostic `Socket closed` returns the empty list, but the last error it sets is not the
diagnostic: it is `ListVersions failed: Socket closed`. -/
theorem listKernelVersions_lastError_counterexample :
    ((clientOver
          (kernelStubListing
            { status := { ok := false, error_message := "Socket closed" },
              response := { versions := ["6.6"] } })
          (qemuStubRunning scenarioQemuStream) "").listKernelVersions 5).ret = []
      ∧ ((clientOver
            (kernelStubListing
              { status := { ok := false, error_message := "Socket closed" },
                response := { versions := ["6.6"] } })
            (qemuStubRunning scenarioQemuStream) "").listKernelVersions 5).client.lastError
          = "ListVersions failed: Socket closed"
      ∧ ((clientOver
            (kernelStubListing
              { status := { ok := false, error_message := "Socket closed" },
                response := { versions := ["6.6"] } })
            (qemuStubRunning scenarioQemuStream) "").listKernelVersions 5).client.lastError
          ≠ "Socket closed" := by
  refine ⟨rfl, rfl, ?_⟩
  decide

/-- C20 (amended): with the stub there, for every limit and every transport failure with
diagnostic d, `listKernelVersions` returns the empty list whatever versions the response
holds, sets the last error to `ListVersions failed: ` followed by d, and emits one
`errorOccurred` with that text. The operation is a total function: it does not throw. -/
theorem listKernelVersions_transport_failure (c : GrpcClient) (kernelStub : KernelStub)
    (limit : Int) (h : c.impl.kernelStub = some kernelStub)
    (hfail : (kernelStub.ListVersions { limit := limit }).status.ok = false) :
    (c.listKernelVersions limit).ret = []
      ∧ (c.listKernelVersions limit).client.lastError
          = "ListVersions failed: "
            ++ (kernelStub.ListVersions { limit := limit }).status.error_message
      ∧ (c.listKernelVersions limit).emitted
          = [Signal.errorOccurred ("ListVersions failed: "
              ++ (kernelStub.ListVersions { limit := limit }).status.error_message)] := by
  simp [GrpcClient.listKernelVersions, h, hfail, GrpcClient.fail]

/-- C20 (amended), at `listVersions(limit=5)` against a transport failing with
`Socket closed`. -/
theorem listKernelVersions_transport_failure_witness :
    ((clientOver
          (kernelStubListing
            { status := { ok := false, error_message := "Socket closed" },
              response := { versions := ["6.6"] } })
          (qemuStubRunning scenarioQemuStream) "").listKernelVersions 5).ret = []
      ∧ ((clientOver
            (kernelStubListing
              { status := { ok := false, error_message := "Socket closed" },
                response := { versions := ["6.6"] } })
            (qemuStubRunning scenarioQemuStream) "").listKernelVersions 5).emitted
          = [Signal.errorOccurred ("ListVersions failed: " ++ "Socket closed")] :=
  have h := listKernelVersions_transport_failure
    (clientOver
      (kernelStubListing
        { status := { ok := false, error_message := "Socket closed" },
          response := { versions := ["6.6"] } })
      (qemuStubRunning scenarioQemuStream) "")
    (kernelStubListing
      { status := { ok := false, error_message := "Socket closed" },
        response := { versions := ["6.6"] } })
    5 rfl rfl
  ⟨h.1, h.2.2⟩

/-! ## QEMU console widget: the claims -/

/-- C15 (counterexample): a first session whose console output ends in the red style, then
Stopped, then `startQEMU` and the Started notification of the second session: the widget is
running again and its current style is still red, not the default style. -/
theorem new_session_keeps_previous_style_counterexample :
    ((((QEMUConsoleWidget.new true).startQEMU.1.onQEMUStarted 4242 "8.2.0"
          "qemu-system-aarch64").onQEMUConsoleOutput 2 "\x1b[31m".toList).map
        (fun w =>
          ((((w.onQEMUStopped wholeSeconds 0 1500).startQEMU.1).onQEMUStarted 4243 "8.2.0"
              "qemu-system-aarch64").currentFormat,
           (((w.onQEMUStopped wholeSeconds 0 1500).startQEMU.1).onQEMUStarted 4243 "8.2.0"
              "qemu-system-aarch64").isRunning)))
        = some ({ defaultFormat with foreground := QColor.red }, true)
      ∧ { defaultFormat with foreground := QColor.red } ≠ defaultFormat := by
  refine ⟨?_, by decide⟩
  decide

/-- C15 (amended): `startQEMU` and `onQEMUStarted` do not touch the decoder: after `startQEMU`
followed by the Started notification the current style is the style the widget had before,
the one the console output of the previous run left behind. The style is the default style
in a newly constructed widget. -/
theorem new_session_leaves_style_unchanged (w : QEMUConsoleWidget) (pid : Int)
    (qemuVersion command : String) (grpcClient : Bool) :
    w.startQEMU.1.currentFormat = w.currentFormat
      ∧ (w.onQEMUStarted pid qemuVersion command).currentFormat = w.currentFormat
      ∧ (w.startQEMU.1.onQEMUStarted pid qemuVersion command).currentFormat = w.currentFormat
      ∧ (QEMUConsoleWidget.new grpcClient).currentFormat = defaultFormat
      ∧ ((QEMUConsoleWidget.new grpcClient).startQEMU.1.onQEMUStarted pid qemuVersion
            command).currentFormat = defaultFormat := by
  have h1 : ∀ v : QEMUConsoleWidget, v.startQEMU.1.currentFormat = v.currentFormat := by
    intro v
    unfold QEMUConsoleWidget.startQEMU
    split <;> rfl
  have h2 : ∀ v : QEMUConsoleWidget,
      (v.onQEMUStarted pid qemuVersion command).currentFormat = v.currentFormat :=
    fun _ => rfl
  refine ⟨h1 w, h2 w, ?_, rfl, ?_⟩
  · rw [h2, h1]
  · rw [h2, h1]
    rfl

theorem sendInput_of_not_running (w : QEMUConsoleWidget) (h : w.isRunning = false) :
    w.sendInput = (w, []) := by
  simp [QEMUConsoleWidget.sendInput, h]

theorem stopQEMU_of_not_running (w : QEMUConsoleWidget) (h : w.isRunning = false) :
    w.stopQEMU = (w, []) := by
  simp [QEMUConsoleWidget.stopQEMU, h]

/-- A slot other than `startQEMU`, run on a widget that is not running with its input line
disabled, leaves it so and makes no call on the client. -/
theorem runSlot_of_not_running (fuel : Nat) (seconds : Int → String) (w w2 : QEMUConsoleWidget)
    (slot : Slot) (calls : List ClientCall) (hr : w.isRunning = false)
    (hi : w.inputLineEnabled = false) (h : w.runSlot fuel seconds slot = some (w2, calls)) :
    w2.isRunning = false ∧ w2.inputLineEnabled = false ∧ calls = [] := by
  cases slot with
  | stopQEMU =>
    simp only [QEMUConsoleWidget.runSlot, stopQEMU_of_not_running w hr, Option.some.injEq,
      Prod.mk.injEq] at h
    obtain ⟨h1, h2⟩ := h
    subst h1 h2
    exact ⟨hr, hi, rfl⟩
  | clearConsole =>
    simp only [QEMUConsoleWidget.runSlot, Option.some.injEq, Prod.mk.injEq] at h
    obtain ⟨h1, h2⟩ := h
    subst h1 h2
    exact ⟨hr, hi, rfl⟩
  | sendInput =>
    simp only [QEMUConsoleWidget.runSlot, sendInput_of_not_running w hr, Option.some.injEq,
      Prod.mk.injEq] at h
    obtain ⟨h1, h2⟩ := h
    subst h1 h2
    exact ⟨hr, hi, rfl⟩
  | typeInput text =>
    simp only [QEMUConsoleWidget.runSlot, Option.some.injEq, Prod.mk.injEq] at h
    obtain ⟨h1, h2⟩ := h
    subst h1 h2
    exact ⟨hr, hi, rfl⟩
  | onQEMUStarted pid qemuVersion command =>
    simp only [QEMUConsoleWidget.runSlot, Option.some.injEq, Prod.mk.injEq] at h
    obtain ⟨h1, h2⟩ := h
    subst h1 h2
    exact ⟨hr, hi, rfl⟩
  | onQEMUConsoleOutput text =>
    simp only [QEMUConsoleWidget.runSlot, QEMUConsoleWidget.onQEMUConsoleOutput] at h
    cases hp : processANSI fuel w.currentFormat text with
    | none => simp [hp] at h
    | some r =>
      simp only [hp, Option.map_some', Option.some.injEq, Prod.mk.injEq] at h
      obtain ⟨h1, h2⟩ := h
      subst h1 h2
      exact ⟨hr, hi, rfl⟩
  | onQEMUStopped exitCode uptimeMs =>
    simp only [QEMUConsoleWidget.runSlot, Option.some.injEq, Prod.mk.injEq] at h
    obtain ⟨h1, h2⟩ := h
    subst h1 h2
    exact ⟨rfl, rfl, rfl⟩
  | onQEMUError error =>
    simp only [QEMUConsoleWidget.runSlot, Option.some.injEq, Prod.mk.injEq] at h
    obtain ⟨h1, h2⟩ := h
    subst h1 h2
    exact ⟨hr, hi, rfl⟩

theorem runSlots_of_not_running (fuel : Nat) (seconds : Int → String) (slots : List Slot) :
    ∀ (w w2 : QEMUConsoleWidget) (calls : List ClientCall), w.isRunning = false →
      w.inputLineEnabled = false → w.runSlots fuel seconds slots = some (w2, calls) →
      w2.isRunning = false ∧ w2.inputLineEnabled = false ∧ calls = [] := by
  induction slots with
  | nil =>
    intro w w2 calls hr hi h
    simp only [QEMUConsoleWidget.runSlots, Option.some.injEq, Prod.mk.injEq] at h
    obtain ⟨h1, h2⟩ := h
    subst h1 h2
    exact ⟨hr, hi, rfl⟩
  | cons slot more ih =>
    intro w w2 calls hr hi h
    simp only [QEMUConsoleWidget.runSlots] at h
    cases h1 : w.runSlot fuel seconds slot with
    | none => simp [h1] at h
    | some r1 =>
      obtain ⟨wa, ca⟩ := r1
      simp only [h1] at h
      cases h2 : QEMUConsoleWidget.runSlots fuel seconds wa more with
      | none => simp [h2] at h
      | some r2 =>
        obtain ⟨wb, cb⟩ := r2
        simp only [h2, Option.some.injEq, Prod.mk.injEq] at h
        obtain ⟨e1, e2⟩ := h
        subst e1 e2
        obtain ⟨a1, a2, a3⟩ := runSlot_of_not_running fuel seconds w wa slot ca hr hi h1
        obtain ⟨b1, b2, b3⟩ := ih wa wb cb a1 a2 h2
        exact ⟨b1, b2, by rw [a3, b3]; rfl⟩

/-- C18: once `onQEMUStopped` has run the widget is not running and its input line is
disabled; whatever slots other than `startQEMU` run afterwards, in any order, it stays so,
none of them calls the client, and `sendInput` on any input text leaves the whole widget as
it is, the console view included, and sends nothing. After `startQEMU` on a widget with a
client, `sendInput` sends the text again. -/
theorem input_disabled_after_stopped (seconds : Int → String) (fuel : Nat)
    (w w2 : QEMUConsoleWidget) (exitCode uptimeMs : Int) (slots : List Slot)
    (calls : List ClientCall) (text : QString)
    (hrun : (w.onQEMUStopped seconds exitCode uptimeMs).runSlots fuel seconds slots
      = some (w2, calls)) :
    ({ w.onQEMUStopped seconds exitCode uptimeMs with inputLineText := text }).sendInput
        = ({ w.onQEMUStopped seconds exitCode uptimeMs with inputLineText := text }, [])
      ∧ w2.isRunning = false ∧ w2.inputLineEnabled = false ∧ calls = []
      ∧ ({ w2 with inputLineText := text }).sendInput = ({ w2 with inputLineText := text }, [])
      ∧ (w2.grpcClient = true → text ≠ [] →
          ({ w2.startQEMU.1 with inputLineText := text }).sendInput.2
            = [ClientCall.sendQEMUInput (toUtf8 (text ++ ['\n']))]) := by
  obtain ⟨h1, h2, h3⟩ := runSlots_of_not_running fuel seconds slots _ w2 calls rfl rfl hrun
  refine ⟨sendInput_of_not_running _ rfl, h1, h2, h3, sendInput_of_not_running _ h1, ?_⟩
  intro hc hne
  have hempty : text.isEmpty = false := by
    cases text with
    | nil => exact absurd rfl hne
    | cons c cs => rfl
  simp [QEMUConsoleWidget.startQEMU, QEMUConsoleWidget.sendInput, h1, hc, hempty]

/-- C18, on a running widget that gets Stopped and then console output, typed text, two
attempts to send it, a stop request, an error and a clearing of the console. -/
theorem input_disabled_after_stopped_witness :
    ∃ w2 calls,
      (((QEMUConsoleWidget.new true).startQEMU.1).onQEMUStopped wholeSeconds 0 1500).runSlots 2
          wholeSeconds
          [Slot.onQEMUConsoleOutput "late".toList, Slot.typeInput "ls".toList, Slot.sendInput,
           Slot.stopQEMU, Slot.onQEMUError "warning", Slot.sendInput, Slot.clearConsole]
        = some (w2, calls)
      ∧ w2.isRunning = false ∧ calls = []
      ∧ ({ w2 with inputLineText := "ls".toList }).sendInput
          = ({ w2 with inputLineText := "ls".toList }, []) := by
  obtain ⟨r, hr⟩ := Option.isSome_iff_exists.mp
    (show ((((QEMUConsoleWidget.new true).startQEMU.1).onQEMUStopped wholeSeconds 0
        1500).runSlots 2 wholeSeconds
        [Slot.onQEMUConsoleOutput "late".toList, Slot.typeInput "ls".toList, Slot.sendInput,
         Slot.stopQEMU, Slot.onQEMUError "warning", Slot.sendInput,
         Slot.clearConsole]).isSome = true by decide)
  have h := input_disabled_after_stopped wholeSeconds 2 ((QEMUConsoleWidget.new true).startQEMU.1)
    r.1 0 1500 _ r.2 "ls".toList hr
  exact ⟨r.1, r.2, hr, h.2.1, h.2.2.2.1, h.2.2.2.2.1⟩

/-! ## Client facade: missing stubs, configure failures, connectivity, last error -/

/-- C21: when the stub an operation needs is a null pointer, the operation reports it at once:
it returns false (the empty list for `listKernelVersions`), sets the last error to
`gRPC stub not initialized`, and emits exactly one `errorOccurred` with that text and no
event notification. This holds for the five operations on the kernel stub and the three on
the QEMU stub, whatever their arguments. -/
theorem missing_stub_is_reported_at_once (c : GrpcClient) :
    (c.impl.kernelStub = none →
        (∀ targets jobs arch verbose,
            ReportsMissingStub (c.buildKernel targets jobs arch verbose) false)
          ∧ (∀ version, ReportsMissingStub (c.cloneKernel version) false)
          ∧ (∀ configType, ReportsMissingStub (c.configureKernel configType) false)
          ∧ (∀ deepClean, ReportsMissingStub (c.cleanKernel deepClean) false)
          ∧ (∀ limit, ReportsMissingStub (c.listKernelVersions limit) []))
      ∧ (c.impl.qemuStub = none →
          (∀ graphical debug memoryMB cpus extraArgs kernelCmdline,
              ReportsMissingStub
                (c.runQEMU graphical debug memoryMB cpus extraArgs kernelCmdline) false)
            ∧ ReportsMissingStub c.stopQEMU false
            ∧ (∀ data, ReportsMissingStub (c.sendQEMUInput data) false)) := by
  refine ⟨?_, ?_⟩
  · intro h
    refine ⟨?_, ?_, ?_, ?_, ?_⟩
    · intro targets jobs arch verbose
      simp [ReportsMissingStub, GrpcClient.buildKernel, h, GrpcClient.fail]
    · intro version
      simp [ReportsMissingStub, GrpcClient.cloneKernel, h, GrpcClient.fail]
    · intro configType
      simp [ReportsMissingStub, GrpcClient.configureKernel, h, GrpcClient.fail]
    · intro deepClean
      simp [ReportsMissingStub, GrpcClient.cleanKernel, h, GrpcClient.fail]
    · intro limit
      simp [ReportsMissingStub, GrpcClient.listKernelVersions, h, GrpcClient.fail]
  · intro h
    refine ⟨?_, ?_, ?_⟩
    · intro graphical debug memoryMB cpus extraArgs kernelCmdline
      simp [ReportsMissingStub, GrpcClient.runQEMU, h, GrpcClient.fail]
    · simp [ReportsMissingStub, GrpcClient.stopQEMU, h, GrpcClient.fail]
    · intro data
      simp [ReportsMissingStub, GrpcClient.sendQEMUInput, h, GrpcClient.fail]

/-- C21, on a client without stubs: `buildKernel`, `listKernelVersions` and `runQEMU`. -/
theorem missing_stub_is_reported_at_once_witness :
    ReportsMissingStub ((clientWithoutStubs "").buildKernel ["Image"] 8 "arm64" false) false
      ∧ ReportsMissingStub ((clientWithoutStubs "").listKernelVersions 5) []
      ∧ ReportsMissingStub ((clientWithoutStubs "").runQEMU false false 256 2 [] "") false :=
  ⟨((missing_stub_is_reported_at_once (clientWithoutStubs "")).1 rfl).1 ["Image"] 8 "arm64"
      false,
   ((missing_stub_is_reported_at_once (clientWithoutStubs "")).1 rfl).2.2.2.2 5,
   ((missing_stub_is_reported_at_once (clientWithoutStubs "")).2 rfl).1 false false 256 2 []
      ""⟩

/-- C22: `configureKernel` with the stub there. When the status of the transport is ok and the
response says `success = false`, the last error becomes exactly the `error_message` of the
response, one `errorOccurred` is emitted with it, and the call returns false; when the
transport fails with diagnostic d the last error becomes `Configure failed: ` followed by d,
emitted once likewise. -/
theorem configure_failure_messages (c : GrpcClient) (kernelStub : KernelStub)
    (configType : String) (h : c.impl.kernelStub = some kernelStub) :
    ((kernelStub.Configure { config_type := configType }).status.ok = true →
        (kernelStub.Configure { config_type := configType }).response.success = false →
        (c.configureKernel configType).client.lastError
            = (kernelStub.Configure { config_type := configType }).response.error_message
          ∧ (c.configureKernel configType).emitted
            = [Signal.errorOccurred
                (kernelStub.Configure { config_type := configType }).response.error_message]
          ∧ (c.configureKernel configType).ret = false)
      ∧ ((kernelStub.Configure { config_type := configType }).status.ok = false →
          (c.configureKernel configType).client.lastError
              = "Configure failed: "
                ++ (kernelStub.Configure { config_type := configType }).status.error_message
            ∧ (c.configureKernel configType).emitted
              = [Signal.errorOccurred ("Configure failed: "
                  ++ (kernelStub.Configure
                        { config_type := configType }).status.error_message)]
            ∧ (c.configureKernel configType).ret = false) := by
  refine ⟨?_, ?_⟩
  · intro hok hs
    simp [GrpcClient.configureKernel, h, hok, hs, GrpcClient.fail]
  · intro hok
    simp [GrpcClient.configureKernel, h, hok, GrpcClient.fail]

/-- C22, on a transport whose Configure call goes through with `success = false` and the
message `no such config`, and on one whose Configure call fails with `Socket closed`. -/
theorem configure_failure_messages_witness :
    ((clientOver refusingKernelStub refusingQEMUStub "").configureKernel
          "defconfig").client.lastError = "no such config"
      ∧ ((clientOver refusingKernelStub refusingQEMUStub "").configureKernel
            "defconfig").emitted = [Signal.errorOccurred "no such config"]
      ∧ ((clientOver
            (fixedKernelStub { messages := [], status := Status.OK }
              { messages := [], status := Status.OK }
              { status := { ok := false, error_message := "Socket closed" },
                response := { success := false, error_message := "" } }
              { status := Status.OK, response := { success := true } }
              { status := Status.OK, response := { versions := [] } })
            refusingQEMUStub "").configureKernel "defconfig").client.lastError
          = "Configure failed: " ++ "Socket closed" :=
  have h1 := (configure_failure_messages (clientOver refusingKernelStub refusingQEMUStub "")
    refusingKernelStub "defconfig" rfl).1 rfl rfl
  have h2 := (configure_failure_messages
    (clientOver
      (fixedKernelStub { messages := [], status := Status.OK }
        { messages := [], status := Status.OK }
        { status := { ok := false, error_message := "Socket closed" },
          response := { success := false, error_message := "" } }
        { status := Status.OK, response := { success := true } }
        { status := Status.OK, response := { versions := [] } })
      refusingQEMUStub "")
    (fixedKernelStub { messages := [], status := Status.OK }
      { messages := [], status := Status.OK }
      { status := { ok := false, error_message := "Socket closed" },
        response := { success := false, error_message := "" } }
      { status := Status.OK, response := { success := true } }
      { status := Status.OK, response := { versions := [] } })
    "defconfig" rfl).2 rfl
  ⟨h1.1, h1.2.1, h2.1⟩

/-- C23: `isConnected` returns true exactly when the channel exists and its state is READY or
IDLE; it returns false without a channel and in the states CONNECTING, TRANSIENT_FAILURE and
SHUTDOWN. -/
theorem isConnected_iff_ready_or_idle (c : GrpcClient) :
    (c.isConnected = true
        ↔ c.impl.channel = some ConnectivityState.GRPC_CHANNEL_READY
          ∨ c.impl.channel = some ConnectivityState.GRPC_CHANNEL_IDLE)
      ∧ (c.impl.channel = none → c.isConnected = false)
      ∧ (c.impl.channel = some ConnectivityState.GRPC_CHANNEL_CONNECTING →
          c.isConnected = false)
      ∧ (c.impl.channel = some ConnectivityState.GRPC_CHANNEL_TRANSIENT_FAILURE →
          c.isConnected = false)
      ∧ (c.impl.channel = some ConnectivityState.GRPC_CHANNEL_SHUTDOWN →
          c.isConnected = false) := by
  refine ⟨?_, ?_, ?_, ?_, ?_⟩
  · unfold GrpcClient.isConnected
    cases hch : c.impl.channel with
    | none => simp
    | some state => cases state <;> simp
  all_goals
    intro h
    simp [GrpcClient.isConnected, h]

/-- C23, on the client the constructor leaves (channel idle) and on a client without a
channel. -/
theorem isConnected_iff_ready_or_idle_witness :
    (clientOver refusingKernelStub refusingQEMUStub "").isConnected = true
      ∧ (clientWithoutStubs "").isConnected = false :=
  ⟨(isConnected_iff_ready_or_idle _).1.mpr (Or.inr rfl),
   (isConnected_iff_ready_or_idle _).2.1 rfl⟩

/-- C24: `logLevelToString` is defined on every integer: it maps 0, 1, 2, 3 to `DEBUG`, `INFO`,
`WARN`, `ERROR`, and every other integer, negative or above 3, to `UNKNOWN`. -/
theorem logLevelToString_total (level : Int) :
    logLevelToString 0 = "DEBUG" ∧ logLevelToString 1 = "INFO"
      ∧ logLevelToString 2 = "WARN" ∧ logLevelToString 3 = "ERROR"
      ∧ ((level < 0 ∨ 3 < level) → logLevelToString level = "UNKNOWN")
      ∧ (logLevelToString level = "UNKNOWN" ↔ (level < 0 ∨ 3 < level)) := by
  have hout : (level < 0 ∨ 3 < level) → logLevelToString level = "UNKNOWN" := by
    intro h
    have h0 : ¬ level = 0 := by omega
    have h1 : ¬ level = 1 := by omega
    have h2 : ¬ level = 2 := by omega
    have h3 : ¬ level = 3 := by omega
    simp [logLevelToString, h0, h1, h2, h3]
  refine ⟨rfl, rfl, rfl, rfl, hout, ⟨?_, hout⟩⟩
  intro h
  by_contra hc
  have hr : level = 0 ∨ level = 1 ∨ level = 2 ∨ level = 3 := by omega
  rcases hr with e | e | e | e <;> subst e <;> revert h <;> decide

/-- C24, at the levels -1 and 4. -/
theorem logLevelToString_total_witness :
    logLevelToString (-1) = "UNKNOWN" ∧ logLevelToString 4 = "UNKNOWN" :=
  ⟨(logLevelToString_total (-1)).2.2.2.2.1 (Or.inl (by decide)),
   (logLevelToString_total 4).2.2.2.2.1 (Or.inr (by decide))⟩

/-- C29: a successful call leaves the last error as it was. For each of the seven operations
that return a boolean, a call that returns true ends with the last error it started with;
for `listKernelVersions`, a call on an initialized stub whose status is ok does. -/
theorem successful_call_keeps_lastError (c : GrpcClient) :
    (∀ targets jobs arch verbose, (c.buildKernel targets jobs arch verbose).ret = true →
        (c.buildKernel targets jobs arch verbose).client.lastError = c.lastError)
      ∧ (∀ version, (c.cloneKernel version).ret = true →
          (c.cloneKernel version).client.lastError = c.lastError)
      ∧ (∀ configType, (c.configureKernel configType).ret = true →
          (c.configureKernel configType).client.lastError = c.lastError)
      ∧ (∀ deepClean, (c.cleanKernel deepClean).ret = true →
          (c.cleanKernel deepClean).client.lastError = c.lastError)
      ∧ (∀ kernelStub limit, c.impl.kernelStub = some kernelStub →
          (kernelStub.ListVersions { limit := limit }).status.ok = true →
          (c.listKernelVersions limit).client.lastError = c.lastError)
      ∧ (∀ graphical debug memoryMB cpus extraArgs kernelCmdline,
          (c.runQEMU graphical debug memoryMB cpus extraArgs kernelCmdline).ret = true →
          (c.runQEMU graphical debug memoryMB cpus extraArgs kernelCmdline).client.lastError
            = c.lastError)
      ∧ ((c.stopQEMU).ret = true → (c.stopQEMU).client.lastError = c.lastError)
      ∧ (∀ data, (c.sendQEMUInput data).ret = true →
          (c.sendQEMUInput data).client.lastError = c.lastError) := by
  refine ⟨?_, ?_, ?_, ?_, ?_, ?_, ?_, ?_⟩
  · intro targets jobs arch verbose
    unfold GrpcClient.buildKernel
    cases c.impl.kernelStub with
    | none => simp [GrpcClient.fail]
    | some k =>
      simp only
      split <;> simp [GrpcClient.fail]
  · intro version
    unfold GrpcClient.cloneKernel
    cases c.impl.kernelStub with
    | none => simp [GrpcClient.fail]
    | some k =>
      simp only
      split <;> simp [GrpcClient.fail]
  · intro configType
    unfold GrpcClient.configureKernel
    cases c.impl.kernelStub with
    | none => simp [GrpcClient.fail]
    | some k =>
      simp only
      split_ifs <;> simp [GrpcClient.fail]
  · intro deepClean
    unfold GrpcClient.cleanKernel
    cases c.impl.kernelStub with
    | none => simp [GrpcClient.fail]
    | some k =>
      simp only
      split <;> simp [GrpcClient.fail]
  · intro kernelStub limit h hok
    simp [GrpcClient.listKernelVersions, h, hok]
  · intro graphical debug memoryMB cpus extraArgs kernelCmdline
    unfold GrpcClient.runQEMU
    cases c.impl.qemuStub with
    | none => simp [GrpcClient.fail]
    | some q =>
      simp only
      split <;> simp [GrpcClient.fail]
  · unfold GrpcClient.stopQEMU
    cases c.impl.qemuStub with
    | none => simp [GrpcClient.fail]
    | some q =>
      simp only
      split <;> simp [GrpcClient.fail]
  · intro data
    unfold GrpcClient.sendQEMUInput
    cases c.impl.qemuStub with
    | none => simp [GrpcClient.fail]
    | some q =>
      simp only
      split <;> simp [GrpcClient.fail]

/-- C29, on a client that carries the error of an earlier failed build: a successful
`cleanKernel`, a successful `runQEMU` and a successful `listKernelVersions` leave it. -/
theorem successful_call_keeps_lastError_witness :
    ((clientOver (kernelStubBuilding scenarioBuildStream) (qemuStubRunning scenarioQemuStream)
          "Build failed: Socket closed").cleanKernel true).client.lastError
        = "Build failed: Socket closed"
      ∧ ((clientOver (kernelStubBuilding scenarioBuildStream)
            (qemuStubRunning scenarioQemuStream)
            "Build failed: Socket closed").runQEMU false false 256 2 [] "").client.lastError
          = "Build failed: Socket closed"
      ∧ ((clientOver (kernelStubBuilding scenarioBuildStream)
            (qemuStubRunning scenarioQemuStream)
            "Build failed: Socket closed").listKernelVersions 5).client.lastError
          = "Build failed: Socket closed" :=
  have h := successful_call_keeps_lastError
    (clientOver (kernelStubBuilding scenarioBuildStream) (qemuStubRunning scenarioQemuStream)
      "Build failed: Socket closed")
  ⟨h.2.2.2.1 true rfl, h.2.2.2.2.2.1 false false 256 2 [] "" rfl,
   h.2.2.2.2.1 (kernelStubBuilding scenarioBuildStream) 5 rfl rfl⟩

/-! ## Terminal decoder: checked access to the colour table -/

theorem applyCodeChecked_eq (style : QTextCharFormat) (code : QString) :
    applyCodeChecked style code = some (applyCode style code) := by
  unfold applyCodeChecked applyCode
  generalize toInt code = c
  by_cases h0 : c = 0
  · simp [h0]
  · by_cases h3 : 30 ≤ c ∧ c ≤ 37
    · obtain ⟨h1, h2⟩ := h3
      interval_cases c <;> simp [colorAt, colors]
    · by_cases h4 : 40 ≤ c ∧ c ≤ 47
      · obtain ⟨h1, h2⟩ := h4
        interval_cases c <;> simp [colorAt, colors]
      · by_cases h1 : c = 1
        · simp [h1]
        · simp [h0, h3, h4, h1]

theorem applyCodesChecked_eq (codes : List QString) :
    ∀ style, applyCodesChecked style codes = some (codes.foldl applyCode style) := by
  induction codes with
  | nil => intro style; rfl
  | cons code rest ih =>
    intro style
    simp [applyCodesChecked, applyCodeChecked_eq, ih]

theorem applySequenceChecked_eq (style : QTextCharFormat) (params : QString) (command : Char) :
    applySequenceChecked style params command = some (applySequence style params command) := by
  unfold applySequenceChecked applySequence
  split
  · exact applyCodesChecked_eq _ _
  · rfl

theorem processLoopChecked_eq (text : QString) (fuel : Nat) :
    ∀ (pos : Nat) (style : QTextCharFormat),
      processLoopChecked text fuel pos style
        = (processLoop text fuel pos style).map CheckedResult.returned := by
  induction fuel with
  | zero => intro pos style; rfl
  | succ n ih =>
    intro pos style
    rw [processLoopChecked, processLoop]
    split
    · split
      · rename_i m hm
        simp only [applySequenceChecked_eq, ih]
      · split
        · rfl
        · rename_i nextEscape hi
          rw [ih]
          cases processLoop text n nextEscape style with
          | none => rfl
          | some r => rfl
    · rfl

theorem colorAt_isSome_iff (i : Int) : (colorAt i).isSome = true ↔ 0 ≤ i ∧ i ≤ 7 := by
  constructor
  · intro h
    unfold colorAt at h
    split at h
    · rename_i h0
      refine ⟨h0, ?_⟩
      by_contra hc
      have h8 : 8 ≤ i.toNat := by omega
      have : colors[i.toNat]? = none := by
        apply List.getElem?_eq_none
        simpa [colors] using h8
      rw [this] at h
      simp at h
    · simp at h
  · rintro ⟨h0, h7⟩
    interval_cases i <;> simp [colorAt, colors]

/-- C25: every index the decoder computes into the colour table lies in 0..7. For every code,
an index is computed only under the guard 30..37 or 40..47, where `c - 30` (`c - 40`) lies in
0..7 and the access finds an entry; with the accesses checked, applying a code, applying the
parameters of a sequence and decoding a chunk never end in the out-of-range branch and give
what the unchecked decoder gives. -/
theorem colour_index_is_in_range (text : QString) (fuel : Nat) (style : QTextCharFormat)
    (params : QString) (command : Char) (code : QString) :
    (30 ≤ toInt code ∧ toInt code ≤ 37 →
        0 ≤ toInt code - 30 ∧ toInt code - 30 ≤ 7 ∧ (colorAt (toInt code - 30)).isSome = true)
      ∧ (40 ≤ toInt code ∧ toInt code ≤ 47 →
          0 ≤ toInt code - 40 ∧ toInt code - 40 ≤ 7
            ∧ (colorAt (toInt code - 40)).isSome = true)
      ∧ (∀ i : Int, (colorAt i).isSome = true ↔ 0 ≤ i ∧ i ≤ 7)
      ∧ applyCodeChecked style code = some (applyCode style code)
      ∧ applySequenceChecked style params command = some (applySequence style params command)
      ∧ processLoopChecked text fuel 0 style ≠ some CheckedResult.outOfRange
      ∧ processLoopChecked text fuel 0 style
          = (processANSI fuel style text).map CheckedResult.returned := by
  refine ⟨?_, ?_, colorAt_isSome_iff, applyCodeChecked_eq style code,
    applySequenceChecked_eq style params command, ?_, processLoopChecked_eq text fuel 0 style⟩
  · rintro ⟨h1, h2⟩
    have hr : 0 ≤ toInt code - 30 ∧ toInt code - 30 ≤ 7 := by omega
    exact ⟨hr.1, hr.2, (colorAt_isSome_iff _).mpr hr⟩
  · rintro ⟨h1, h2⟩
    have hr : 0 ≤ toInt code - 40 ∧ toInt code - 40 ≤ 7 := by omega
    exact ⟨hr.1, hr.2, (colorAt_isSome_iff _).mpr hr⟩
  · rw [processLoopChecked_eq]
    cases processLoop text fuel 0 style with
    | none => simp
    | some r => simp

/-- C25, at the codes `37` and `40` and at the chunk `"\x1b[37;40;99mX"`. -/
theorem colour_index_is_in_range_witness :
    toInt "37".toList - 30 = 7 ∧ (colorAt (toInt "37".toList - 30)).isSome = true
      ∧ toInt "40".toList - 40 = 0 ∧ (colorAt (toInt "40".toList - 40)).isSome = true
      ∧ processLoopChecked "\x1b[37;40;99mX".toList 3 0 defaultFormat
          ≠ some CheckedResult.outOfRange :=
  have h := colour_index_is_in_range "\x1b[37;40;99mX".toList 3 defaultFormat "37;40;99".toList
    'm' "37".toList
  have h2 := colour_index_is_in_range "\x1b[37;40;99mX".toList 3 defaultFormat
    "37;40;99".toList 'm' "40".toList
  ⟨by decide, (h.1 (by decide)).2.2, by decide, (h2.2.1 (by decide)).2.2, h.2.2.2.2.2.1⟩

/-! ## Terminal decoder: the codes of one sequence -/

/-- A chunk that starts with a complete sequence: one iteration applies the sequence, then the
rest is decoded from the new style. -/
theorem processANSI_sequence_then (style : QTextCharFormat) (params : QString) (command : Char)
    (rest : QString) (fuel : Nat) (hp : params.all isParamChar = true)
    (hc : isCommandChar command = true) :
    processANSI (fuel + 1) style (ESC :: '[' :: (params ++ command :: rest))
      = processANSI fuel (applySequence style params command) rest := by
  have hmatch : matchHere ((ESC :: '[' :: (params ++ command :: rest)).drop 0)
      = some (params, command) := matchHere_sequence params command rest hp hc
  rw [processANSI, processLoop_sequence _ fuel 0 style params command hmatch, processANSI]
  apply processLoop_suffix
  have e : 0 + 2 + params.length + 1 = (ESC :: '[' :: (params ++ [command])).length := by
    simp
    omega
  have e3 : ESC :: '[' :: (params ++ command :: rest)
      = (ESC :: '[' :: (params ++ [command])) ++ rest := by simp
  rw [e, e3, List.drop_left]
  rfl

theorem applySequence_append_sep (style : QTextCharFormat) (p q : QString) :
    applySequence style (p ++ ';' :: q) 'm'
      = applySequence (applySequence style p 'm') q 'm' := by
  simp [applySequence, split_append_sep, List.foldl_append]

theorem all_isParamChar_join (p q : QString) (hp : p.all isParamChar = true)
    (hq : q.all isParamChar = true) : (p ++ ';' :: q).all isParamChar = true := by
  simp only [List.all_append, List.all_cons, hp, hq, Bool.true_and, Bool.and_true]
  decide

/-- C28: the codes of one sequence are applied from left to right, empty parameters dropped.
For parameter strings p and q over digits and `;`, the chunk ESC `[` p `;` q `m` decodes to
the same style, with no run, as ESC `[` p `m` followed by ESC `[` q `m`, in one chunk or in
two calls; and the sequences ESC `[` `m` and ESC `[` `;` `m` leave the style unchanged. -/
theorem sgr_codes_apply_left_to_right (style : QTextCharFormat) (p q : QString)
    (hp : p.all isParamChar = true) (hq : q.all isParamChar = true) :
    applySequence style (p ++ ';' :: q) 'm'
        = applySequence (applySequence style p 'm') q 'm'
      ∧ processANSI 2 style (ESC :: '[' :: ((p ++ ';' :: q) ++ ['m']))
          = some (applySequence (applySequence style p 'm') q 'm', [])
      ∧ processANSI 3 style ((ESC :: '[' :: (p ++ ['m'])) ++ (ESC :: '[' :: (q ++ ['m'])))
          = some (applySequence (applySequence style p 'm') q 'm', [])
      ∧ processANSI 2 style (ESC :: '[' :: (p ++ ['m'])) = some (applySequence style p 'm', [])
      ∧ processANSI 2 (applySequence style p 'm') (ESC :: '[' :: (q ++ ['m']))
          = some (applySequence (applySequence style p 'm') q 'm', [])
      ∧ processANSI 2 style [ESC, '[', 'm'] = some (style, [])
      ∧ processANSI 2 style [ESC, '[', ';', 'm'] = some (style, []) := by
  have hm : isCommandChar 'm' = true := by decide
  refine ⟨applySequence_append_sep style p q, ?_, ?_, processANSI_single_sequence style p 'm' hp hm,
    processANSI_single_sequence _ q 'm' hq hm, ?_, ?_⟩
  · rw [processANSI_single_sequence style (p ++ ';' :: q) 'm' (all_isParamChar_join p q hp hq) hm,
      applySequence_append_sep]
  · have e : (ESC :: '[' :: (p ++ ['m'])) ++ (ESC :: '[' :: (q ++ ['m']))
        = ESC :: '[' :: (p ++ 'm' :: (ESC :: '[' :: (q ++ ['m']))) := by simp
    rw [e, processANSI_sequence_then style p 'm' _ 2 hp hm,
      processANSI_single_sequence _ q 'm' hq hm]
  · have h := processANSI_single_sequence style [] 'm' rfl hm
    have e : applySequence style [] 'm' = style := by
      simp [applySequence, split, splitKeepEmpty]
    rw [e] at h
    exact h
  · have h := processANSI_single_sequence style [';'] 'm' (by decide) hm
    have e : applySequence style [';'] 'm' = style := by
      simp [applySequence, split, splitKeepEmpty]
    rw [e] at h
    exact h

/-- C28, at p = `1;;31` and q = `44` from the default style: both ways end in bold red on
blue. -/
theorem sgr_codes_apply_left_to_right_witness :
    processANSI 2 defaultFormat "\x1b[1;;31;44m".toList
        = some ({ foreground := QColor.red, background := QColor.blue, bold := true }, [])
      ∧ processANSI 3 defaultFormat "\x1b[1;;31m\x1b[44m".toList
          = some ({ foreground := QColor.red, background := QColor.blue, bold := true }, []) := by
  have h := sgr_codes_apply_left_to_right defaultFormat "1;;31".toList "44".toList (by decide)
    (by decide)
  have e : applySequence (applySequence defaultFormat "1;;31".toList 'm') "44".toList 'm'
      = { foreground := QColor.red, background := QColor.blue, bold := true } := by decide
  rw [e] at h
  exact ⟨h.2.1, h.2.2.1⟩

/-! ## Terminal decoder: when the loop exits -/

/-- The loop is its body iterated. -/
theorem processLoop_eq_loopBody (text : QString) (fuel pos : Nat) (style : QTextCharFormat) :
    processLoop text (fuel + 1) pos style
      = if pos < text.length then
          match loopBody text pos style with
          | Iteration.leave emitted => some (style, emitted)
          | Iteration.next pos2 style2 emitted =>
            (processLoop text fuel pos2 style2).map (fun r => (r.1, emitted ++ r.2))
        else some (style, []) := by
  rw [processLoop]
  split
  · unfold loopBody
    split
    · simp
    · split
      · rfl
      · simp [emit]
  · rfl

theorem loopBody_sequence (text : QString) (pos : Nat) (style : QTextCharFormat)
    (params : QString) (command : Char)
    (h : matchHere (text.drop pos) = some (params, command)) :
    loopBody text pos style
      = Iteration.next (pos + 2 + params.length + 1) (applySequence style params command) [] := by
  simp [loopBody, ansiRegexMatch, matchFrom_of_matchHere _ pos _ _ h, Option.filter]

theorem loopBody_text (text : QString) (pos : Nat) (style : QTextCharFormat)
    (h : matchHere (text.drop pos) = none) :
    loopBody text pos style
      = if ESC ∈ text.drop pos then
          Iteration.next (pos + (text.drop pos).indexOf ESC) style
            [{ text := (text.drop pos).take ((text.drop pos).indexOf ESC), format := style }]
        else Iteration.leave [{ text := text.drop pos, format := style }] := by
  by_cases hmem : ESC ∈ text.drop pos
  · simp [loopBody, ansiRegexMatch, matchFrom_filter_none _ pos h, indexOf, hmem, mid]
  · simp [loopBody, ansiRegexMatch, matchFrom_filter_none _ pos h, indexOf, hmem, midToEnd]

theorem everyEscComplete_of_not_mem (s : QString) (h : ESC ∉ s) : everyEscComplete s = true := by
  induction s with
  | nil => rfl
  | cons c cs ih =>
    simp only [List.mem_cons, not_or] at h
    have hc : c ≠ ESC := fun e => h.1 e.symm
    simp [everyEscComplete, hc, ih h.2]

theorem everyEscComplete_append_of_not_mem (xs ys : QString) (h : ESC ∉ xs)
    (hy : everyEscComplete ys = true) : everyEscComplete (xs ++ ys) = true := by
  induction xs with
  | nil => simpa using hy
  | cons c cs ih =>
    simp only [List.mem_cons, not_or] at h
    have hc : c ≠ ESC := fun e => h.1 e.symm
    simp [everyEscComplete, hc, ih h.2]

theorem not_mem_sequence_tail (params : QString) (command : Char)
    (hp : params.all isParamChar = true) (hc : isCommandChar command = true) :
    ESC ∉ '[' :: (params ++ [command]) := by
  intro h
  simp only [List.mem_cons, List.mem_append, List.mem_singleton, List.not_mem_nil,
    or_false] at h
  rcases h with h | h | h
  · exact absurd h (by decide)
  · have := List.all_eq_true.mp hp _ h
    exact absurd this (by decide)
  · rw [← h] at hc
    exact absurd hc (by decide)

/-- A run of the loop that exits has met only ESC characters at which a sequence starts. -/
theorem everyEscComplete_of_returns (text : QString) (fuel : Nat) :
    ∀ (pos : Nat) (style : QTextCharFormat) (result : DecodeResult),
      processLoop text fuel pos style = some result →
      everyEscComplete (text.drop pos) = true := by
  induction fuel with
  | zero => intro pos style result h; simp [processLoop] at h
  | succ n ih =>
    intro pos style result h
    by_cases hnil : text.drop pos = []
    · rw [hnil]
      rfl
    · cases hm : matchHere (text.drop pos) with
      | some pc =>
        obtain ⟨params, command⟩ := pc
        rw [processLoop_sequence text n pos style params command hm] at h
        have hrest := ih _ _ _ h
        obtain ⟨rest, hs, hp, hc⟩ := matchHere_eq_some hm
        have e1 : pos + 2 + params.length + 1 = pos + (2 + params.length + 1) := by omega
        have e2 : 2 + params.length + 1 = (ESC :: '[' :: (params ++ [command])).length := by
          simp
          omega
        have e3 : ESC :: '[' :: (params ++ command :: rest)
            = (ESC :: '[' :: (params ++ [command])) ++ rest := by simp
        rw [e1, drop_add_eq text pos, hs, e2, e3, List.drop_left] at hrest
        have htail : everyEscComplete (('[' :: (params ++ [command])) ++ rest) = true :=
          everyEscComplete_append_of_not_mem _ _ (not_mem_sequence_tail params command hp hc)
            hrest
        have hsome : (matchHere (ESC :: '[' :: (params ++ command :: rest))).isSome = true := by
          rw [matchHere_sequence params command rest hp hc]
          rfl
        rw [hs]
        have e4 : ESC :: '[' :: (params ++ command :: rest)
            = ESC :: (('[' :: (params ++ [command])) ++ rest) := by simp
        rw [e4] at hsome ⊢
        rw [show everyEscComplete (ESC :: (('[' :: (params ++ [command])) ++ rest))
            = ((ESC != ESC
                || (matchHere (ESC :: (('[' :: (params ++ [command])) ++ rest))).isSome)
              && everyEscComplete (('[' :: (params ++ [command])) ++ rest)) from rfl,
          hsome, htail]
        simp
      | none =>
        rw [processLoop_text text n pos style hnil hm] at h
        by_cases hmem : ESC ∈ text.drop pos
        · rw [if_pos hmem] at h
          cases hrec : processLoop text n (pos + (text.drop pos).indexOf ESC) style with
          | none => simp [hrec, emit] at h
          | some r0 =>
            have hrest := ih _ _ _ hrec
            rw [drop_add_eq text pos] at hrest
            have hsplit : (text.drop pos).take ((text.drop pos).indexOf ESC)
                ++ (text.drop pos).drop ((text.drop pos).indexOf ESC) = text.drop pos :=
              List.take_append_drop _ _
            have hno : ESC ∉ (text.drop pos).take ((text.drop pos).indexOf ESC) := by
              intro hin
              obtain ⟨k, hk, hget⟩ := List.getElem_of_mem hin
              have hk2 : k < (text.drop pos).indexOf ESC := by
                have := List.length_take_le ((text.drop pos).indexOf ESC) (text.drop pos)
                omega
              rw [List.getElem_take] at hget
              have hfalse := List.not_of_lt_findIdx hk2
              simp [hget] at hfalse
            rw [← hsplit]
            exact everyEscComplete_append_of_not_mem _ _ hno hrest
        · exact everyEscComplete_of_not_mem _ hmem

/-- C26: the loop of `processANSI` exits on a chunk exactly when every ESC of the chunk is the
start of a match of ESC `[` `[0-9;]*` `[a-zA-Z]`, whatever the style. The loop is its body
iterated, and one iteration of the body at a position inside the text
* where the character is not ESC either leaves the loop (no ESC follows: the rest is
  appended) or goes on at a strictly greater position;
* where a match starts goes on at a strictly greater position;
* where an ESC stands at which no match starts goes on at the same position with the same
  style. -/
theorem processANSI_returns_iff_every_escape_complete (text : QString)
    (style : QTextCharFormat) :
    ((∃ fuel result, processANSI fuel style text = some result) ↔ everyEscComplete text = true)
      ∧ (∀ fuel pos, processLoop text (fuel + 1) pos style
          = if pos < text.length then
              match loopBody text pos style with
              | Iteration.leave emitted => some (style, emitted)
              | Iteration.next pos2 style2 emitted =>
                (processLoop text fuel pos2 style2).map (fun r => (r.1, emitted ++ r.2))
            else some (style, []))
      ∧ (∀ pos c rest, text.drop pos = c :: rest → c ≠ ESC →
          (∃ emitted, loopBody text pos style = Iteration.leave emitted)
            ∨ ∃ pos2 style2 emitted,
                loopBody text pos style = Iteration.next pos2 style2 emitted ∧ pos < pos2)
      ∧ (∀ pos params command, matchHere (text.drop pos) = some (params, command) →
          ∃ pos2 style2 emitted,
            loopBody text pos style = Iteration.next pos2 style2 emitted ∧ pos < pos2)
      ∧ (∀ pos rest, text.drop pos = ESC :: rest → matchHere (text.drop pos) = none →
          ∃ emitted, loopBody text pos style = Iteration.next pos style emitted) := by
  refine ⟨⟨?_, ?_⟩, fun fuel pos => processLoop_eq_loopBody text fuel pos style, ?_, ?_, ?_⟩
  · rintro ⟨fuel, result, h⟩
    have := everyEscComplete_of_returns text fuel 0 style result h
    simpa using this
  · intro h
    obtain ⟨ps, hv, hm, hr⟩ := exists_pieces text.length text (Nat.le_refl _) h
    exact ⟨ps.length + 1, _, processLoop_pieces text ps 0 style hv hm (by simpa using hr.symm)⟩
  · intro pos c rest hd hc
    have hnone : matchHere (text.drop pos) = none := by
      rw [hd]
      exact matchHere_of_head_ne c rest hc
    rw [loopBody_text text pos style hnone]
    by_cases hmem : ESC ∈ text.drop pos
    · right
      rw [if_pos hmem]
      refine ⟨_, _, _, rfl, ?_⟩
      rw [hd, List.indexOf_cons_ne _ hc]
      omega
    · left
      rw [if_neg hmem]
      exact ⟨_, rfl⟩
  · intro pos params command hm
    rw [loopBody_sequence text pos style params command hm]
    exact ⟨_, _, _, rfl, by omega⟩
  · intro pos rest hd hnone
    rw [loopBody_text text pos style hnone]
    have hmem : ESC ∈ text.drop pos := by
      rw [hd]
      simp
    rw [if_pos hmem, hd]
    simp

/-- C26, at the chunk `"ab\x1b[1mc\x1bX"`: it holds an ESC at which no match starts, so the
loop never exits on it; its iterations advance from position 0 to 2, from 2 to 6, from 6 to
7, and stay at 7. -/
theorem processANSI_returns_iff_every_escape_complete_witness :
    (¬ ∃ fuel result, processANSI fuel defaultFormat "ab\x1b[1mc\x1bX".toList = some result)
      ∧ loopBody "ab\x1b[1mc\x1bX".toList 0 defaultFormat
          = Iteration.next 2 defaultFormat [{ text := "ab".toList, format := defaultFormat }]
      ∧ loopBody "ab\x1b[1mc\x1bX".toList 2 defaultFormat
          = Iteration.next 6 { defaultFormat with bold := true } []
      ∧ (∃ emitted, loopBody "ab\x1b[1mc\x1bX".toList 7 { defaultFormat with bold := true }
          = Iteration.next 7 { defaultFormat with bold := true } emitted) := by
  have h := processANSI_returns_iff_every_escape_complete "ab\x1b[1mc\x1bX".toList defaultFormat
  have h2 := processANSI_returns_iff_every_escape_complete "ab\x1b[1mc\x1bX".toList
    { defaultFormat with bold := true }
  refine ⟨?_, by decide, by decide, h2.2.2.2.2 7 ['X'] (by decide) (by decide)⟩
  intro hex
  exact absurd (h.1.mp hex) (by decide)

/-! ## Terminal decoder: two chunks against their concatenation, runs merged -/

theorem groupChars_cons (c : Char) (format : QTextCharFormat)
    (rest : List (Char × QTextCharFormat)) :
    groupChars ((c, format) :: rest)
      = match groupChars rest with
        | [] => [{ text := [c], format := format }]
        | m :: more =>
          if m.format = format then { text := c :: m.text, format := format } :: more
          else { text := [c], format := format } :: m :: more := by
  rw [groupChars]

theorem groupChars_text_append (format : QTextCharFormat) (rest : List (Char × QTextCharFormat)) :
    ∀ t : QString, t ≠ [] →
      groupChars (t.map (fun c => (c, format)) ++ rest)
        = match groupChars rest with
          | [] => [{ text := t, format := format }]
          | m :: more =>
            if m.format = format then { text := t ++ m.text, format := format } :: more
            else { text := t, format := format } :: m :: more := by
  intro t
  induction t with
  | nil => intro h; exact absurd rfl h
  | cons c cs ih =>
    intro _
    cases cs with
    | nil =>
      show groupChars ((c, format) :: rest) = _
      rw [groupChars_cons]
      cases groupChars rest with
      | nil => rfl
      | cons m more => rfl
    | cons c2 cs2 =>
      show groupChars ((c, format) :: ((c2 :: cs2).map (fun c => (c, format)) ++ rest)) = _
      rw [groupChars_cons, ih (by simp)]
      cases groupChars rest with
      | nil => simp
      | cons m more =>
        by_cases hf : m.format = format
        · simp [hf]
        · simp [hf]

theorem mergeRuns_eq_groupChars (runs : List StyledRun) (h : ∀ r ∈ runs, r.text ≠ []) :
    mergeRuns runs = groupChars (styledChars runs) := by
  induction runs with
  | nil => rfl
  | cons r rest ih =>
    have hr : r.text ≠ [] := h r (List.mem_cons_self _ _)
    have ih2 := ih (fun x hx => h x (List.mem_cons_of_mem _ hx))
    rw [styledChars_cons, groupChars_text_append r.format _ r.text hr, ← ih2, mergeRuns]

theorem runsOf_text_ne_nil (ps : List Piece) :
    ∀ style, maximalSegments ps = true → ∀ r ∈ runsOf style ps, r.text ≠ [] := by
  induction ps with
  | nil => intro style _ r hr; simp [runsOf] at hr
  | cons p rest ih =>
    intro style hm r hr
    cases p with
    | text seg =>
      simp only [maximalSegments, Bool.and_eq_true] at hm
      simp only [runsOf, List.mem_cons] at hr
      rcases hr with hr | hr
      · subst hr
        intro e
        have e2 : seg = [] := e
        rw [e2] at hm
        simp at hm
      · exact ih style hm.2 r hr
    | sequence params command =>
      simp only [maximalSegments] at hm
      simp only [runsOf] at hr
      exact ih _ hm r hr

/-- Two decoded texts in each of which every ESC begins a complete sequence: decoding the one
and then the other and decoding their concatenation return, end in the same style, and give
the same runs once adjacent runs of equal style are merged. -/
theorem decoded_concatenation_merged_runs (style : QTextCharFormat) (a b : QString)
    (ha : everyEscComplete a = true) (hb : everyEscComplete b = true) :
    ∃ first second whole : DecodeResult,
      DecodesTo style a first ∧ DecodesTo first.1 b second ∧ DecodesTo style (a ++ b) whole
        ∧ whole.1 = second.1
        ∧ mergeRuns whole.2 = mergeRuns (first.2 ++ second.2) := by
  obtain ⟨pa, hva, hma, hra⟩ := exists_pieces a.length a (Nat.le_refl _) ha
  obtain ⟨pb, hvb, hmb, hrb⟩ := exists_pieces b.length b (Nat.le_refl _) hb
  have hda := processLoop_pieces a pa 0 style hva hma (by simpa using hra.symm)
  have hdb := processLoop_pieces b pb 0 (styleAfter style pa) hvb hmb (by simpa using hrb.symm)
  obtain ⟨fw, rw, hdw, hcw⟩ :=
    processLoop_validPieces (a ++ b) (pa ++ pb) 0 style (validPieces_append pa pb hva hvb)
      (by simp [renderPieces_append, hra, hrb])
  have hwhole : everyEscComplete (a ++ b) = true := by
    have := everyEscComplete_of_returns (a ++ b) fw 0 style _ hdw
    simpa using this
  obtain ⟨pw, hvw, hmw, hrw⟩ := exists_pieces (a ++ b).length (a ++ b) (Nat.le_refl _) hwhole
  have hdw2 := processLoop_pieces (a ++ b) pw 0 style hvw hmw (by simpa using hrw.symm)
  have huniq : (styleAfter style (pa ++ pb), rw) = (styleAfter style pw, runsOf style pw) :=
    DecodesTo_unique ⟨fw, hdw⟩ ⟨pw.length + 1, hdw2⟩
  have hruns : rw = runsOf style pw := (Prod.mk.inj huniq).2
  refine ⟨(styleAfter style pa, runsOf style pa),
    (styleAfter (styleAfter style pa) pb, runsOf (styleAfter style pa) pb),
    (styleAfter style (pa ++ pb), rw), ⟨_, hda⟩, ⟨_, hdb⟩, ⟨fw, hdw⟩,
    styleAfter_append pa pb style, ?_⟩
  have hne1 : ∀ r ∈ rw, r.text ≠ [] := by
    rw [hruns]
    exact runsOf_text_ne_nil pw style hmw
  have hne2 : ∀ r ∈ runsOf style pa ++ runsOf (styleAfter style pa) pb, r.text ≠ [] := by
    intro r hr
    rcases List.mem_append.mp hr with h | h
    · exact runsOf_text_ne_nil pa style hma r h
    · exact runsOf_text_ne_nil pb _ hmb r h
  show mergeRuns rw = mergeRuns (runsOf style pa ++ runsOf (styleAfter style pa) pb)
  rw [mergeRuns_eq_groupChars rw hne1, mergeRuns_eq_groupChars _ hne2, hcw, runsOf_append]

/-! ## QEMU console widget: the controls follow the running flag -/

theorem controlsFollowRunning_new (grpcClient : Bool) :
    controlsFollowRunning (QEMUConsoleWidget.new grpcClient) = true := rfl

theorem controlsFollowRunning_startQEMU (w : QEMUConsoleWidget)
    (h : controlsFollowRunning w = true) : controlsFollowRunning w.startQEMU.1 = true := by
  unfold QEMUConsoleWidget.startQEMU
  split
  · exact h
  · rfl

theorem controlsFollowRunning_runSlot (fuel : Nat) (seconds : Int → String)
    (w w2 : QEMUConsoleWidget) (slot : Slot) (calls : List ClientCall)
    (h : controlsFollowRunning w = true) (hs : w.runSlot fuel seconds slot = some (w2, calls)) :
    controlsFollowRunning w2 = true := by
  cases slot with
  | stopQEMU =>
    simp only [QEMUConsoleWidget.runSlot, Option.some.injEq] at hs
    unfold QEMUConsoleWidget.stopQEMU at hs
    split at hs
    · simp only [Prod.mk.injEq] at hs
      rw [← hs.1]
      exact h
    · simp only [Prod.mk.injEq] at hs
      rw [← hs.1]
      rfl
  | clearConsole =>
    simp only [QEMUConsoleWidget.runSlot, Option.some.injEq, Prod.mk.injEq] at hs
    rw [← hs.1]
    exact h
  | sendInput =>
    simp only [QEMUConsoleWidget.runSlot, Option.some.injEq] at hs
    unfold QEMUConsoleWidget.sendInput at hs
    split at hs
    · simp only [Prod.mk.injEq] at hs
      rw [← hs.1]
      exact h
    · split at hs
      · simp only [Prod.mk.injEq] at hs
        rw [← hs.1]
        exact h
      · simp only [Prod.mk.injEq] at hs
        rw [← hs.1]
        exact h
  | typeInput text =>
    simp only [QEMUConsoleWidget.runSlot, Option.some.injEq, Prod.mk.injEq] at hs
    rw [← hs.1]
    exact h
  | onQEMUStarted pid qemuVersion command =>
    simp only [QEMUConsoleWidget.runSlot, Option.some.injEq, Prod.mk.injEq] at hs
    rw [← hs.1]
    exact h
  | onQEMUConsoleOutput text =>
    simp only [QEMUConsoleWidget.runSlot, QEMUConsoleWidget.onQEMUConsoleOutput] at hs
    cases hp : processANSI fuel w.currentFormat text with
    | none => simp [hp] at hs
    | some r =>
      simp only [hp, Option.map_some', Option.some.injEq, Prod.mk.injEq] at hs
      rw [← hs.1]
      exact h
  | onQEMUStopped exitCode uptimeMs =>
    simp only [QEMUConsoleWidget.runSlot, Option.some.injEq, Prod.mk.injEq] at hs
    rw [← hs.1]
    rfl
  | onQEMUError error =>
    simp only [QEMUConsoleWidget.runSlot, Option.some.injEq, Prod.mk.injEq] at hs
    rw [← hs.1]
    exact h

theorem controlsFollowRunning_runActions (fuel : Nat) (seconds : Int → String)
    (actions : List WidgetAction) :
    ∀ (w w2 : QEMUConsoleWidget), controlsFollowRunning w = true →
      w.runActions fuel seconds actions = some w2 → controlsFollowRunning w2 = true := by
  induction actions with
  | nil =>
    intro w w2 h hr
    simp only [QEMUConsoleWidget.runActions, Option.some.injEq] at hr
    rw [← hr]
    exact h
  | cons action more ih =>
    intro w w2 h hr
    simp only [QEMUConsoleWidget.runActions] at hr
    cases ha : w.runAction fuel seconds action with
    | none => simp [ha] at hr
    | some w1 =>
      simp only [ha] at hr
      refine ih w1 w2 ?_ hr
      cases action with
      | startQEMU =>
        simp only [QEMUConsoleWidget.runAction, Option.some.injEq] at ha
        rw [← ha]
        exact controlsFollowRunning_startQEMU w h
      | slot sl =>
        simp only [QEMUConsoleWidget.runAction] at ha
        cases hsl : w.runSlot fuel seconds sl with
        | none => simp [hsl] at ha
        | some r =>
          simp only [hsl, Option.map_some', Option.some.injEq] at ha
          rw [← ha]
          exact controlsFollowRunning_runSlot fuel seconds w r.1 sl r.2 h hsl

/-- C30: in every state the widget reaches from its construction by `startQEMU`, `stopQEMU`,
`sendInput`, `clearConsole`, edits of the input line and the four handlers, in any order, the
start button is enabled exactly when the widget is not running, and the stop button and the
input line are enabled exactly when it is; and `startQEMU` on a running widget changes
nothing and calls nothing. -/
theorem controls_follow_running_flag (fuel : Nat) (seconds : Int → String)
    (grpcClient : Bool) (actions : List WidgetAction) (w : QEMUConsoleWidget)
    (h : (QEMUConsoleWidget.new grpcClient).runActions fuel seconds actions = some w) :
    (w.startButtonEnabled = true ↔ w.isRunning = false)
      ∧ (w.stopButtonEnabled = true ↔ w.isRunning = true)
      ∧ (w.inputLineEnabled = true ↔ w.isRunning = true)
      ∧ (w.isRunning = true → w.startQEMU = (w, [])) := by
  have hc := controlsFollowRunning_runActions fuel seconds actions _ w
    (controlsFollowRunning_new grpcClient) h
  simp only [controlsFollowRunning, Bool.and_eq_true, beq_iff_eq] at hc
  obtain ⟨⟨h1, h2⟩, h3⟩ := hc
  refine ⟨?_, ?_, ?_, ?_⟩
  · rw [h1]
    simp
  · rw [h2]
  · rw [h3]
  · intro hr
    simp [QEMUConsoleWidget.startQEMU, hr]

/-- C30, on a widget with a client after start, Started, console output, a second start,
typed input sent, an error, Stopped, a stop request and a third start. -/
theorem controls_follow_running_flag_witness :
    ∃ w, (QEMUConsoleWidget.new true).runActions 5 wholeSeconds
          [WidgetAction.startQEMU,
           WidgetAction.slot (Slot.onQEMUStarted 4242 "8.2.0" "qemu-system-aarch64"),
           WidgetAction.slot (Slot.onQEMUConsoleOutput "\x1b[32mOK\x1b[0m\n".toList),
           WidgetAction.startQEMU,
           WidgetAction.slot (Slot.typeInput "ls".toList),
           WidgetAction.slot Slot.sendInput,
           WidgetAction.slot (Slot.onQEMUError "warning"),
           WidgetAction.slot (Slot.onQEMUStopped 0 1500),
           WidgetAction.slot Slot.stopQEMU,
           WidgetAction.startQEMU] = some w
      ∧ w.isRunning = true
      ∧ (w.startButtonEnabled = true ↔ w.isRunning = false)
      ∧ (w.stopButtonEnabled = true ↔ w.isRunning = true)
      ∧ (w.inputLineEnabled = true ↔ w.isRunning = true)
      ∧ w.startQEMU = (w, []) := by
  obtain ⟨w, hw⟩ := Option.isSome_iff_exists.mp
    (show ((QEMUConsoleWidget.new true).runActions 5 wholeSeconds
          [WidgetAction.startQEMU,
           WidgetAction.slot (Slot.onQEMUStarted 4242 "8.2.0" "qemu-system-aarch64"),
           WidgetAction.slot (Slot.onQEMUConsoleOutput "\x1b[32mOK\x1b[0m\n".toList),
           WidgetAction.startQEMU,
           WidgetAction.slot (Slot.typeInput "ls".toList),
           WidgetAction.slot Slot.sendInput,
           WidgetAction.slot (Slot.onQEMUError "warning"),
           WidgetAction.slot (Slot.onQEMUStopped 0 1500),
           WidgetAction.slot Slot.stopQEMU,
           WidgetAction.startQEMU]).isSome = true by decide)
  have h := controls_follow_running_flag 5 wholeSeconds true _ w hw
  have hrun : w.isRunning = true := by
    have hmap := congrArg (Option.map (fun v : QEMUConsoleWidget => v.isRunning)) hw
    have hval : Option.map (fun v : QEMUConsoleWidget => v.isRunning)
        ((QEMUConsoleWidget.new true).runActions 5 wholeSeconds
          [WidgetAction.startQEMU,
           WidgetAction.slot (Slot.onQEMUStarted 4242 "8.2.0" "qemu-system-aarch64"),
           WidgetAction.slot (Slot.onQEMUConsoleOutput "\x1b[32mOK\x1b[0m\n".toList),
           WidgetAction.startQEMU,
           WidgetAction.slot (Slot.typeInput "ls".toList),
           WidgetAction.slot Slot.sendInput,
           WidgetAction.slot (Slot.onQEMUError "warning"),
           WidgetAction.slot (Slot.onQEMUStopped 0 1500),
           WidgetAction.slot Slot.stopQEMU,
           WidgetAction.startQEMU]) = some true := by decide
    rw [hval] at hmap
    simpa using hmap.symm
  exact ⟨w, hw, hrun, h.1, h.2.1, h.2.2.1, h.2.2.2 hrun⟩

/-! ## Terminal decoder: chunks of bytes, each decoded on its own -/

theorem skipBom_of_isAscii (data : QByteArray) (h : isAscii data = true) : skipBom data = data := by
  match data, h with
  | [], _ => rfl
  | [_], _ => rfl
  | [_, _], _ => rfl
  | b0 :: b1 :: b2 :: rest, h =>
    simp only [isAscii, List.all_cons, Bool.and_eq_true, decide_eq_true_eq] at h
    have h0 : ¬ (b0.toNat = 239 ∧ b1.toNat = 187 ∧ b2.toNat = 191) := by
      intro hc
      have := h.1
      omega
    simp only [skipBom, if_neg h0]

theorem decodeUtf8_of_isAscii (data : QByteArray) :
    ∀ fuel, data.length ≤ fuel → isAscii data = true →
      decodeUtf8 fuel data = data.map (fun b => Char.ofNat b.toNat) := by
  induction data with
  | nil =>
    intro fuel _ _
    cases fuel <;> rfl
  | cons b rest ih =>
    intro fuel hlen h
    simp only [isAscii, List.all_cons, Bool.and_eq_true, decide_eq_true_eq] at h
    cases fuel with
    | zero => simp at hlen
    | succ n =>
      have hlen2 : rest.length ≤ n := by
        simp only [List.length_cons] at hlen
        omega
      have hseq : decodeSequence b.toNat rest = some (Char.ofNat b.toNat, 0) := by
        simp [decodeSequence, h.1]
      simp only [decodeUtf8, hseq, List.drop_zero, List.map_cons]
      rw [ih n hlen2 (by simpa [isAscii] using h.2)]

theorem qtFromUtf8_of_isAscii (data : QByteArray) (h : isAscii data = true) :
    qtFromUtf8 data = data.map (fun b => Char.ofNat b.toNat) := by
  rw [qtFromUtf8, skipBom_of_isAscii data h]
  exact decodeUtf8_of_isAscii data _ (Nat.le_refl _) h

/-- On ASCII chunks Qt's decoder gives the text of the concatenation as the texts of the two
chunks one after the other. -/
theorem qtFromUtf8_append_of_isAscii (a b : QByteArray) (ha : isAscii a = true)
    (hb : isAscii b = true) : qtFromUtf8 (a ++ b) = qtFromUtf8 a ++ qtFromUtf8 b := by
  have hab : isAscii (a ++ b) = true := by
    simp only [isAscii, List.all_append, Bool.and_eq_true] at ha hb ⊢
    exact ⟨ha, hb⟩
  rw [qtFromUtf8_of_isAscii _ hab, qtFromUtf8_of_isAscii _ ha, qtFromUtf8_of_isAscii _ hb,
    List.map_append]

/-- C2 (counterexample): two splits on which the claim fails. The chunk `"\x1b[31mHi"` decodes
from the default style to the one run `("Hi", red)`, but the first of the two chunks
`"\x1b[3"`, `"1mHi"` has no result at all: the call on it never returns, so nothing is carried
into a next call. And the two bytes `C3 A9` of the character `é` decode in one chunk to the
run `é`, but split between the bytes each call decodes its byte on its own to U+FFFD, so the
two calls give other characters than the one call. -/
theorem chunk_split_counterexample :
    DecodesBytesTo qtFromUtf8 defaultFormat (bytesOf "\x1b[31mHi")
        ({ defaultFormat with foreground := QColor.red },
         [{ text := "Hi".toList, format := { defaultFormat with foreground := QColor.red } }])
      ∧ (¬ ∃ first, DecodesBytesTo qtFromUtf8 defaultFormat (bytesOf "\x1b[3") first)
      ∧ ¬ ∃ first second whole : DecodeResult,
          DecodesBytesTo qtFromUtf8 defaultFormat [195] first
            ∧ DecodesBytesTo qtFromUtf8 first.1 [169] second
            ∧ DecodesBytesTo qtFromUtf8 defaultFormat ([195] ++ [169]) whole
            ∧ styledChars whole.2 = styledChars (first.2 ++ second.2) := by
  refine ⟨⟨2, by decide⟩, ?_, ?_⟩
  · rintro ⟨first, fuel, h⟩
    have hstuck := processLoop_stuck (qtFromUtf8 (bytesOf "\x1b[3")) 0 defaultFormat ['[', '3']
      (by decide) (by decide) fuel
    rw [processANSIBytes, processANSI, hstuck] at h
    exact absurd h (by simp)
  · rintro ⟨first, second, whole, h1, h2, h3, hc⟩
    have e1 : first
        = (defaultFormat, [{ text := [replacementCharacter], format := defaultFormat }]) :=
      DecodesTo_unique h1 ⟨1, by decide⟩
    subst e1
    have e2 : second
        = (defaultFormat, [{ text := [replacementCharacter], format := defaultFormat }]) :=
      DecodesTo_unique h2 ⟨1, by decide⟩
    subst e2
    have e3 : whole
        = (defaultFormat, [{ text := [Char.ofNat 233], format := defaultFormat }]) :=
      DecodesTo_unique h3 ⟨1, by decide⟩
    subst e3
    revert hc
    decide

/-- C2 (amended): `processANSI` decodes the bytes of each chunk on its own and keeps only the
current style between calls. For every decoder, every style and all chunks of bytes a and b
such that the split falls inside no character (the text of a ++ b is the text of a followed
by the text of b) and inside no escape sequence (in the text of each chunk every ESC begins a
complete sequence): decoding a and then b returns, decoding a ++ b returns, both end in the
same style and give the same characters with the same style on each character. With Qt's
decoder the condition on characters holds whenever both chunks are ASCII. -/
theorem processANSI_chunk_split_outside_sequences_and_characters
    (fromUtf8 : QByteArray → QString) (style : QTextCharFormat) (a b : QByteArray)
    (hsplit : fromUtf8 (a ++ b) = fromUtf8 a ++ fromUtf8 b)
    (ha : everyEscComplete (fromUtf8 a) = true) (hb : everyEscComplete (fromUtf8 b) = true) :
    (∃ first second whole : DecodeResult,
        DecodesBytesTo fromUtf8 style a first ∧ DecodesBytesTo fromUtf8 first.1 b second
          ∧ DecodesBytesTo fromUtf8 style (a ++ b) whole
          ∧ whole.1 = second.1
          ∧ styledChars whole.2 = styledChars (first.2 ++ second.2))
      ∧ (isAscii a = true → isAscii b = true →
          qtFromUtf8 (a ++ b) = qtFromUtf8 a ++ qtFromUtf8 b) := by
  refine ⟨?_, qtFromUtf8_append_of_isAscii a b⟩
  obtain ⟨first, second, whole, h1, h2, h3, h4, h5⟩ :=
    decoded_split_between_sequences style (fromUtf8 a) (fromUtf8 b) ha hb
  refine ⟨first, second, whole, h1, h2, ?_, h4, h5⟩
  obtain ⟨fuel, hw⟩ := h3
  exact ⟨fuel, by rw [processANSIBytes, hsplit]; exact hw⟩

/-- C2 (amended), with Qt's decoder: at the ASCII chunks `"ab\x1b[31mH"` and `"i\x1b[0m"`, and at
the chunks `C3 A9` (the whole character `é`) and `"\x1b[1mx"`. -/
theorem processANSI_chunk_split_outside_sequences_and_characters_witness :
    (∃ first second whole : DecodeResult,
        DecodesBytesTo qtFromUtf8 defaultFormat (bytesOf "ab\x1b[31mH") first
          ∧ DecodesBytesTo qtFromUtf8 first.1 (bytesOf "i\x1b[0m") second
          ∧ DecodesBytesTo qtFromUtf8 defaultFormat
              (bytesOf "ab\x1b[31mH" ++ bytesOf "i\x1b[0m") whole
          ∧ whole.1 = second.1
          ∧ styledChars whole.2 = styledChars (first.2 ++ second.2))
      ∧ ∃ first second whole : DecodeResult,
          DecodesBytesTo qtFromUtf8 defaultFormat [195, 169] first
            ∧ DecodesBytesTo qtFromUtf8 first.1 (bytesOf "\x1b[1mx") second
            ∧ DecodesBytesTo qtFromUtf8 defaultFormat ([195, 169] ++ bytesOf "\x1b[1mx") whole
            ∧ whole.1 = second.1
            ∧ styledChars whole.2 = styledChars (first.2 ++ second.2) :=
  ⟨(processANSI_chunk_split_outside_sequences_and_characters qtFromUtf8 defaultFormat
      (bytesOf "ab\x1b[31mH") (bytesOf "i\x1b[0m") (by decide) (by decide) (by decide)).1,
   (processANSI_chunk_split_outside_sequences_and_characters qtFromUtf8 defaultFormat
      [195, 169] (bytesOf "\x1b[1mx") (by decide) (by decide) (by decide)).1⟩

/-- C27 (counterexample): the chunks `C3` and `A9`, the two bytes of the character `é`, hold no
ESC, so in each of them every ESC begins a complete sequence. Decoded one after the other
they give U+FFFD twice, decoded as one chunk they give `é`: no results of the three calls
have the same runs after merging. -/
theorem merged_runs_character_split_counterexample :
    everyEscComplete (qtFromUtf8 [195]) = true ∧ everyEscComplete (qtFromUtf8 [169]) = true
      ∧ processANSIBytes qtFromUtf8 1 defaultFormat [195]
          = some (defaultFormat, [{ text := [replacementCharacter], format := defaultFormat }])
      ∧ processANSIBytes qtFromUtf8 1 defaultFormat [169]
          = some (defaultFormat, [{ text := [replacementCharacter], format := defaultFormat }])
      ∧ processANSIBytes qtFromUtf8 1 defaultFormat ([195] ++ [169])
          = some (defaultFormat, [{ text := [Char.ofNat 233], format := defaultFormat }])
      ∧ ¬ ∃ first second whole : DecodeResult,
          DecodesBytesTo qtFromUtf8 defaultFormat [195] first
            ∧ DecodesBytesTo qtFromUtf8 first.1 [169] second
            ∧ DecodesBytesTo qtFromUtf8 defaultFormat ([195] ++ [169]) whole
            ∧ mergeRuns whole.2 = mergeRuns (first.2 ++ second.2) := by
  refine ⟨by decide, by decide, by decide, by decide, by decide, ?_⟩
  rintro ⟨first, second, whole, h1, h2, h3, hc⟩
  have e1 : first
      = (defaultFormat, [{ text := [replacementCharacter], format := defaultFormat }]) :=
    DecodesTo_unique h1 ⟨1, by decide⟩
  subst e1
  have e2 : second
      = (defaultFormat, [{ text := [replacementCharacter], format := defaultFormat }]) :=
    DecodesTo_unique h2 ⟨1, by decide⟩
  subst e2
  have e3 : whole
      = (defaultFormat, [{ text := [Char.ofNat 233], format := defaultFormat }]) :=
    DecodesTo_unique h3 ⟨1, by decide⟩
  subst e3
  revert hc
  decide

/-- C27 (amended): for every decoder, every starting style and all chunks of bytes a and b
such that the split between them falls inside no character (the text of a ++ b is the text of
a followed by the text of b) and, in the text of each of them, every ESC begins a complete
sequence: decoding a and then b returns, decoding a ++ b returns, both end in the same style
and, after merging adjacent runs of equal style, give the same runs. With Qt's decoder the
condition on characters holds whenever both chunks are ASCII. -/
theorem processANSI_chunks_concatenation_merged_runs (fromUtf8 : QByteArray → QString)
    (style : QTextCharFormat) (a b : QByteArray)
    (hsplit : fromUtf8 (a ++ b) = fromUtf8 a ++ fromUtf8 b)
    (ha : everyEscComplete (fromUtf8 a) = true) (hb : everyEscComplete (fromUtf8 b) = true) :
    (∃ first second whole : DecodeResult,
        DecodesBytesTo fromUtf8 style a first ∧ DecodesBytesTo fromUtf8 first.1 b second
          ∧ DecodesBytesTo fromUtf8 style (a ++ b) whole
          ∧ whole.1 = second.1
          ∧ mergeRuns whole.2 = mergeRuns (first.2 ++ second.2))
      ∧ (isAscii a = true → isAscii b = true →
          qtFromUtf8 (a ++ b) = qtFromUtf8 a ++ qtFromUtf8 b) := by
  refine ⟨?_, qtFromUtf8_append_of_isAscii a b⟩
  obtain ⟨first, second, whole, h1, h2, h3, h4, h5⟩ :=
    decoded_concatenation_merged_runs style (fromUtf8 a) (fromUtf8 b) ha hb
  refine ⟨first, second, whole, h1, h2, ?_, h4, h5⟩
  obtain ⟨fuel, hw⟩ := h3
  exact ⟨fuel, by rw [processANSIBytes, hsplit]; exact hw⟩

/-- C27 (amended), with Qt's decoder at the ASCII chunks `"ab\x1b[31mH"` and `"i\x1b[0m!"`: the
run `H` of the first and the run `i` of the second merge into the run `Hi` of the
concatenation. -/
theorem processANSI_chunks_concatenation_merged_runs_witness :
    (∃ first second whole : DecodeResult,
        DecodesBytesTo qtFromUtf8 defaultFormat (bytesOf "ab\x1b[31mH") first
          ∧ DecodesBytesTo qtFromUtf8 first.1 (bytesOf "i\x1b[0m!") second
          ∧ DecodesBytesTo qtFromUtf8 defaultFormat
              (bytesOf "ab\x1b[31mH" ++ bytesOf "i\x1b[0m!") whole
          ∧ whole.1 = second.1
          ∧ mergeRuns whole.2 = mergeRuns (first.2 ++ second.2))
      ∧ processANSIBytes qtFromUtf8 5 defaultFormat
          (bytesOf "ab\x1b[31mH" ++ bytesOf "i\x1b[0m!")
        = some (defaultFormat,
            [{ text := "ab".toList, format := defaultFormat },
             { text := "Hi".toList, format := { defaultFormat with foreground := QColor.red } },
             { text := "!".toList, format := defaultFormat }])
      ∧ mergeRuns
          [{ text := "ab".toList, format := defaultFormat },
           { text := "H".toList, format := { defaultFormat with foreground := QColor.red } },
           { text := "i".toList, format := { defaultFormat with foreground := QColor.red } },
           { text := "!".toList, format := defaultFormat }]
        = [{ text := "ab".toList, format := defaultFormat },
           { text := "Hi".toList, format := { defaultFormat with foreground := QColor.red } },
           { text := "!".toList, format := defaultFormat }] :=
  ⟨(processANSI_chunks_concatenation_merged_runs qtFromUtf8 defaultFormat
      (bytesOf "ab\x1b[31mH") (bytesOf "i\x1b[0m!") (by decide) (by decide) (by decide)).1,
   by decide, by decide⟩

end Elmos
